import Mathlib

/-!
# Adaptive CPU controller (power-libperfmgr/adaptivecpu)

A shallow embedding of the adaptive CPU throttling controller and of its
work-duration processor, followed by the properties proved about them.

Conventions of the embedding.

* `std::chrono::nanoseconds` values are `Int` counts of nanoseconds and
  `std::chrono::milliseconds` values are `Nat` counts of milliseconds (the
  configuration fields are read as `uint32_t`).  A comparison or sum that mixes
  the two converts the milliseconds with `msToNs`, as `std::chrono` does.
* `int64_t` accumulators are reduced with `wrapInt64` and `uint32_t` counters
  with `wrapUInt32` after every arithmetic step.
* Clock readings, and the sums and differences the controller forms of them,
  are far inside the range of `int64_t` and are not reduced.
* A `std::mutex`-guarded member function is one atomic state transformer: it
  takes the object and returns the result together with the new object.
* One pass through the body of `while (true)` in `RunMainLoop` is one function
  application; what the pass reads from its collaborators (clock, property
  store, kernel reader, model) is collected in `LoopEnv`.  Calls made by other
  threads (`HintReceived`, `ReportWorkDurations`) take effect between passes.
-/

namespace Pixel

set_option maxRecDepth 100000

/-! ## Machine integers -/

/-- Two's-complement reduction of an integer to the range of `int64_t`. -/
def wrapInt64 (x : Int) : Int :=
  (x + 2 ^ 63) % 2 ^ 64 - 2 ^ 63

/-- Reduction of a natural number to the range of `uint32_t`. -/
def wrapUInt32 (n : Nat) : Nat :=
  n % 2 ^ 32

/-- Largest value of `int64_t`. -/
def INT64_MAX : Int := 2 ^ 63 - 1

/-- Conversion `std::chrono::milliseconds` to `std::chrono::nanoseconds`. -/
def msToNs (ms : Nat) : Int :=
  (ms : Int) * 1000000

/-! ## WorkDurationProcessor.h -/

/-- AIDL `WorkDuration`: two `long` fields. -/
structure WorkDuration where
  timeStampNanos : Int
  durationNanos : Int
deriving DecidableEq, Repr

/-- The `struct WorkDurationBatch`. -/
structure WorkDurationBatch where
  workDurations : List WorkDuration
  targetDuration : Int
deriving DecidableEq, Repr

/-- The `struct WorkDurationFeatures`. -/
structure WorkDurationFeatures where
  averageDuration : Int
  maxDuration : Int
  numMissedDeadlines : Nat
  numDurations : Nat
deriving DecidableEq, Repr

/-- The `class WorkDurationProcessor`: the batches reported since the last
`GetFeatures`, least recent first. -/
structure WorkDurationProcessor where
  mWorkDurationBatches : List WorkDurationBatch
deriving DecidableEq, Repr

/-! ## WorkDurationProcessor.cpp -/

/-- The constant `kNormalTargetDuration = 16666666ns`. -/
def kNormalTargetDuration : Int := 16666666

/-- The constant `kMinDuration = 0ns`. -/
def kMinDuration : Int := 0

/-- The constant `kMaxDuration = 600 * kNormalTargetDuration`. -/
def kMaxDuration : Int := 600 * kNormalTargetDuration

/-- The constant `kMaxUnprocessedBatches = 1000`. -/
def kMaxUnprocessedBatches : Nat := 1000

/-- `WorkDurationProcessor::ReportWorkDurations`: the returned flag and the
processor after the call. -/
def WorkDurationProcessor.ReportWorkDurations (p : WorkDurationProcessor)
    (workDurations : List WorkDuration) (targetDuration : Int) :
    Bool × WorkDurationProcessor :=
  if p.mWorkDurationBatches.length ≥ kMaxUnprocessedBatches then
    (false, { mWorkDurationBatches := [] })
  else
    (true, { mWorkDurationBatches :=
      p.mWorkDurationBatches ++ [{ workDurations := workDurations,
                                   targetDuration := targetDuration }] })

/-- The four local variables of `GetFeatures` that the two nested loops
update. -/
structure FeatureSums where
  durationsSum : Int
  maxDuration : Int
  numMissedDeadlines : Nat
  numDurations : Nat
deriving DecidableEq, Repr

/-- The values of the locals before the loops. -/
def FeatureSums.init : FeatureSums :=
  { durationsSum := 0, maxDuration := 0, numMissedDeadlines := 0, numDurations := 0 }

/-- The filter at the head of the inner loop body: the test whose success
leads to `continue`. -/
def isRejected (duration : Int) : Bool :=
  decide (duration < kMinDuration) || decide (duration > kMaxDuration)

/-- The expression `(duration * kNormalTargetDuration.count()) /
batch.targetDuration.count()`, in `int64_t` with truncating division. -/
def normalizeDuration (duration targetDuration : Int) : Int :=
  wrapInt64 (Int.tdiv (wrapInt64 (duration * kNormalTargetDuration)) targetDuration)

/-- One pass through the inner loop body of `GetFeatures`. -/
def accumulateDuration (targetDuration : Int) (acc : FeatureSums)
    (workDuration : WorkDuration) : FeatureSums :=
  let duration := workDuration.durationNanos
  if isRejected duration then acc
  else
    let durationNormalized := normalizeDuration duration targetDuration
    { durationsSum := wrapInt64 (acc.durationsSum + durationNormalized)
      maxDuration := max acc.maxDuration durationNormalized
      numMissedDeadlines :=
        if duration > targetDuration then wrapUInt32 (acc.numMissedDeadlines + 1)
        else acc.numMissedDeadlines
      numDurations := wrapUInt32 (acc.numDurations + 1) }

/-- The inner loop of `GetFeatures` over one batch. -/
def accumulateBatch (acc : FeatureSums) (batch : WorkDurationBatch) : FeatureSums :=
  batch.workDurations.foldl (accumulateDuration batch.targetDuration) acc

/-- The outer loop of `GetFeatures` over the swapped-out batches. -/
def accumulateBatches (batches : List WorkDurationBatch) : FeatureSums :=
  batches.foldl accumulateBatch FeatureSums.init

/-- The tail of `GetFeatures`: the average and the returned record.  The
quotient `durationsSum / numDurations` is an `int64_t` division.  With a zero
divisor the division has no defined result in C++; the record then holds the
`0` that `Int.tdiv` yields, which is the value the AArch64 `sdiv` instruction
produces and the one `GetFeatures_noFrames` expects, and `averageDivisor`
below exposes the divisor. -/
def featuresOfSums (acc : FeatureSums) : WorkDurationFeatures :=
  { averageDuration := wrapInt64 (Int.tdiv acc.durationsSum (acc.numDurations : Int))
    maxDuration := acc.maxDuration
    numMissedDeadlines := acc.numMissedDeadlines
    numDurations := acc.numDurations }

/-- `WorkDurationProcessor::GetFeatures`: the returned features and the
processor after the call (its batch list swapped with an empty one). -/
def WorkDurationProcessor.GetFeatures (p : WorkDurationProcessor) :
    WorkDurationFeatures × WorkDurationProcessor :=
  (featuresOfSums (accumulateBatches p.mWorkDurationBatches),
   { mWorkDurationBatches := [] })

/-- The right operand of the division `durationsSum / numDurations` that
`GetFeatures` evaluates after the loops. -/
def WorkDurationProcessor.averageDivisor (p : WorkDurationProcessor) : Nat :=
  (accumulateBatches p.mWorkDurationBatches).numDurations

/-- `WorkDurationProcessor::HasWorkDurations`. -/
def WorkDurationProcessor.HasWorkDurations (p : WorkDurationProcessor) : Bool :=
  !p.mWorkDurationBatches.isEmpty

/-! ## ThrottleDecision.h -/

/-- The `enum class ThrottleDecision` (without the aliases `FIRST`, `LAST`). -/
inductive ThrottleDecision
  | NO_THROTTLE
  | THROTTLE_50
  | THROTTLE_60
  | THROTTLE_70
  | THROTTLE_80
  | THROTTLE_90
deriving DecidableEq, Repr

/-- The enumerator values `NO_THROTTLE = 0`, ..., `THROTTLE_90 = 5`. -/
def ThrottleDecision.toNat : ThrottleDecision → Nat
  | .NO_THROTTLE => 0
  | .THROTTLE_50 => 1
  | .THROTTLE_60 => 2
  | .THROTTLE_70 => 3
  | .THROTTLE_80 => 4
  | .THROTTLE_90 => 5

/-- The table `THROTTLE_DECISION_TO_HINT_NAMES`, entry by entry. -/
def THROTTLE_DECISION_TO_HINT_NAMES : List (ThrottleDecision × List String) :=
  [ (.NO_THROTTLE, []),
    (.THROTTLE_50,
      ["LOW_POWER_LITTLE_CLUSTER_50", "LOW_POWER_MID_CLUSTER_50", "LOW_POWER_CPU_50"]),
    (.THROTTLE_60,
      ["LOW_POWER_LITTLE_CLUSTER_60", "LOW_POWER_MID_CLUSTER_60", "LOW_POWER_CPU_60"]),
    (.THROTTLE_70,
      ["LOW_POWER_LITTLE_CLUSTER_70", "LOW_POWER_MID_CLUSTER_70", "LOW_POWER_CPU_70"]),
    (.THROTTLE_80,
      ["LOW_POWER_LITTLE_CLUSTER_80", "LOW_POWER_MID_CLUSTER_80", "LOW_POWER_CPU_80"]),
    (.THROTTLE_90,
      ["LOW_POWER_LITTLE_CLUSTER_90", "LOW_POWER_MID_CLUSTER_90", "LOW_POWER_CPU_90"]) ]

/-- The lookup `THROTTLE_DECISION_TO_HINT_NAMES.at(decision)`; `none` stands
for the `std::out_of_range` exception of a missing key. -/
def hintNamesAt (decision : ThrottleDecision) : Option (List String) :=
  (THROTTLE_DECISION_TO_HINT_NAMES.find? (fun entry => decide (entry.1 = decision))).map
    (fun entry => entry.2)

/-- The range a `for` loop over `THROTTLE_DECISION_TO_HINT_NAMES.at(decision)`
walks through (nothing when the lookup throws, which `hintNamesAt_isSome`
excludes). -/
def hintNames (decision : ThrottleDecision) : List String :=
  match hintNamesAt decision with
  | some names => names
  | none => []

/-! ## AdaptiveCpuConfig.h, Device.cpp, Model.h -/

/-- The `struct AdaptiveCpuConfig`.  The three durations are millisecond
counts; the probability is a `double` whose value is a percentage over 100. -/
structure AdaptiveCpuConfig where
  iterationSleepDuration : Nat
  hintTimeout : Nat
  randomThrottleDecisionProbability : Rat
  randomThrottleOptions : List ThrottleDecision
  enabledHintTimeout : Nat
deriving DecidableEq, Repr

/-- The constant `AdaptiveCpuConfig::DEFAULT` of AdaptiveCpuConfig.cpp. -/
def AdaptiveCpuConfig.DEFAULT : AdaptiveCpuConfig :=
  { iterationSleepDuration := 1000
    hintTimeout := 2000
    randomThrottleDecisionProbability := 0
    randomThrottleOptions :=
      [.NO_THROTTLE, .THROTTLE_50, .THROTTLE_60, .THROTTLE_70, .THROTTLE_80, .THROTTLE_90]
    enabledHintTimeout := 120 * 60 * 1000 }

/-- The values `ReadDevice` assigns. -/
inductive Device
  | RAVEN
  | ORIOLE
  | UNKNOWN
deriving DecidableEq, Repr

/-- The `struct ModelInput`.  The two `std::array<double, N>` fields are kept
as lists of rationals; nothing below computes with them.  `device` is `none`
while the field has not been assigned. -/
structure ModelInput where
  cpuPolicyAverageFrequencyHz : List Rat
  cpuCoreIdleTimesPercentage : List Rat
  workDurationFeatures : WorkDurationFeatures
  previousThrottleDecision : ThrottleDecision
  device : Option Device
deriving DecidableEq, Repr

/-! ## AdaptiveCpuStats -/

/-- The statement `map[key] op= ...` on a `std::map` keyed by `ThrottleDecision`,
kept as a list of entries in key order: a missing key is first inserted with
the value-initialised `dflt`, then the mapped value is replaced by `f` of it. -/
def mapModify {α : Type} (f : α → α) (dflt : α) (key : ThrottleDecision) :
    List (ThrottleDecision × α) → List (ThrottleDecision × α)
  | [] => [(key, f dflt)]
  | (k, v) :: rest =>
    if key = k then (k, f v) :: rest
    else if key.toNat < k.toNat then (key, f dflt) :: (k, v) :: rest
    else (k, v) :: mapModify f dflt key rest

/-- The data members of `class AdaptiveCpuStats`.  The `size_t` counters grow
by one, or by one `uint32_t`, per loop pass and are natural numbers. -/
structure AdaptiveCpuStats where
  mNumStartedRuns : Nat
  mNumSuccessfulRuns : Nat
  mStartTime : Int
  mLastRunStartTime : Int
  mLastRunSuccessTime : Int
  mTotalRunDuration : Int
  mNumThrottles : List (ThrottleDecision × Nat)
  mThrottleDurations : List (ThrottleDecision × Int)
  mNumDurations : List (ThrottleDecision × Nat)
  mNumMissedDeadlines : List (ThrottleDecision × Nat)
deriving DecidableEq, Repr

/-- `AdaptiveCpuStats::RegisterStartRun`; `now` is what `GetTime` returns. -/
def AdaptiveCpuStats.RegisterStartRun (st : AdaptiveCpuStats) (now : Int) :
    AdaptiveCpuStats :=
  let st1 := { st with mNumStartedRuns := st.mNumStartedRuns + 1, mLastRunStartTime := now }
  if st1.mStartTime = 0 then { st1 with mStartTime := st1.mLastRunStartTime } else st1

/-- `AdaptiveCpuStats::RegisterSuccessfulRun`; `runSuccessTime` is what
`GetTime` returns. -/
def AdaptiveCpuStats.RegisterSuccessfulRun (st : AdaptiveCpuStats)
    (previousThrottleDecision throttleDecision : ThrottleDecision)
    (workDurationFeatures : WorkDurationFeatures) (config : AdaptiveCpuConfig)
    (runSuccessTime : Int) : AdaptiveCpuStats :=
  let st1 := { st with
    mNumSuccessfulRuns := st.mNumSuccessfulRuns + 1
    mNumThrottles := mapModify (fun n => n + 1) 0 throttleDecision st.mNumThrottles
    mTotalRunDuration := st.mTotalRunDuration + (runSuccessTime - st.mLastRunStartTime) }
  let st2 :=
    if st1.mLastRunSuccessTime ≠ 0 then
      { st1 with
        mThrottleDurations :=
          mapModify
            (fun d => d + min (runSuccessTime - st1.mLastRunSuccessTime)
                            (msToNs config.hintTimeout))
            0 previousThrottleDecision st1.mThrottleDurations
        mNumDurations :=
          mapModify (fun n => n + workDurationFeatures.numDurations) 0
            previousThrottleDecision st1.mNumDurations
        mNumMissedDeadlines :=
          mapModify (fun n => n + workDurationFeatures.numMissedDeadlines) 0
            previousThrottleDecision st1.mNumMissedDeadlines }
    else st1
  { st2 with mLastRunSuccessTime := runSuccessTime }

/-! ## AdaptiveCpu -/

/-- The constant `kNumHistoricalModelInputs = 3`. -/
def kNumHistoricalModelInputs : Nat := 3

/-- The data members of `class AdaptiveCpu` that the code below reads or
writes, together with the two locals of `RunMainLoop` that live across loop
passes (`historicalModelInputs`, `previousThrottleDecision`).
`mLoopThreadJoinable` is `mLoopThread.joinable()`.  The kernel feature reader
and the model are collaborators; what they return is part of `LoopEnv`. -/
structure AdaptiveCpu where
  mWorkDurationProcessor : WorkDurationProcessor
  mAdaptiveCpuStats : AdaptiveCpuStats
  mLoopThreadJoinable : Bool
  mIsEnabled : Bool
  mIsInitialized : Bool
  mShouldReloadConfig : Bool
  mLastEnabledHintTime : Int
  mLastThrottleHintTime : Int
  mDevice : Device
  mConfig : AdaptiveCpuConfig
  historicalModelInputs : List ModelInput
  previousThrottleDecision : ThrottleDecision
deriving DecidableEq, Repr

/-- A call on the hint manager: `DoHint(name, timeout)` with the timeout in
milliseconds, or `EndHint(name)`. -/
inductive HintCall
  | DoHint (hintName : String) (timeoutMs : Nat)
  | EndHint (hintName : String)
deriving DecidableEq, Repr

/-- Recogniser of `DoHint` calls. -/
def HintCall.isDoHint : HintCall → Bool
  | .DoHint _ _ => true
  | .EndHint _ => false

/-- Recogniser of `EndHint` calls. -/
def HintCall.isEndHint : HintCall → Bool
  | .DoHint _ _ => false
  | .EndHint _ => true

/-- What one loop pass obtains from the collaborators of the controller, in
the order the pass asks for it. -/
structure LoopEnv where
  /-- Value of `mTimeSource.GetTime()` in the enabled-hint timeout test. -/
  timeAtLoopEntry : Int
  /-- The call `AdaptiveCpuConfig::ReadFromSystemProperties(&mConfig)`: from the
  content of `mConfig` before the call to the returned flag and the content
  after it. -/
  readFromSystemProperties : AdaptiveCpuConfig → Bool × AdaptiveCpuConfig
  /-- Value of `GetTime()` inside `RegisterStartRun`. -/
  runStartTime : Int
  /-- Result of `mKernelCpuFeatureReader.Init()`. -/
  readerInit : Bool
  /-- Result of `ReadDevice()`. -/
  readDevice : Device
  /-- The call `mKernelCpuFeatureReader.GetRecentCpuFeatures(..)`: `none` when it
  returns `false`, otherwise the two arrays it fills. -/
  recentCpuFeatures : Option (List Rat × List Rat)
  /-- The call `mModel.Run(historicalModelInputs, mConfig)`. -/
  modelRun : List ModelInput → AdaptiveCpuConfig → ThrottleDecision
  /-- Value of `mTimeSource.GetTime()` in the `sendHints` block. -/
  now : Int
  /-- Value of `GetTime()` inside `RegisterSuccessfulRun`. -/
  runSuccessTime : Int

/-- How a loop pass ends: at one of the five `continue` statements, or at the
bottom of the loop body with the decision the model returned. -/
inductive LoopOutcome
  | enabledHintTimedOut
  | configReadFailed
  | readerInitFailed
  | noDurations
  | cpuFeaturesFailed
  | completed (throttleDecision : ThrottleDecision)
deriving DecidableEq, Repr

/-- The result of a loop pass: the controller afterwards, the hint-manager
calls made, in order, and how the pass ended. -/
structure LoopResult where
  state : AdaptiveCpu
  hintCalls : List HintCall
  outcome : LoopOutcome
deriving DecidableEq, Repr

/-- `AdaptiveCpu::IsEnabled`. -/
def AdaptiveCpu.IsEnabled (s : AdaptiveCpu) : Bool :=
  s.mIsEnabled

/-- `AdaptiveCpu::StartThread`; `now` is what `mTimeSource.GetTime()` returns.
The thread created on the first call enters `RunMainLoop`, which initialises
its two locals. -/
def AdaptiveCpu.StartThread (s : AdaptiveCpu) (now : Int) : AdaptiveCpu :=
  let s1 := { s with mIsEnabled := true, mShouldReloadConfig := true,
                     mLastEnabledHintTime := now }
  if !s1.mLoopThreadJoinable then
    { s1 with mLoopThreadJoinable := true, historicalModelInputs := [],
              previousThrottleDecision := .NO_THROTTLE }
  else s1

/-- `AdaptiveCpu::SuspendThread`. -/
def AdaptiveCpu.SuspendThread (s : AdaptiveCpu) : AdaptiveCpu :=
  { s with mIsEnabled := false }

/-- `AdaptiveCpu::HintReceived`. -/
def AdaptiveCpu.HintReceived (s : AdaptiveCpu) (enable : Bool) (now : Int) : AdaptiveCpu :=
  if enable then s.StartThread now else s.SuspendThread

/-- `AdaptiveCpu::ReportWorkDurations`. -/
def AdaptiveCpu.ReportWorkDurations (s : AdaptiveCpu) (workDurations : List WorkDuration)
    (targetDuration : Int) : AdaptiveCpu :=
  if !s.mIsEnabled then s
  else
    let r := s.mWorkDurationProcessor.ReportWorkDurations workDurations targetDuration
    if !r.1 then { s with mWorkDurationProcessor := r.2, mIsEnabled := false }
    else { s with mWorkDurationProcessor := r.2 }

/-- The predicate `WaitForEnabledAndWorkDurations` waits for. -/
def AdaptiveCpu.WaitForEnabledAndWorkDurations (s : AdaptiveCpu) : Bool :=
  s.mIsEnabled && s.mWorkDurationProcessor.HasWorkDurations

/-- The statements `historicalModelInputs.push_back(modelInput)` and the
`pop_front` that follows when the size exceeds `kNumHistoricalModelInputs`. -/
def pushModelInput (historicalModelInputs : List ModelInput) (modelInput : ModelInput) :
    List ModelInput :=
  let pushed := historicalModelInputs ++ [modelInput]
  if pushed.length > kNumHistoricalModelInputs then pushed.tail else pushed

/-- The block `sendHints` of `RunMainLoop`: the controller afterwards and the
hint-manager calls, in order. -/
def AdaptiveCpu.sendHints (s : AdaptiveCpu) (now : Int) (throttleDecision : ThrottleDecision) :
    AdaptiveCpu × List HintCall :=
  let throttleHintMayTimeout : Bool :=
    decide (now - s.mLastThrottleHintTime > msToNs (s.mConfig.hintTimeout / 2))
  let sendNewHints : Bool :=
    decide (throttleDecision ≠ s.previousThrottleDecision) || throttleHintMayTimeout
  let s1 := if sendNewHints then { s with mLastThrottleHintTime := now } else s
  let newHints :=
    if sendNewHints then
      (hintNames throttleDecision).map (fun hintName => HintCall.DoHint hintName s1.mConfig.hintTimeout)
    else []
  let endOldHints : Bool := decide (throttleDecision ≠ s1.previousThrottleDecision)
  let oldHints :=
    if endOldHints then (hintNames s1.previousThrottleDecision).map HintCall.EndHint else []
  let s2 := if endOldHints then { s1 with previousThrottleDecision := throttleDecision } else s1
  (s2, newHints ++ oldHints)

/-- The result of a part of the loop body: the controller and the reason at
a `continue`, or the value the part hands on. -/
abbrev LoopStage (α : Type) := Except (AdaptiveCpu × LoopOutcome) α

/-- The enabled-hint timeout test at the head of the loop body. -/
def AdaptiveCpu.checkEnabledHint (s : AdaptiveCpu) (env : LoopEnv) : LoopStage AdaptiveCpu :=
  if s.mLastEnabledHintTime + msToNs s.mConfig.enabledHintTimeout < env.timeAtLoopEntry then
    .error ({ s with mIsEnabled := false }, .enabledHintTimedOut)
  else .ok s

/-- The block `if (mShouldReloadConfig) { ... }`. -/
def AdaptiveCpu.reloadConfig (s : AdaptiveCpu) (env : LoopEnv) : LoopStage AdaptiveCpu :=
  if s.mShouldReloadConfig then
    let read := env.readFromSystemProperties s.mConfig
    if !read.1 then
      .error ({ s with mConfig := read.2, mIsEnabled := false }, .configReadFailed)
    else .ok { s with mConfig := read.2, mShouldReloadConfig := false }
  else .ok s

/-- The call `mAdaptiveCpuStats.RegisterStartRun()` and the block
`if (!mIsInitialized) { ... }`. -/
def AdaptiveCpu.startRun (s : AdaptiveCpu) (env : LoopEnv) : LoopStage AdaptiveCpu :=
  let s1 := { s with
    mAdaptiveCpuStats := s.mAdaptiveCpuStats.RegisterStartRun env.runStartTime }
  if !s1.mIsInitialized then
    if !env.readerInit then
      .error ({ s1 with mIsEnabled := false }, .readerInitFailed)
    else .ok { s1 with mDevice := env.readDevice, mIsInitialized := true }
  else .ok s1

/-- The declaration of `modelInput` and the statements that fill it: the
previous decision, the drained work-duration features (with the `continue` on
`numDurations == 0`) and the recent CPU features (with the `continue` on
failure).  Its `device` field is not assigned.  The call of `GetFeatures` has
divided by `numDurations` before the test `numDurations == 0` is reached; see
`featuresOfSums` for the zero divisor. -/
def AdaptiveCpu.readModelInput (s : AdaptiveCpu) (env : LoopEnv) :
    LoopStage (AdaptiveCpu × ModelInput) :=
  let got := s.mWorkDurationProcessor.GetFeatures
  let s1 := { s with mWorkDurationProcessor := got.2 }
  if got.1.numDurations = 0 then
    .error (s1, .noDurations)
  else
    match env.recentCpuFeatures with
    | none => .error ({ s1 with mIsEnabled := false }, .cpuFeaturesFailed)
    | some cpuFeatures =>
      .ok (s1, { cpuPolicyAverageFrequencyHz := cpuFeatures.1
                 cpuCoreIdleTimesPercentage := cpuFeatures.2
                 workDurationFeatures := got.1
                 previousThrottleDecision := s.previousThrottleDecision
                 device := none })

/-- The update of `historicalModelInputs` and the call of the model: the
controller and the decision. -/
def AdaptiveCpu.runModel (s : AdaptiveCpu) (env : LoopEnv) (modelInput : ModelInput) :
    AdaptiveCpu × ThrottleDecision :=
  let s1 := { s with
    historicalModelInputs := pushModelInput s.historicalModelInputs modelInput }
  (s1, env.modelRun s1.historicalModelInputs s1.mConfig)

/-- The loop body of `RunMainLoop` from the enabled-hint timeout test up to
the call of the model: either the controller at a `continue` with the reason,
or the controller before `sendHints` with the drained features and the
decision of the model. -/
def AdaptiveCpu.computeDecision (s : AdaptiveCpu) (env : LoopEnv) :
    LoopStage (AdaptiveCpu × WorkDurationFeatures × ThrottleDecision) :=
  match s.checkEnabledHint env with
  | .error stop => .error stop
  | .ok s1 =>
    match s1.reloadConfig env with
    | .error stop => .error stop
    | .ok s2 =>
      match s2.startRun env with
      | .error stop => .error stop
      | .ok s3 =>
        match s3.readModelInput env with
        | .error stop => .error stop
        | .ok (s4, modelInput) =>
          let ran := s4.runModel env modelInput
          .ok (ran.1, modelInput.workDurationFeatures, ran.2)

/-- One pass through the body of `while (true)` in `RunMainLoop`, entered once
`WaitForEnabledAndWorkDurations` has returned. -/
def AdaptiveCpu.RunMainLoopIteration (s : AdaptiveCpu) (env : LoopEnv) : LoopResult :=
  match s.computeDecision env with
  | .error (s1, outcome) => { state := s1, hintCalls := [], outcome := outcome }
  | .ok (s1, workDurationFeatures, throttleDecision) =>
    let sent := s1.sendHints env.now throttleDecision
    let s2 := sent.1
    { state := { s2 with
        mAdaptiveCpuStats :=
          s2.mAdaptiveCpuStats.RegisterSuccessfulRun s2.previousThrottleDecision
            throttleDecision workDurationFeatures s2.mConfig env.runSuccessTime }
      hintCalls := sent.2
      outcome := .completed throttleDecision }

/-- Something that happens to the controller: an enable or disable hint (with
the clock reading `StartThread` takes), a report of work durations, or the
worker thread trying to make a loop pass. -/
inductive ControllerEvent
  | hintReceived (enable : Bool) (now : Int)
  | reportWorkDurations (workDurations : List WorkDuration) (targetDuration : Int)
  | loopPass (env : LoopEnv)

/-- The effect of one event, and for a loop pass that takes place the clock
reading of its `sendHints` block paired with its result.  A loop pass takes
place only if the wait predicate holds; a worker that stays blocked changes
nothing. -/
def AdaptiveCpu.handle (s : AdaptiveCpu) :
    ControllerEvent → AdaptiveCpu × Option (Int × LoopResult)
  | .hintReceived enable now => (s.HintReceived enable now, none)
  | .reportWorkDurations workDurations targetDuration =>
    (s.ReportWorkDurations workDurations targetDuration, none)
  | .loopPass env =>
    if s.WaitForEnabledAndWorkDurations then
      ((s.RunMainLoopIteration env).state, some (env.now, s.RunMainLoopIteration env))
    else (s, none)

/-- The effect of a sequence of events: the controller at the end and the
loop passes that took place, in order. -/
def AdaptiveCpu.run (s : AdaptiveCpu) :
    List ControllerEvent → AdaptiveCpu × List (Int × LoopResult)
  | [] => (s, [])
  | event :: rest =>
    let handled := s.handle event
    let later := handled.1.run rest
    (later.1, handled.2.toList ++ later.2)

/-! ## Vocabulary of the properties -/

/-- The work durations of a batch that pass the filter of `GetFeatures`, in
order. -/
def WorkDurationBatch.accepted (batch : WorkDurationBatch) : List WorkDuration :=
  batch.workDurations.filter (fun workDuration => !isRejected workDuration.durationNanos)

/-- The accepted durations of all batches, as reported, in order. -/
def acceptedDurations (batches : List WorkDurationBatch) : List Int :=
  batches.flatMap (fun batch => batch.accepted.map (fun w => w.durationNanos))

/-- The accepted durations of all batches after normalisation against the
target of their batch, in order. -/
def normalizedDurations (batches : List WorkDurationBatch) : List Int :=
  batches.flatMap
    (fun batch => batch.accepted.map (fun w => normalizeDuration w.durationNanos batch.targetDuration))

/-- The number of accepted durations that exceed the target of their batch. -/
def missedDeadlineCount (batches : List WorkDurationBatch) : Nat :=
  (batches.map
    (fun batch =>
      (batch.accepted.filter (fun w => decide (w.durationNanos > batch.targetDuration))).length)).sum

/-- The batches with every duration that `rejected` marks deleted. -/
def dropDurations (rejected : Int → Bool) (batches : List WorkDurationBatch) :
    List WorkDurationBatch :=
  batches.map (fun batch =>
    { batch with
      workDurations := batch.workDurations.filter (fun w => !rejected w.durationNanos) })

/-- The filter in the words of the specification: a duration is excluded when
it is `≤ 0` or `> 600 * kNormalTarget`. -/
def specRejected (d : Int) : Bool :=
  decide (d ≤ 0) || decide (d > 600 * 16666666)

/-- The durations `d_i / k` of the scaling law: every reported duration
divided by `k`, truncating. -/
def scaleDurations (k : Int) (workDurations : List WorkDuration) : List WorkDuration :=
  workDurations.map (fun w => { w with durationNanos := Int.tdiv w.durationNanos k })

/-- A sequence of `WorkDurationProcessor::ReportWorkDurations` calls, one per
element (durations and target): the flags returned, in order, and the
processor afterwards. -/
def reportAll (p : WorkDurationProcessor) :
    List (List WorkDuration × Int) → List Bool × WorkDurationProcessor
  | [] => ([], p)
  | report :: rest =>
    let first := p.ReportWorkDurations report.1 report.2
    let later := reportAll first.2 rest
    (first.1 :: later.1, later.2)

/-- The claim that a `DoHint` is emitted at least once per window of the given
length: every window that begins at or after some pass and ends at or before
some pass contains a pass that makes a `DoHint` call. -/
def DoHintInEveryWindow (window : Int) (passes : List (Int × LoopResult)) : Prop :=
  ∀ w : Int, (∃ p ∈ passes, p.1 ≤ w) → (∃ p ∈ passes, w + window ≤ p.1) →
    ∃ p ∈ passes, w ≤ p.1 ∧ p.1 ≤ w + window ∧ ∃ c ∈ p.2.hintCalls, c.isDoHint = true

/-! ## Sample inputs -/

/-- A processor holding the four durations of the repository test
`GetFeatures_multipleBatches` and one negative duration. -/
def sampleQueue : WorkDurationProcessor :=
  { mWorkDurationBatches :=
      [{ workDurations := [⟨0, 16666666⟩, ⟨0, 3 * 16666666⟩], targetDuration := 16666666 },
       { workDurations := [⟨0, 6 * 16666666⟩, ⟨0, -5⟩, ⟨0, 2 * 16666666⟩],
         targetDuration := 16666666 }] }

/-- A controller in the middle of its life: enabled at time 0, initialised,
with the default configuration, one reported batch of two durations waiting,
the given previous decision and time of the last hint emission. -/
def sampleController (previous : ThrottleDecision) (lastThrottleHintTime : Int) :
    AdaptiveCpu :=
  { mWorkDurationProcessor :=
      { mWorkDurationBatches :=
          [{ workDurations := [⟨0, 16666666⟩, ⟨0, 3 * 16666666⟩], targetDuration := 16666666 }] }
    mAdaptiveCpuStats := ⟨0, 0, 0, 0, 0, 0, [], [], [], []⟩
    mLoopThreadJoinable := true
    mIsEnabled := true
    mIsInitialized := true
    mShouldReloadConfig := false
    mLastEnabledHintTime := 0
    mLastThrottleHintTime := lastThrottleHintTime
    mDevice := .UNKNOWN
    mConfig := AdaptiveCpuConfig.DEFAULT
    historicalModelInputs := []
    previousThrottleDecision := previous }

/-- Collaborators whose calls all succeed: every clock reading of the pass is
`now`, the property store leaves the configuration as it is, and the model
returns `decision`. -/
def sampleEnv (now : Int) (decision : ThrottleDecision) : LoopEnv :=
  { timeAtLoopEntry := now
    readFromSystemProperties := fun config => (true, config)
    runStartTime := now
    readerInit := true
    readDevice := .UNKNOWN
    recentCpuFeatures := some ([0, 0, 0], [0, 0, 0, 0, 0, 0, 0, 0])
    modelRun := fun _ _ => decision
    now := now
    runSuccessTime := now }

/-- Loop passes at the given clock readings, all with the model returning
`decision`, each preceded by a report of one work duration. -/
def stablePasses (decision : ThrottleDecision) (times : List Int) : List ControllerEvent :=
  times.flatMap (fun now =>
    [.reportWorkDurations [⟨0, 16666666⟩] 16666666, .loopPass (sampleEnv now decision)])

/-! ## AdaptiveCpuConfig.cpp -/

/-- The constant `kIterationSleepDurationProperty`. -/
def kIterationSleepDurationProperty : String :=
  "debug.adaptivecpu.iteration_sleep_duration_ms"

/-- The constant `kIterationSleepDurationMin = 20ms`. -/
def kIterationSleepDurationMin : Nat := 20

/-- The constant `kHintTimeoutProperty`. -/
def kHintTimeoutProperty : String := "debug.adaptivecpu.hint_timeout_ms"

/-- The constant `kRandomThrottleDecisionPercentProperty`. -/
def kRandomThrottleDecisionPercentProperty : String :=
  "debug.adaptivecpu.random_throttle_decision_percent"

/-- The constant `kRandomThrottleOptionsProperty`. -/
def kRandomThrottleOptionsProperty : String := "debug.adaptivecpu.random_throttle_options"

/-- The constant `kEnabledHintTimeoutProperty`. -/
def kEnabledHintTimeoutProperty : String := "debug.adaptivecpu.enabled_hint_timeout_ms"

/-- The two getters of `android::base` that `ReadFromSystemProperties` calls,
each a function of the property name and of the default value:
`GetUintProperty<uint32_t>` and `GetProperty`. -/
structure SystemProperties where
  GetUintProperty : String → Nat → Nat
  GetProperty : String → String → String

/-- The alias `ThrottleDecision::FIRST`. -/
def ThrottleDecision.FIRST : ThrottleDecision := .NO_THROTTLE

/-- The alias `ThrottleDecision::LAST`. -/
def ThrottleDecision.LAST : ThrottleDecision := .THROTTLE_90

/-- The conversion `static_cast<ThrottleDecision>(n)` for the values that name
an enumerator. -/
def ThrottleDecision.ofNat? : Nat → Option ThrottleDecision
  | 0 => some .NO_THROTTLE
  | 1 => some .THROTTLE_50
  | 2 => some .THROTTLE_60
  | 3 => some .THROTTLE_70
  | 4 => some .THROTTLE_80
  | 5 => some .THROTTLE_90
  | _ => none

/-- The C function `isspace` in the "C" locale. -/
def isspace (c : Char) : Bool :=
  c = ' ' || c = '\t' || c = '\n' || c = '\x0b' || c = '\x0c' || c = '\r'

/-- The decimal digits at the head of a string, read from left to right:
the number they denote after `value`, and their count added to `count`. -/
def scanDigits : List Char → Nat → Nat → Nat × Nat
  | [], value, count => (value, count)
  | c :: rest, value, count =>
    if c.isDigit then scanDigits rest (10 * value + (c.toNat - '0'.toNat)) (count + 1)
    else (value, count)

/-- The optional sign at the head of a string: whether it is `-`, and how many
characters it takes. -/
def scanSign : List Char → Bool × Nat
  | '-' :: _ => (true, 1)
  | '+' :: _ => (false, 1)
  | _ => (false, 0)

/-- The call `std::sscanf(str, "%" PRIu32 "%n", &value, &scanEnd)`: `none` when
it does not return `1`, otherwise the value and `scanEnd`.  The conversion
`%u` skips white space and matches an optionally signed decimal integer; as in
the C library of the platform the digits are converted as by `strtoumax`
(clamped at 2^64 - 1, negated modulo 2^64 after a `-`) and the result is
stored in the 32-bit object.  `%n` stores the number of characters read so
far. -/
def sscanfUInt32 (str : List Char) : Option (Nat × Nat) :=
  let afterSpace := str.dropWhile isspace
  let sign := scanSign afterSpace
  let digits := scanDigits (afterSpace.drop sign.2) 0 0
  if digits.2 = 0 then none
  else
    let converted : Nat :=
      if digits.1 ≥ 2 ^ 64 then 2 ^ 64 - 1
      else if sign.1 then (2 ^ 64 - digits.1) % 2 ^ 64
      else digits.1
    some (converted % 2 ^ 32, (str.length - afterSpace.length) + sign.2 + digits.2)

/-- The strings between the commas of a string: what successive calls of
`std::getline(ss, str, ',')` extract, the last one up to the end of input. -/
def splitAtCommas : List Char → List (List Char)
  | [] => [[]]
  | c :: rest =>
    if c = ',' then [] :: splitAtCommas rest
    else
      match splitAtCommas rest with
      | [] => [[c]]
      | first :: others => (c :: first) :: others

/-- The loop body of `ParseThrottleDecisions` after `getline` has delivered
`throttleDecisionStr`: `none` at a `return false`, otherwise the output vector
after `push_back`. -/
def parseThrottleDecision (throttleDecisionStr : List Char) (output : List ThrottleDecision) :
    Option (List ThrottleDecision) :=
  match sscanfUInt32 throttleDecisionStr with
  | none => none
  | some (throttleDecisionInt, scanEnd) =>
    if scanEnd ≠ throttleDecisionStr.length then none
    else if throttleDecisionInt < ThrottleDecision.FIRST.toNat ∨
        throttleDecisionInt > ThrottleDecision.LAST.toNat then none
    else
      match ThrottleDecision.ofNat? throttleDecisionInt with
      | some throttleDecision => some (output ++ [throttleDecision])
      | none => none

/-- The loop `while (ss.good())` of `ParseThrottleDecisions` and the test
after it, over the strings that remain to be extracted.  The stream stays good
after a string that ended at a comma; a last string that is empty means that
`getline` extracts nothing and fails; after a last string that is not empty
the stream has hit the end of input and the loop ends. -/
def parseThrottleDecisionsFrom :
    List (List Char) → List ThrottleDecision → Bool × List ThrottleDecision
  | [], output => (!output.isEmpty, output)
  | throttleDecisionStr :: rest, output =>
    match rest with
    | [] =>
      if throttleDecisionStr.isEmpty then (false, output)
      else
        match parseThrottleDecision throttleDecisionStr output with
        | none => (false, output)
        | some pushed => (!pushed.isEmpty, pushed)
    | _ :: _ =>
      match parseThrottleDecision throttleDecisionStr output with
      | none => (false, output)
      | some pushed => parseThrottleDecisionsFrom rest pushed

/-- The function `ParseThrottleDecisions`: the returned flag and the content of
`*output` after the call. -/
def ParseThrottleDecisions (input : String) (output : List ThrottleDecision) :
    Bool × List ThrottleDecision :=
  parseThrottleDecisionsFrom (splitAtCommas input.toList) output

/-- The characters `FormatThrottleDecisions` writes to its stream. -/
def formatThrottleDecisionChars : List ThrottleDecision → List Char
  | [] => []
  | throttleDecision :: rest =>
    match rest with
    | [] => (Nat.repr throttleDecision.toNat).toList
    | _ :: _ =>
      (Nat.repr throttleDecision.toNat).toList ++ ',' :: formatThrottleDecisionChars rest

/-- The function `FormatThrottleDecisions`. -/
def FormatThrottleDecisions (throttleDecisions : List ThrottleDecision) : String :=
  String.mk (formatThrottleDecisionChars throttleDecisions)

/-- The function `AdaptiveCpuConfig::ReadFromSystemProperties`: the returned
flag and the content of `*output` after the call. -/
def AdaptiveCpuConfig.ReadFromSystemProperties (props : SystemProperties)
    (output : AdaptiveCpuConfig) : Bool × AdaptiveCpuConfig :=
  let output1 := { output with
    iterationSleepDuration :=
      props.GetUintProperty kIterationSleepDurationProperty
        AdaptiveCpuConfig.DEFAULT.iterationSleepDuration }
  let output2 := { output1 with
    iterationSleepDuration := max output1.iterationSleepDuration kIterationSleepDurationMin }
  let output3 := { output2 with
    hintTimeout := props.GetUintProperty kHintTimeoutProperty AdaptiveCpuConfig.DEFAULT.hintTimeout }
  let output4 := { output3 with
    randomThrottleDecisionProbability :=
      (props.GetUintProperty kRandomThrottleDecisionPercentProperty
        (AdaptiveCpuConfig.DEFAULT.randomThrottleDecisionProbability * 100).floor.toNat : Rat)
        / 100 }
  if output4.randomThrottleDecisionProbability > 1 then (false, output4)
  else
    let randomThrottleOptionsStr :=
      props.GetProperty kRandomThrottleOptionsProperty
        (FormatThrottleDecisions AdaptiveCpuConfig.DEFAULT.randomThrottleOptions)
    let parsed := ParseThrottleDecisions randomThrottleOptionsStr []
    let output5 := { output4 with randomThrottleOptions := parsed.2 }
    if !parsed.1 then (false, output5)
    else
      (true, { output5 with
        enabledHintTimeout :=
          props.GetUintProperty kEnabledHintTimeoutProperty
            AdaptiveCpuConfig.DEFAULT.enabledHintTimeout })

/-- Modelled from the spec: `android::base::GetProperty` is not among the
sources.  "Reads named string properties from a process-wide key/value store;
each property has a default": the value of the property, or the default when
the property is absent, which is how an empty value reads. -/
def propertyOrDefault (value defaultValue : String) : String :=
  if value.isEmpty then defaultValue else value

/-- Modelled from the spec: `android::base::GetUintProperty<uint32_t>` is not
among the sources.  "Integer properties are parsed as unsigned 32-bit counts of
milliseconds.  Negative or non-numeric → treated as absent (use default)": a
value made of decimal digits only that denotes a number below 2^32 yields that
number, every other value yields the default. -/
def uintPropertyOrDefault (value : String) (defaultValue : Nat) : Nat :=
  let digits := scanDigits value.toList 0 0
  if digits.2 ≠ 0 ∧ digits.2 = value.length ∧ digits.1 < 2 ^ 32 then digits.1 else defaultValue

/-- The getters over a property store that maps each property name to its
value, the empty string standing for an absent property. -/
def androidProperties (store : String → String) : SystemProperties :=
  { GetUintProperty := fun key defaultValue => uintPropertyOrDefault (store key) defaultValue
    GetProperty := fun key defaultValue => propertyOrDefault (store key) defaultValue }

/-- A property store with the five properties of the configuration set to the
given values. -/
def configStore (iterationSleep hintTimeout percent options enabledHintTimeout : String) :
    String → String := fun key =>
  if key = kIterationSleepDurationProperty then iterationSleep
  else if key = kHintTimeoutProperty then hintTimeout
  else if key = kRandomThrottleDecisionPercentProperty then percent
  else if key = kRandomThrottleOptionsProperty then options
  else if key = kEnabledHintTimeoutProperty then enabledHintTimeout
  else ""

/-! ## KernelCpuFeatureReader -/

/-- The constant `NUM_CPU_CORES` of Model.h. -/
def NUM_CPU_CORES : Nat := 8

/-- The constant `NUM_CPU_POLICIES` of Model.h. -/
def NUM_CPU_POLICIES : Nat := 3

/-- The constant `CPU_POLICY_INDICES` of Model.h. -/
def CPU_POLICY_INDICES : List Nat := [0, 4, 6]

/-- The `struct acpu_stats`: two `uint64_t` counters. -/
structure acpu_stats where
  weighted_sum_freq : Nat
  total_idle_time_ns : Nat
deriving DecidableEq, Repr

/-- The data members of `class KernelCpuFeatureReader` that hold the previous
sample.  The array of `NUM_CPU_CORES` records is a list; `ReadStats` only ever
stores lists of that length.  Filesystem and time source are collaborators;
what they return is part of `StatsRead`. -/
structure KernelCpuFeatureReader where
  mPreviousStats : List acpu_stats
  mPreviousReadTime : Int
deriving DecidableEq, Repr

/-- What one call of `ReadStats` obtains from its collaborators: the value of
`GetKernelTime()`, the result of `ResetFileStream`, and the complete 16-byte
records the stream then holds, in file order. -/
structure StatsRead where
  kernelTime : Int
  resetFileStream : Bool
  records : List acpu_stats
deriving DecidableEq, Repr

/-- The element `stats[i]` of an array of records. -/
def statsAt (stats : List acpu_stats) (i : Nat) : acpu_stats :=
  stats.getD i { weighted_sum_freq := 0, total_idle_time_ns := 0 }

/-- `KernelCpuFeatureReader::ReadStats`: the returned flag, and the contents of
`*stats` and `*readTime` after the call.  The read time is stored first; the
read of `NUM_CPU_CORES` records fails when the stream holds fewer. -/
def KernelCpuFeatureReader.ReadStats (read : StatsRead) (stats : List acpu_stats) :
    Bool × List acpu_stats × Int :=
  if !read.resetFileStream then (false, stats, read.kernelTime)
  else if read.records.length < NUM_CPU_CORES then (false, stats, read.kernelTime)
  else (true, read.records.take NUM_CPU_CORES, read.kernelTime)

/-- `KernelCpuFeatureReader::Init`; `openStatsFile` is the result of
`OpenStatsFile`. -/
def KernelCpuFeatureReader.Init (r : KernelCpuFeatureReader) (openStatsFile : Bool)
    (read : StatsRead) : Bool × KernelCpuFeatureReader :=
  if !openStatsFile then (false, r)
  else
    let got := KernelCpuFeatureReader.ReadStats read r.mPreviousStats
    (got.1, { mPreviousStats := got.2.1, mPreviousReadTime := got.2.2 })

/-- The statement `if (new < previous) previous = new;` followed by the
unsigned difference `new - previous`. -/
def clampedDelta (newValue previousValue : Nat) : Nat :=
  let previous := if newValue < previousValue then newValue else previousValue
  newValue - previous

/-- `KernelCpuFeatureReader::GetRecentCpuFeatures`: `none` when it returns
false, otherwise the two arrays it fills; and the reader after the call.  The
quotients of type `double` are kept as the rational quotients they round (for
a zero `timeDelta` the `double` is an infinity or a NaN, which the rational
does not render). -/
def KernelCpuFeatureReader.GetRecentCpuFeatures (r : KernelCpuFeatureReader)
    (read : StatsRead) : Option (List Rat × List Rat) × KernelCpuFeatureReader :=
  let got := KernelCpuFeatureReader.ReadStats read []
  if !got.1 then (none, r)
  else
    let stats := got.2.1
    let readTime := got.2.2
    let timeDelta : Int := readTime - r.mPreviousReadTime
    let cpuPolicyAverageFrequencyHz : List Rat :=
      CPU_POLICY_INDICES.map (fun statsIdx =>
        (clampedDelta (statsAt stats statsIdx).weighted_sum_freq
            (statsAt r.mPreviousStats statsIdx).weighted_sum_freq : Rat) / (timeDelta : Rat))
    let cpuCoreIdleTimesPercentage : List Rat :=
      (List.range NUM_CPU_CORES).map (fun i =>
        (clampedDelta (statsAt stats i).total_idle_time_ns
            (statsAt r.mPreviousStats i).total_idle_time_ns : Rat) / (timeDelta : Rat))
    (some (cpuPolicyAverageFrequencyHz, cpuCoreIdleTimesPercentage),
     { mPreviousStats := stats, mPreviousReadTime := readTime })

/-- The first sample of the repository test `KernelCpuFeatureReaderTest.valid`. -/
def sampleStatsBefore : List acpu_stats :=
  [⟨100, 100⟩, ⟨100, 100⟩, ⟨100, 100⟩, ⟨100, 100⟩, ⟨200, 200⟩, ⟨200, 200⟩, ⟨300, 200⟩, ⟨300, 200⟩]

/-- The second sample of the repository test `KernelCpuFeatureReaderTest.valid`. -/
def sampleStatsAfter : List acpu_stats :=
  [⟨200, 150⟩, ⟨100, 150⟩, ⟨100, 150⟩, ⟨100, 150⟩, ⟨300, 300⟩, ⟨200, 300⟩, ⟨400, 300⟩, ⟨300, 300⟩]


/-- The first sample of the repository test
`KernelCpuFeatureReaderTest.frequencies_capsNegativeDiff` (and the second one
of `idleTimes_capsNegativeDiff`): only the first record is not zero. -/
def sampleStatsHighFreq : List acpu_stats :=
  [⟨200, 100⟩, ⟨0, 0⟩, ⟨0, 0⟩, ⟨0, 0⟩, ⟨0, 0⟩, ⟨0, 0⟩, ⟨0, 0⟩, ⟨0, 0⟩]

/-- The second sample of the repository test
`KernelCpuFeatureReaderTest.frequencies_capsNegativeDiff` (and the first one
of `idleTimes_capsNegativeDiff`). -/
def sampleStatsHighIdle : List acpu_stats :=
  [⟨100, 150⟩, ⟨0, 0⟩, ⟨0, 0⟩, ⟨0, 0⟩, ⟨0, 0⟩, ⟨0, 0⟩, ⟨0, 0⟩, ⟨0, 0⟩]

/-- A sample in which the idle counter of the first core has advanced by
200 ns over `sampleStatsHighFreq`. -/
def sampleStatsIdleAhead : List acpu_stats :=
  [⟨200, 300⟩, ⟨0, 0⟩, ⟨0, 0⟩, ⟨0, 0⟩, ⟨0, 0⟩, ⟨0, 0⟩, ⟨0, 0⟩, ⟨0, 0⟩]

/-- The collaborators of `sampleEnv 200 .NO_THROTTLE`, except that the kernel
reader returns what it computes from `sampleStatsHighFreq` read at 100 ns and
`sampleStatsIdleAhead` read at 200 ns. -/
def sampleEnvIdleAhead : LoopEnv :=
  { sampleEnv 200 .NO_THROTTLE with
    recentCpuFeatures := some ([0, 0, 0], [2, 0, 0, 0, 0, 0, 0, 0]) }

/-- The `ModelInput` the pass of `sampleController .NO_THROTTLE 0` forms with
the collaborators `sampleEnvIdleAhead`. -/
def sampleModelInputIdleAhead : ModelInput :=
  { cpuPolicyAverageFrequencyHz := [0, 0, 0]
    cpuCoreIdleTimesPercentage := [2, 0, 0, 0, 0, 0, 0, 0]
    workDurationFeatures :=
      { averageDuration := 2 * 16666666, maxDuration := 3 * 16666666,
        numMissedDeadlines := 1, numDurations := 2 }
    previousThrottleDecision := .NO_THROTTLE
    device := none }

/-! ## CpuFrequencyReader.h, Model.cpp -/

/-- The `struct CpuPolicyAverageFrequency`: a `uint32_t` and a `uint64_t`. -/
structure CpuPolicyAverageFrequency where
  policyId : Nat
  averageFrequencyHz : Nat
deriving DecidableEq, Repr

/-- The conversion of a `uint32_t` value to `int32_t`, by `static_cast<int32_t>`
or by assignment: the values from `2 ^ 31` on become negative. -/
def toInt32 (n : Nat) : Int :=
  if n % 2 ^ 32 < 2 ^ 31 then ((n % 2 ^ 32 : Nat) : Int)
  else ((n % 2 ^ 32 : Nat) : Int) - 2 ^ 32

/-- The `for` loop of `ModelInput::SetCpuFreqiencies` from the index `i` on,
over the entries not yet visited: the returned flag (`true` when the loop runs
to its end) and the array `cpuPolicyAverageFrequencyHz` as the loop leaves
it.  The `uint64_t` frequency converts to a `double`, kept as a rational. -/
def setCpuFreqienciesLoop : Int → Nat → List CpuPolicyAverageFrequency → List Rat →
    Bool × List Rat
  | _, _, [], cpuPolicyAverageFrequencyHz => (true, cpuPolicyAverageFrequencyHz)
  | previousPolicyId, i, frequency :: rest, cpuPolicyAverageFrequencyHz =>
    if previousPolicyId ≥ toInt32 frequency.policyId then (false, cpuPolicyAverageFrequencyHz)
    else
      setCpuFreqienciesLoop (toInt32 frequency.policyId) (i + 1) rest
        (cpuPolicyAverageFrequencyHz.set i (frequency.averageFrequencyHz : Rat))

/-- `ModelInput::SetCpuFreqiencies`: the returned flag and the object after the
call.  `cpuPolicyAverageFrequencyHz.size()` is the constant
`NUM_CPU_POLICIES`. -/
def ModelInput.SetCpuFreqiencies (m : ModelInput)
    (cpuPolicyAverageFrequencies : List CpuPolicyAverageFrequency) : Bool × ModelInput :=
  if cpuPolicyAverageFrequencies.length ≠ NUM_CPU_POLICIES then (false, m)
  else
    let looped :=
      setCpuFreqienciesLoop (-1) 0 cpuPolicyAverageFrequencies m.cpuPolicyAverageFrequencyHz
    (looped.1, { m with cpuPolicyAverageFrequencyHz := looped.2 })

/-- The argument of the repository test
`ModelInput_SetCpuFreqiencies_failsWithOutOfOrderFrquencies`. -/
def sampleOutOfOrderFrequencies : List CpuPolicyAverageFrequency :=
  [⟨0, 100⟩, ⟨6, 102⟩, ⟨4, 101⟩]

/-- The argument of the repository test `ModelInput_SetCpuFreqiencies`. -/
def sampleFrequencies : List CpuPolicyAverageFrequency :=
  [⟨0, 100⟩, ⟨4, 101⟩, ⟨6, 102⟩]

/-- Three entries whose policy ids increase strictly, the last one being
`2 ^ 31`. -/
def sampleLargePolicyId : List CpuPolicyAverageFrequency :=
  [⟨0, 100⟩, ⟨1, 101⟩, ⟨2147483648, 102⟩]

/-- Modelled from the spec: `Model::RunDecisionTree`, whose body is the
generated file `models/model.inc`, is a side-effect-free function from the
history of model inputs to a decision. -/
abbrev DecisionTree := List ModelInput → ThrottleDecision

/-- What one call of `Model::Run` draws from `mGenerator`: the value of
`mShouldRandomThrottleDistribution(mGenerator)`, a `double` of `[0, 1)`, and
the value of `optionDistribution(mGenerator)` as a function of the upper bound
`b` of the distribution `std::uniform_int_distribution<uint32_t>(0, b)`. -/
structure ModelDraws where
  shouldRandomThrottle : Rat
  option : Nat → Nat

/-- The upper bound `config.randomThrottleOptions.size() - 1` handed to the
`uint32_t` distribution: a `size_t` difference, then reduced to 32 bits. -/
def optionUpperBound (size : Nat) : Nat :=
  wrapUInt32 ((size + 2 ^ 64 - 1) % 2 ^ 64)

/-- `Model::Run`.  `none` stands for a read of `config.randomThrottleOptions`
outside the vector. -/
def Model.Run (RunDecisionTree : DecisionTree) (draws : ModelDraws)
    (modelInputs : List ModelInput) (config : AdaptiveCpuConfig) : Option ThrottleDecision :=
  if config.randomThrottleDecisionProbability > 0 ∧
      draws.shouldRandomThrottle < config.randomThrottleDecisionProbability then
    config.randomThrottleOptions[
      draws.option (optionUpperBound config.randomThrottleOptions.length)]?
  else some (RunDecisionTree modelInputs)

/-- The configuration of the repository test `Run_randomThrottling`. -/
def sampleRandomConfig : AdaptiveCpuConfig :=
  { AdaptiveCpuConfig.DEFAULT with
    randomThrottleOptions := [.THROTTLE_70, .THROTTLE_80]
    randomThrottleDecisionProbability := 1 }

/-- Draws for a call of `Model::Run`: the real draw is 0 and the integer draw
is the upper bound of its distribution. -/
def sampleDraws : ModelDraws :=
  { shouldRandomThrottle := 0, option := fun b => b }

/-! ## AdaptiveCpuStats.cpp -/

/-- The object `AdaptiveCpuStats` after construction: the two counters have
the initialiser 0 and the maps are empty.  The four
`std::chrono::nanoseconds` members have no initialiser in AdaptiveCpuStats.h
and neither constructor assigns them, so what they hold after construction is
indeterminate: it is a parameter here. -/
def AdaptiveCpuStats.constructed
    (mStartTime mLastRunStartTime mLastRunSuccessTime mTotalRunDuration : Int) :
    AdaptiveCpuStats :=
  { mNumStartedRuns := 0
    mNumSuccessfulRuns := 0
    mStartTime := mStartTime
    mLastRunStartTime := mLastRunStartTime
    mLastRunSuccessTime := mLastRunSuccessTime
    mTotalRunDuration := mTotalRunDuration
    mNumThrottles := []
    mThrottleDurations := []
    mNumDurations := []
    mNumMissedDeadlines := [] }

/-- A constructed object whose four indeterminate members happen to hold zero:
the case which the comparisons with `0ns` in the two registering functions
presume, and in which the repository tests pass. -/
def AdaptiveCpuStats.initial : AdaptiveCpuStats :=
  AdaptiveCpuStats.constructed 0 0 0 0

/-- The lookup `map.find(key)` in a `std::map` keyed by `ThrottleDecision`:
the mapped value, or `none` when the key is missing. -/
def mapFind {α : Type} (key : ThrottleDecision) : List (ThrottleDecision × α) → Option α
  | [] => none
  | (k, v) :: rest => if key = k then some v else mapFind key rest

/-- `AdaptiveCpuStats::FormatDuration`: the number and the suffix whose
concatenation `std::to_string(count) + suffix` is returned.  The conversion of
the nanosecond count to `double` and the divisions are kept exact. -/
def AdaptiveCpuStats.FormatDuration (duration : Int) : Rat × String :=
  let count : Rat := (duration : Rat)
  if count < 1000 then (count, "ns")
  else if count < 1000 * 1000 then (count / 1000, "us")
  else if count < 1000 * 1000 * 100 then (count / (1000 * 1000), "ms")
  else (count / (1000 * 1000 * 1000), "s")

/-- The expression `mTotalRunDuration / mNumSuccessfulRuns` of `DumpToStream`,
converted to `std::chrono::nanoseconds` for `FormatDuration`.  The division of
an `int64_t` count by a `size_t` is carried out in `uint64_t`; `none` stands
for the division by zero. -/
def AdaptiveCpuStats.averageRunDuration (st : AdaptiveCpuStats) : Option Int :=
  if st.mNumSuccessfulRuns = 0 then none
  else some (wrapInt64 (st.mTotalRunDuration % 2 ^ 64 / (st.mNumSuccessfulRuns : Int)))

/-- The expression `static_cast<double>(mTotalRunDuration.count()) /
(mTimeSource->GetTime() - mStartTime).count()` of `DumpToStream`, a division
of type `double`; `now` is what `GetTime` returns. -/
def AdaptiveCpuStats.runningTimeFraction (st : AdaptiveCpuStats) (now : Int) : Rat :=
  (st.mTotalRunDuration : Rat) / ((now - st.mStartTime : Int) : Rat)

/-- What the first four lines that `AdaptiveCpuStats::DumpToStream` writes
under the heading `Stats:` show. -/
structure StatsRunLines where
  numSuccessfulRuns : Nat
  numStartedRuns : Nat
  totalRunDuration : Rat × String
  averageRunDuration : Rat × String
  runningTimeFraction : Rat
deriving DecidableEq, Repr

/-- The part of `AdaptiveCpuStats::DumpToStream` that writes the lines
`Successful runs / total runs`, `Total run duration`, `Average run duration`
and `Running time fraction`; `now` is what `GetTime` returns, and `none`
stands for the division by zero in the third of them. -/
def AdaptiveCpuStats.dumpRunLines (st : AdaptiveCpuStats) (now : Int) : Option StatsRunLines :=
  match st.averageRunDuration with
  | none => none
  | some average =>
    some
      { numSuccessfulRuns := st.mNumSuccessfulRuns
        numStartedRuns := st.mNumStartedRuns
        totalRunDuration := AdaptiveCpuStats.FormatDuration st.mTotalRunDuration
        averageRunDuration := AdaptiveCpuStats.FormatDuration average
        runningTimeFraction := st.runningTimeFraction now }

/-- A call of one of the two registering member functions of
`AdaptiveCpuStats`, with the value `GetTime()` returns inside it. -/
inductive StatsCall
  | RegisterStartRun (now : Int)
  | RegisterSuccessfulRun (previousThrottleDecision throttleDecision : ThrottleDecision)
      (workDurationFeatures : WorkDurationFeatures) (config : AdaptiveCpuConfig)
      (runSuccessTime : Int)
deriving DecidableEq, Repr

/-- The effect of one call on the object. -/
def AdaptiveCpuStats.call (st : AdaptiveCpuStats) : StatsCall → AdaptiveCpuStats
  | .RegisterStartRun now => st.RegisterStartRun now
  | .RegisterSuccessfulRun previousThrottleDecision throttleDecision workDurationFeatures
      config runSuccessTime =>
    st.RegisterSuccessfulRun previousThrottleDecision throttleDecision workDurationFeatures
      config runSuccessTime

/-- The effect of a sequence of calls, made in order. -/
def AdaptiveCpuStats.callAll (st : AdaptiveCpuStats) : List StatsCall → AdaptiveCpuStats
  | [] => st
  | c :: rest => (st.call c).callAll rest

/-- The number of `RegisterStartRun` calls in a sequence. -/
def startCount : List StatsCall → Nat
  | [] => 0
  | .RegisterStartRun _ :: rest => startCount rest + 1
  | .RegisterSuccessfulRun _ _ _ _ _ :: rest => startCount rest

/-- The clock readings of the `RegisterSuccessfulRun` calls of a sequence, in
order. -/
def successTimes : List StatsCall → List Int
  | [] => []
  | .RegisterStartRun _ :: rest => successTimes rest
  | .RegisterSuccessfulRun _ _ _ _ runSuccessTime :: rest => runSuccessTime :: successTimes rest

/-- The current decisions of the `RegisterSuccessfulRun` calls of a sequence,
in order. -/
def successDecisions : List StatsCall → List ThrottleDecision
  | [] => []
  | .RegisterStartRun _ :: rest => successDecisions rest
  | .RegisterSuccessfulRun _ throttleDecision _ _ _ :: rest =>
    throttleDecision :: successDecisions rest

/-- For every `RegisterSuccessfulRun` call of a sequence, in order, the time
from the most recent `RegisterStartRun` call to it; `lastStart` is the time of
the most recent `RegisterStartRun` before the sequence. -/
def runDurations : Int → List StatsCall → List Int
  | _, [] => []
  | _, .RegisterStartRun now :: rest => runDurations now rest
  | lastStart, .RegisterSuccessfulRun _ _ _ _ runSuccessTime :: rest =>
    (runSuccessTime - lastStart) :: runDurations lastStart rest

/-- The invariant of `std::map`: the keys of the entries increase strictly. -/
def mapSorted {α : Type} (m : List (ThrottleDecision × α)) : Prop :=
  (m.map (fun entry => entry.1.toNat)).Pairwise (fun a b => a < b)

/-- The four maps of the object satisfy the invariant of `std::map`. -/
def AdaptiveCpuStats.WellFormed (st : AdaptiveCpuStats) : Prop :=
  mapSorted st.mNumThrottles ∧ mapSorted st.mThrottleDurations ∧
  mapSorted st.mNumDurations ∧ mapSorted st.mNumMissedDeadlines

/-- Work-duration features with the given two counters, the others zero. -/
def workCounts (numDurations numMissedDeadlines : Nat) : WorkDurationFeatures :=
  { averageDuration := 0, maxDuration := 0, numMissedDeadlines := numMissedDeadlines,
    numDurations := numDurations }

/-- The calls of the repository test `AdaptiveCpuStatsTest.multipleRuns`. -/
def sampleStatsCalls : List StatsCall :=
  [ .RegisterStartRun 1000,
    .RegisterSuccessfulRun .NO_THROTTLE .THROTTLE_60 (workCounts 100000 123)
      AdaptiveCpuConfig.DEFAULT 1100,
    .RegisterStartRun 2000,
    .RegisterSuccessfulRun .THROTTLE_60 .THROTTLE_70 (workCounts 100 10)
      AdaptiveCpuConfig.DEFAULT 2200,
    .RegisterStartRun 3000,
    .RegisterSuccessfulRun .THROTTLE_70 .THROTTLE_60 (workCounts 50 1)
      AdaptiveCpuConfig.DEFAULT 3100,
    .RegisterStartRun 4000,
    .RegisterSuccessfulRun .THROTTLE_60 .THROTTLE_80 (workCounts 200 20)
      AdaptiveCpuConfig.DEFAULT 4800 ]

/-- The first three calls of the repository test
`AdaptiveCpuStatsTest.multipleRuns`: one complete run and the start of the
second. -/
def sampleStatsCallsHead : List StatsCall :=
  sampleStatsCalls.take 3

/-- The function `ReadDevice` of Device.cpp; `deviceProperty` is what
`GetProperty("ro.product.device", "")` returns. -/
def ReadDevice (deviceProperty : String) : Device :=
  if deviceProperty = "raven" then .RAVEN
  else if deviceProperty = "oriole" then .ORIOLE
  else .UNKNOWN

/-- A controller that has been enabled but has not made a loop pass yet: as
`sampleController .NO_THROTTLE 0`, but not initialised. -/
def sampleFreshController : AdaptiveCpu :=
  { sampleController .NO_THROTTLE 0 with mIsInitialized := false }

/-- Collaborators as in `sampleEnv`, on a device whose property
`ro.product.device` is "raven". -/
def sampleEnvRaven (now : Int) (decision : ThrottleDecision) : LoopEnv :=
  { sampleEnv now decision with readDevice := ReadDevice "raven" }

/-- Two loop passes, at 1000 ns and at 2000 ns, each with work durations
waiting: the model returns THROTTLE_60 in the first and THROTTLE_70 in the
second, so that the decision changes from THROTTLE_60 to THROTTLE_70 in the
second. -/
def sampleChangingPasses : List ControllerEvent :=
  [ .loopPass (sampleEnv 1000 .THROTTLE_60),
    .reportWorkDurations [⟨0, 16666666⟩] 16666666,
    .loopPass (sampleEnv 2000 .THROTTLE_70) ]

/-- What the parts of the loop body before the model leave as they were:
the previous decision, the history of model inputs, and the count of
successful runs. -/
def keepsOutputs (s t : AdaptiveCpu) : Prop :=
  t.previousThrottleDecision = s.previousThrottleDecision ∧
  t.historicalModelInputs = s.historicalModelInputs ∧
  t.mAdaptiveCpuStats.mNumSuccessfulRuns = s.mAdaptiveCpuStats.mNumSuccessfulRuns

/-- Collaborators as in `sampleEnv`, except that `GetRecentCpuFeatures`
fails. -/
def sampleEnvNoCpuFeatures (now : Int) (decision : ThrottleDecision) : LoopEnv :=
  { sampleEnv now decision with recentCpuFeatures := none }

/-- A controller as `sampleController .THROTTLE_60 0`, except that the one
batch waiting holds a single duration, -5 ns, which `GetFeatures` rejects. -/
def sampleControllerNoAccepted : AdaptiveCpu :=
  { sampleController .THROTTLE_60 0 with
    mWorkDurationProcessor :=
      { mWorkDurationBatches :=
          [{ workDurations := [⟨0, -5⟩], targetDuration := 16666666 }] } }

/-- The file system as one reader call sees it.  `ReadFileStream path` is
`none` when the call returns false, otherwise the content the stream delivers;
`ListDirectory path` is `none` when the call returns false, otherwise the
entries appended to `*result`. -/
structure Filesystem where
  ReadFileStream : String → Option String
  ListDirectory : String → Option (List String)

/-- The lines successive calls of `std::getline(stream, line)` extract until
one fails: the pieces between the line feeds, without a last empty piece. -/
def getlines : List Char → List (List Char)
  | [] => []
  | c :: rest =>
    if c = '\n' then [] :: getlines rest
    else
      match getlines rest with
      | [] => [[c]]
      | first :: others => (c :: first) :: others

/-- What an integer conversion of `sscanf` or `strtol` matches at the head of
a string: white space, an optional sign and decimal digits.  `none` when no
digit follows; otherwise whether the sign is `-`, the number the digits
denote, and the rest of the string. -/
def scanInteger (str : List Char) : Option (Bool × Nat × List Char) :=
  let afterSpace := str.dropWhile isspace
  let sign := scanSign afterSpace
  let digits := scanDigits (afterSpace.drop sign.2) 0 0
  if digits.2 = 0 then none
  else some (sign.1, digits.1, (afterSpace.drop sign.2).drop digits.2)

/-- The value `strtoumax` returns for a sign and a magnitude: clamped at
`2 ^ 64 - 1`, negated modulo `2 ^ 64` after a `-`. -/
def strtoumaxValue (negative : Bool) (magnitude : Nat) : Nat :=
  if magnitude ≥ 2 ^ 64 then 2 ^ 64 - 1
  else if negative then (2 ^ 64 - magnitude) % 2 ^ 64
  else magnitude

/-- The value `strtoimax` (and `strtol`, `long` having 64 bits) returns for a
sign and a magnitude: clamped to the range of `int64_t`. -/
def strtoimaxValue (negative : Bool) (magnitude : Nat) : Int :=
  if negative then max (-(magnitude : Int)) (-2 ^ 63)
  else min (magnitude : Int) (2 ^ 63 - 1)

/-- The conversion `%` `PRIu64` of `sscanf`: the value stored and the rest of the
input, or `none` when the conversion fails. -/
def scanUInt64 (str : List Char) : Option (Nat × List Char) :=
  match scanInteger str with
  | none => none
  | some (negative, magnitude, rest) => some (strtoumaxValue negative magnitude, rest)

/-- The given number of `%` `PRIu64` conversions of `sscanf` in a row, with or
without white space between them in the format: the values stored, or `none`
when one of the conversions fails. -/
def scanUInt64s : Nat → List Char → Option (List Nat × List Char)
  | 0, str => some ([], str)
  | n + 1, str =>
    match scanUInt64 str with
    | none => none
    | some (value, rest) =>
      match scanUInt64s n rest with
      | none => none
      | some (values, last) => some (value :: values, last)

/-- The conversion `%d` of `sscanf` with a `uint32_t` as its target: the
32 bits stored, read as an unsigned number, and the rest of the input. -/
def scanIntIntoUInt32 (str : List Char) : Option (Nat × List Char) :=
  match scanInteger str with
  | none => none
  | some (negative, magnitude, rest) =>
    some ((strtoimaxValue negative magnitude % 2 ^ 32).toNat, rest)

/-- The C function `atoi` as the C library of the platform defines it,
`(int) strtol(str, NULL, 10)`: zero when no number is found, and the low
32 bits of the `long`, read as a signed number, otherwise. -/
def atoi (str : List Char) : Int :=
  match scanInteger str with
  | none => 0
  | some (negative, magnitude, _) =>
    toInt32 (strtoimaxValue negative magnitude % 2 ^ 32).toNat

/-- The statement `map[key] = value` on a `std::map` with an unsigned integer
key, kept as a list of entries in key order. -/
def natMapInsert {α : Type} (key : Nat) (value : α) : List (Nat × α) → List (Nat × α)
  | [] => [(key, value)]
  | (k, v) :: rest =>
    if key = k then (k, value) :: rest
    else if key < k then (key, value) :: (k, v) :: rest
    else (k, v) :: natMapInsert key value rest

/-- The lookup `map.find(key)` in such a map: the mapped value, or `none` when
the key is missing. -/
def natMapFind {α : Type} (key : Nat) : List (Nat × α) → Option α
  | [] => none
  | (k, v) :: rest => if key = k then some v else natMapFind key rest

/-- The invariant of such a map: the keys of the entries increase strictly. -/
def natMapSorted {α : Type} (m : List (Nat × α)) : Prop :=
  (m.map (fun entry => entry.1)).Pairwise (fun a b => a < b)

/-! ## CpuLoadReaderProcStat -/

/-- The `struct CpuTime` of CpuLoadReaderProcStat.h: two `uint64_t`. -/
structure ProcStatCpuTime where
  idleTimeMs : Nat
  totalTimeMs : Nat
deriving DecidableEq, Repr

/-- The data member `mPreviousCpuTimes` of `class CpuLoadReaderProcStat`. -/
structure CpuLoadReaderProcStat where
  mPreviousCpuTimes : List (Nat × ProcStatCpuTime)
deriving DecidableEq, Repr

/-- `CpuLoadReaderProcStat::JiffiesToMs`, in `uint64_t`; `clockTicks` is what
`sysconf(_SC_CLK_TCK)` returns. -/
def JiffiesToMs (clockTicks : Nat) (jiffies : Nat) : Nat :=
  (jiffies * 1000) % 2 ^ 64 / clockTicks

/-- The call of `std::sscanf` in `ReadCpuTimes`, with the format `cpu%d`
followed by ten `%` `PRIu64` conversions: `none` when it does not return 11,
otherwise the CPU id and the ten values stored. -/
def sscanfCpuLine (line : List Char) : Option (Nat × List Nat) :=
  match line with
  | 'c' :: 'p' :: 'u' :: afterLabel =>
    match scanIntIntoUInt32 afterLabel with
    | none => none
    | some (cpuId, afterId) =>
      match scanUInt64s 10 afterId with
      | none => none
      | some (values, _) => some (cpuId, values)
  | _ => none

/-- The `CpuTime` that `ReadCpuTimes` forms of the ten values of a line, in
the order of the format: user, nice, system, idle, ioWait, irq, softIrq,
steal, guest, guestNice.  The two sums are `uint64_t` sums. -/
def cpuTimeOfValues (clockTicks : Nat) : List Nat → Option ProcStatCpuTime
  | [user, nice, system, idle, ioWait, irq, softIrq, steal, guest, guestNice] =>
    let idleTimeJiffies := (idle + ioWait) % 2 ^ 64
    let totalTimeJiffies :=
      (user + nice + system + irq + softIrq + steal + guest + guestNice + idleTimeJiffies) %
        2 ^ 64
    some { idleTimeMs := JiffiesToMs clockTicks idleTimeJiffies
           totalTimeMs := JiffiesToMs clockTicks totalTimeJiffies }
  | _ => none

/-- One pass through the body of the `while` loop of `ReadCpuTimes`: a line
that does not parse is skipped, another one sets the entry of its CPU id. -/
def readCpuTimesLine (clockTicks : Nat) (result : List (Nat × ProcStatCpuTime))
    (line : List Char) : List (Nat × ProcStatCpuTime) :=
  match sscanfCpuLine line with
  | none => result
  | some (cpuId, values) =>
    match cpuTimeOfValues clockTicks values with
    | none => result
    | some cpuTime => natMapInsert cpuId cpuTime result

/-- `CpuLoadReaderProcStat::ReadCpuTimes`: the returned flag and `*result`
after the call; `file` is what `ReadFileStream("/proc/stat", ..)` delivers. -/
def CpuLoadReaderProcStat.ReadCpuTimes (file : Option String) (clockTicks : Nat)
    (result : List (Nat × ProcStatCpuTime)) : Bool × List (Nat × ProcStatCpuTime) :=
  match file with
  | none => (false, result)
  | some content => (true, (getlines content.toList).foldl (readCpuTimesLine clockTicks) result)

/-- `CpuLoadReaderProcStat::Init`. -/
def CpuLoadReaderProcStat.Init (_r : CpuLoadReaderProcStat) (file : Option String)
    (clockTicks : Nat) : Bool × CpuLoadReaderProcStat :=
  let read := CpuLoadReaderProcStat.ReadCpuTimes file clockTicks []
  (read.1, { mPreviousCpuTimes := read.2 })

/-- The difference `cpuTime.idleTimeMs - previousCpuTime.idleTimeMs`, in
`uint64_t`. -/
def recentIdleTimeMs (cpuTime previousCpuTime : ProcStatCpuTime) : Nat :=
  (cpuTime.idleTimeMs + 2 ^ 64 - previousCpuTime.idleTimeMs) % 2 ^ 64

/-- The difference `cpuTime.totalTimeMs - previousCpuTime.totalTimeMs`, in
`uint64_t`. -/
def recentTotalTimeMs (cpuTime previousCpuTime : ProcStatCpuTime) : Nat :=
  (cpuTime.totalTimeMs + 2 ^ 64 - previousCpuTime.totalTimeMs) % 2 ^ 64

/-- A value of type `double` as `GetRecentCpuLoads` computes it: a number,
kept exact, or what a division by zero yields, an infinity for a numerator
other than zero and NaN for the numerator zero. -/
inductive DoubleValue
  | finite (value : Rat)
  | infinite
  | nan
deriving DecidableEq, Repr

/-- The expression `static_cast<double>(numerator) / denominator` on two
`uint64_t` values. -/
def uint64Quotient (numerator denominator : Nat) : DoubleValue :=
  if denominator = 0 then
    if numerator = 0 then .nan else .infinite
  else .finite ((numerator : Rat) / (denominator : Rat))

/-- The comparison `x <= bound` of type `double` against a number: it is false
for NaN, and for the positive infinity. -/
def DoubleValue.atMost : DoubleValue → Rat → Bool
  | .finite value, bound => decide (value ≤ bound)
  | .infinite, _ => false
  | .nan, _ => false

/-- The `for` loop of `CpuLoadReaderProcStat::GetRecentCpuLoads` over the
entries of `cpuTimes` not yet visited: the flag (`false` at a `return false`,
`true` when the loop runs to its end) and the output array as the loop leaves
it.  `none` stands for a write `(*cpuCoreIdleTimesPercentage)[cpuId]` with
`cpuId` outside the array of `NUM_CPU_CORES` elements. -/
def recentCpuLoadsLoop (previousCpuTimes : List (Nat × ProcStatCpuTime)) :
    List (Nat × ProcStatCpuTime) → List DoubleValue → Option (Bool × List DoubleValue)
  | [], output => some (true, output)
  | (cpuId, cpuTime) :: rest, output =>
    match natMapFind cpuId previousCpuTimes with
    | none => some (false, output)
    | some previousCpuTime =>
      if recentIdleTimeMs cpuTime previousCpuTime >
          recentTotalTimeMs cpuTime previousCpuTime then some (false, output)
      else if cpuId < NUM_CPU_CORES then
        recentCpuLoadsLoop previousCpuTimes rest
          (output.set cpuId
            (uint64Quotient (recentIdleTimeMs cpuTime previousCpuTime)
              (recentTotalTimeMs cpuTime previousCpuTime)))
      else none

/-- `CpuLoadReaderProcStat::GetRecentCpuLoads` with an output pointer that is
not null: the returned flag, the output array and the reader after the call,
or `none` when the call writes outside the output array.  `output` is what the
array holds before the call, taken to be numbers; after the call an element is
a number or the result of a division by zero. -/
def CpuLoadReaderProcStat.GetRecentCpuLoads (r : CpuLoadReaderProcStat) (file : Option String)
    (clockTicks : Nat) (output : List Rat) :
    Option (Bool × List DoubleValue × CpuLoadReaderProcStat) :=
  let read := CpuLoadReaderProcStat.ReadCpuTimes file clockTicks []
  if !read.1 then some (false, output.map DoubleValue.finite, r)
  else if read.2.isEmpty then some (false, output.map DoubleValue.finite, r)
  else
    match recentCpuLoadsLoop r.mPreviousCpuTimes read.2 (output.map DoubleValue.finite) with
    | none => none
    | some (false, written) => some (false, written, r)
    | some (true, written) => some (true, written, { mPreviousCpuTimes := read.2 })

/-- The first `/proc/stat` content of the repository test `GetRecentCpuLoads`. -/
def sampleProcStatBefore : String :=
  "bad line\ncpu1 100 0 0 50 0 0 0 0 0 0\ncpu2 200 0 0 50 0 0 0 0 0 0\n"

/-- The second `/proc/stat` content of the repository test `GetRecentCpuLoads`. -/
def sampleProcStatAfter : String :=
  "bad line\ncpu1 200 0 0 150 0 0 0 0 0 0\ncpu2 500 0 0 150 0 0 0 0 0 0\n"

/-- A `/proc/stat` content with a line for a ninth CPU. -/
def sampleProcStatNineBefore : String :=
  "cpu0 100 0 0 50 0 0 0 0 0 0\ncpu8 100 0 0 50 0 0 0 0 0 0\n"

/-- A later `/proc/stat` content with a line for a ninth CPU. -/
def sampleProcStatNineAfter : String :=
  "cpu0 200 0 0 150 0 0 0 0 0 0\ncpu8 200 0 0 150 0 0 0 0 0 0\n"

/-- An output array of `NUM_CPU_CORES` zeros. -/
def zeroLoads : List Rat := [0, 0, 0, 0, 0, 0, 0, 0]

/-- Whether the loop of `GetRecentCpuLoads` does not return false at an entry
of the new CPU times: its CPU has a previous entry, and its recent idle time
does not exceed its recent total time. -/
def recentLoadDefined (previousCpuTimes : List (Nat × ProcStatCpuTime))
    (entry : Nat × ProcStatCpuTime) : Bool :=
  match natMapFind entry.1 previousCpuTimes with
  | none => false
  | some previousCpuTime =>
    decide (recentIdleTimeMs entry.2 previousCpuTime ≤ recentTotalTimeMs entry.2 previousCpuTime)

/-- The reader after `Init` has read the first sample content with 100 clock
ticks per second. -/
def sampleProcStatReader : CpuLoadReaderProcStat :=
  { mPreviousCpuTimes := [(1, ⟨500, 1500⟩), (2, ⟨500, 2500⟩)] }

/-- The reader after `Init` has read the second sample content with 100 clock
ticks per second. -/
def sampleProcStatReaderAfter : CpuLoadReaderProcStat :=
  { mPreviousCpuTimes := [(1, ⟨1500, 3500⟩), (2, ⟨1500, 6500⟩)] }

/-! ## CpuLoadReaderSysDevices -/

/-- The `struct CpuTime` of CpuLoadReaderSysDevices.h: two counts of
microseconds. -/
structure SysDevicesCpuTime where
  idleTime : Int
  totalTime : Int
deriving DecidableEq, Repr

/-- The data members `mPreviousCpuTimes`, an array of `NUM_CPU_CORES`
elements, and `mIdleStateNames` of `class CpuLoadReaderSysDevices`. -/
structure CpuLoadReaderSysDevices where
  mPreviousCpuTimes : List SysDevicesCpuTime
  mIdleStateNames : List String
deriving DecidableEq, Repr

/-- The path `ReadCpuTimes` builds for a CPU and an idle state. -/
def cpuIdlePath (cpuId : Nat) (idleStateName : String) : String :=
  "/sys/devices/system/cpu/" ++ "cpu" ++ toString cpuId ++ "/cpuidle/" ++ idleStateName ++
    "/time"

/-- The inner `for` loop of `CpuLoadReaderSysDevices::ReadCpuTimes` over the
idle state names not yet visited: `none` at the `return false`, otherwise the
local `idleTime` after the loop. -/
def readIdleTime (fs : Filesystem) (cpuId : Nat) : List String → Int → Option Int
  | [], idleTime => some idleTime
  | idleStateName :: rest, idleTime =>
    match fs.ReadFileStream (cpuIdlePath cpuId idleStateName) with
    | none => none
    | some idleTimeUs => readIdleTime fs cpuId rest (idleTime + atoi idleTimeUs.toList)

/-- The outer `for` loop of `CpuLoadReaderSysDevices::ReadCpuTimes` over the
CPU ids not yet visited: the returned flag and `*result` as the loop leaves
it.  The local `idleTime`, which has no initialiser, is taken to start at
zero; `totalTime` is the clock reading in nanoseconds, which `duration_cast`
truncates to microseconds. -/
def readSysCpuTimes (fs : Filesystem) (idleStateNames : List String) (totalTime : Int) :
    List Nat → List SysDevicesCpuTime → Bool × List SysDevicesCpuTime
  | [], result => (true, result)
  | cpuId :: rest, result =>
    match readIdleTime fs cpuId idleStateNames 0 with
    | none => (false, result)
    | some idleTime =>
      readSysCpuTimes fs idleStateNames totalTime rest
        (result.set cpuId { idleTime := idleTime, totalTime := Int.tdiv totalTime 1000 })

/-- `CpuLoadReaderSysDevices::ReadCpuTimes`: the returned flag and `*result`
after the call; `now` is what `GetTime()` returns. -/
def CpuLoadReaderSysDevices.ReadCpuTimes (r : CpuLoadReaderSysDevices) (fs : Filesystem)
    (now : Int) (result : List SysDevicesCpuTime) : Bool × List SysDevicesCpuTime :=
  readSysCpuTimes fs r.mIdleStateNames now (List.range NUM_CPU_CORES) result

/-- The `for` loop of `ReadIdleStateNames` over the directory entries not yet
visited: the flag (`false` at the `return false`) and `*result`. -/
def readIdleStateNamesFrom (fs : Filesystem) : List String → List String → Bool × List String
  | [], result => (true, result)
  | idleStateName :: rest, result =>
    if idleStateName.length = 0 ∨ idleStateName.toList.head? = some '.' then
      readIdleStateNamesFrom fs rest result
    else
      match fs.ListDirectory ("/sys/devices/system/cpu/cpu0/cpuidle/" ++ idleStateName) with
      | none => (false, result)
      | some files =>
        if "time" ∈ files then readIdleStateNamesFrom fs rest (result ++ [idleStateName])
        else readIdleStateNamesFrom fs rest result

/-- `CpuLoadReaderSysDevices::ReadIdleStateNames`: the returned flag and
`*result` after the call. -/
def CpuLoadReaderSysDevices.ReadIdleStateNames (fs : Filesystem) (result : List String) :
    Bool × List String :=
  match fs.ListDirectory "/sys/devices/system/cpu/cpu0/cpuidle" with
  | none => (false, result)
  | some idleStateNames =>
    let looped := readIdleStateNamesFrom fs idleStateNames result
    if !looped.1 then looped
    else if idleStateNames.isEmpty then (false, looped.2)
    else (true, looped.2)

/-- `CpuLoadReaderSysDevices::Init`; `now` is what `GetTime()` returns. -/
def CpuLoadReaderSysDevices.Init (r : CpuLoadReaderSysDevices) (fs : Filesystem) (now : Int) :
    Bool × CpuLoadReaderSysDevices :=
  let names := CpuLoadReaderSysDevices.ReadIdleStateNames fs []
  let r1 := { r with mIdleStateNames := names.2 }
  if !names.1 then (false, r1)
  else
    let read := r1.ReadCpuTimes fs now r1.mPreviousCpuTimes
    (read.1, { r1 with mPreviousCpuTimes := read.2 })

/-- The element `cpuTimes[cpuId]` of an array of CPU times. -/
def sysCpuTimeAt (cpuTimes : List SysDevicesCpuTime) (cpuId : Nat) : SysDevicesCpuTime :=
  cpuTimes.getD cpuId { idleTime := 0, totalTime := 0 }

/-- The body of the `for` loop of `CpuLoadReaderSysDevices::GetRecentCpuLoads`:
the value stored for a CPU.  The quotient of type `double` is kept as the
rational quotient. -/
def recentSysLoad (cpuTime previousCpuTime : SysDevicesCpuTime) : Rat :=
  let recentIdleTime := cpuTime.idleTime - previousCpuTime.idleTime
  let recentTotalTime := cpuTime.totalTime - previousCpuTime.totalTime
  let clampedIdleTime := if recentIdleTime > recentTotalTime then recentTotalTime else recentIdleTime
  (clampedIdleTime : Rat) / (recentTotalTime : Rat)

/-- `CpuLoadReaderSysDevices::GetRecentCpuLoads` with an output pointer that
is not null: the returned flag, the output array and the reader after the
call; `now` is what `GetTime()` returns. -/
def CpuLoadReaderSysDevices.GetRecentCpuLoads (r : CpuLoadReaderSysDevices) (fs : Filesystem)
    (now : Int) (output : List Rat) : Bool × List Rat × CpuLoadReaderSysDevices :=
  let read := r.ReadCpuTimes fs now (List.replicate NUM_CPU_CORES { idleTime := 0, totalTime := 0 })
  if !read.1 then (false, output, r)
  else
    ((true,
      (List.range NUM_CPU_CORES).foldl
        (fun written cpuId =>
          written.set cpuId
            (recentSysLoad (sysCpuTimeAt read.2 cpuId) (sysCpuTimeAt r.mPreviousCpuTimes cpuId)))
        output,
      { r with mPreviousCpuTimes := read.2 }))

/-- A file system with the idle states `foo` and `bar` of the repository test
`CpuLoadReaderSysDevicesTest.GetRecentCpuLoads` (and an entry `baz` without a
`time` file): the `time` files of CPU 0 and of CPU 1 hold the given contents,
those of the other CPUs hold "0". -/
def sampleSysFs (foo0 bar0 foo1 bar1 : String) : Filesystem :=
  { ListDirectory := fun path =>
      if path = "/sys/devices/system/cpu/cpu0/cpuidle" then some ["foo", "bar", "baz"]
      else if path = "/sys/devices/system/cpu/cpu0/cpuidle/baz" then some ["abc", "xyz"]
      else some ["abc", "time", "xyz"]
    ReadFileStream := fun path =>
      if path = "/sys/devices/system/cpu/cpu0/cpuidle/foo/time" then some foo0
      else if path = "/sys/devices/system/cpu/cpu0/cpuidle/bar/time" then some bar0
      else if path = "/sys/devices/system/cpu/cpu1/cpuidle/foo/time" then some foo1
      else if path = "/sys/devices/system/cpu/cpu1/cpuidle/bar/time" then some bar1
      else some "0" }

/-- A reader before `Init`, its array of previous times holding zeros. -/
def sampleSysReader : CpuLoadReaderSysDevices :=
  { mPreviousCpuTimes := List.replicate 8 { idleTime := 0, totalTime := 0 }
    mIdleStateNames := [] }

/-! ## CpuFrequencyReader.cpp -/

/-- The data members of `class CpuFrequencyReader`: the policy ids as `Init`
left them, and the times per policy and frequency of the previous read, two
nested `std::map`s kept as lists in key order.  The times are counts of
milliseconds. -/
structure CpuFrequencyReader where
  mCpuPolicyIds : List Nat
  mPreviousCpuPolicyFrequencies : List (Nat × List (Nat × Int))
deriving DecidableEq, Repr

/-- The path `ReadCpuPolicyFrequencies` builds for a policy. -/
def timeInStatePath (cpuPolicyId : Nat) : String :=
  "/sys/devices/system/cpu/cpufreq/policy" ++ toString cpuPolicyId ++ "/stats/time_in_state"

/-- The call of `std::sscanf` in `ReadCpuPolicyFrequencies`, with two
`%` `PRIu64` conversions: `none` when it does not return 2, otherwise the two
values stored. -/
def sscanfTimeInStateLine (line : List Char) : Option (Nat × Nat) :=
  match scanUInt64s 2 line with
  | some ([frequencyHz, time10Ms], _) => some (frequencyHz, time10Ms)
  | _ => none

/-- The expression `time10Ms * 10ms`, a `uint64_t` product, stored as
`std::chrono::milliseconds`. -/
def time10MsToMs (time10Ms : Nat) : Int :=
  wrapInt64 (((time10Ms * 10) % 2 ^ 64 : Nat) : Int)

/-- The `while` loop of `ReadCpuPolicyFrequencies` over the lines not yet
read: `none` at the `return false`, otherwise the map `cpuFrequencies`. -/
def readTimeInState : List (List Char) → List (Nat × Int) → Option (List (Nat × Int))
  | [], cpuFrequencies => some cpuFrequencies
  | timeInStateLine :: rest, cpuFrequencies =>
    match sscanfTimeInStateLine timeInStateLine with
    | none => none
    | some (frequencyHz, time10Ms) =>
      readTimeInState rest (natMapInsert frequencyHz (time10MsToMs time10Ms) cpuFrequencies)

/-- The `for` loop of `ReadCpuPolicyFrequencies` over the policy ids not yet
visited: the returned flag and `*result` as the loop leaves it. -/
def readCpuPolicyFrequenciesFrom (fs : Filesystem) :
    List Nat → List (Nat × List (Nat × Int)) → Bool × List (Nat × List (Nat × Int))
  | [], result => (true, result)
  | cpuPolicyId :: rest, result =>
    match fs.ReadFileStream (timeInStatePath cpuPolicyId) with
    | none => (false, result)
    | some content =>
      match readTimeInState (getlines content.toList) [] with
      | none => (false, result)
      | some cpuFrequencies =>
        if cpuFrequencies.length > 500 then (false, result)
        else
          readCpuPolicyFrequenciesFrom fs rest (natMapInsert cpuPolicyId cpuFrequencies result)

/-- `CpuFrequencyReader::ReadCpuPolicyFrequencies`: the returned flag and
`*result` after the call. -/
def CpuFrequencyReader.ReadCpuPolicyFrequencies (r : CpuFrequencyReader) (fs : Filesystem)
    (result : List (Nat × List (Nat × Int))) : Bool × List (Nat × List (Nat × Int)) :=
  readCpuPolicyFrequenciesFrom fs r.mCpuPolicyIds result

/-- The conversion of an `int64_t` value to `uint64_t`. -/
def toUInt64 (x : Int) : Nat :=
  (x % 2 ^ 64).toNat

/-- The inner `for` loop of `GetRecentCpuPolicyFrequencies` over the
frequencies not yet visited: `none` at the `return false`, otherwise the
locals `weightedFrequenciesSumHz`, a `uint64_t`, and `timeSum`, a count of
milliseconds in `int64_t`. -/
def sumRecentFrequencies (previousCpuFrequencies : List (Nat × Int)) :
    List (Nat × Int) → Nat → Int → Option (Nat × Int)
  | [], weightedFrequenciesSumHz, timeSum => some (weightedFrequenciesSumHz, timeSum)
  | (frequencyHz, time) :: rest, weightedFrequenciesSumHz, timeSum =>
    match natMapFind frequencyHz previousCpuFrequencies with
    | none => none
    | some previousTime =>
      let recentTime := wrapInt64 (time - previousTime)
      sumRecentFrequencies previousCpuFrequencies rest
        ((weightedFrequenciesSumHz + (frequencyHz * toUInt64 recentTime) % 2 ^ 64) % 2 ^ 64)
        (wrapInt64 (timeSum + recentTime))

/-- The outer `for` loop of `GetRecentCpuPolicyFrequencies` over the policies
not yet visited: the flag (`false` at a `return false`) and `*result` as the
loop leaves it.  The quotient is a `uint64_t` division. -/
def recentCpuPolicyFrequenciesLoop (previous : List (Nat × List (Nat × Int))) :
    List (Nat × List (Nat × Int)) → List CpuPolicyAverageFrequency →
      Bool × List CpuPolicyAverageFrequency
  | [], result => (true, result)
  | (policyId, cpuFrequencies) :: rest, result =>
    match natMapFind policyId previous with
    | none => (false, result)
    | some previousCpuFrequencies =>
      match sumRecentFrequencies previousCpuFrequencies cpuFrequencies 0 0 with
      | none => (false, result)
      | some (weightedFrequenciesSumHz, timeSum) =>
        let averageFrequencyHz :=
          if timeSum ≠ 0 then weightedFrequenciesSumHz / toUInt64 timeSum else 0
        recentCpuPolicyFrequenciesLoop previous rest
          (result ++ [{ policyId := policyId, averageFrequencyHz := averageFrequencyHz }])

/-- `CpuFrequencyReader::GetRecentCpuPolicyFrequencies`: the returned flag,
`*result` and the reader after the call. -/
def CpuFrequencyReader.GetRecentCpuPolicyFrequencies (r : CpuFrequencyReader) (fs : Filesystem)
    (result : List CpuPolicyAverageFrequency) :
    Bool × List CpuPolicyAverageFrequency × CpuFrequencyReader :=
  let read := r.ReadCpuPolicyFrequencies fs []
  if !read.1 then (false, result, r)
  else
    let looped := recentCpuPolicyFrequenciesLoop r.mPreviousCpuPolicyFrequencies read.2 result
    if !looped.1 then (false, looped.2, r)
    else (true, looped.2, { r with mPreviousCpuPolicyFrequencies := read.2 })

/-- A file system with the two `time_in_state` files of the repository test
`getRecentCpuPolicyFrequencies`, holding the given contents. -/
def sampleFreqFs (policy1 policy2 : String) : Filesystem :=
  { ListDirectory := fun _ => some ["policy1", "policy2"]
    ReadFileStream := fun path =>
      if path = "/sys/devices/system/cpu/cpufreq/policy1/stats/time_in_state" then some policy1
      else if path = "/sys/devices/system/cpu/cpufreq/policy2/stats/time_in_state" then
        some policy2
      else none }

/-- The reader of the repository test `getRecentCpuPolicyFrequencies` after
`Init`. -/
def sampleFreqReader : CpuFrequencyReader :=
  { mCpuPolicyIds := [1, 2]
    mPreviousCpuPolicyFrequencies :=
      [(1, [(1000, 50), (2000, 40)]), (2, [(1500, 10), (2500, 230)])] }

/-- The lookup in the hint-name table succeeds for every decision. -/
theorem hintNamesAt_isSome (decision : ThrottleDecision) :
    (hintNamesAt decision).isSome = true := by
  cases decision <;> rfl

/-- The timeout test, when passed, leaves the controller as it is. -/
theorem checkEnabledHint_ok (s s1 : AdaptiveCpu) (env : LoopEnv)
    (h : s.checkEnabledHint env = .ok s1) : s1 = s := by
  unfold AdaptiveCpu.checkEnabledHint at h
  split_ifs at h
  injection h with h
  exact h.symm

/-- A successful configuration reload keeps the previous decision and the two
time stamps. -/
theorem reloadConfig_ok (s s1 : AdaptiveCpu) (env : LoopEnv)
    (h : s.reloadConfig env = .ok s1) :
    s1.previousThrottleDecision = s.previousThrottleDecision ∧
    s1.mLastThrottleHintTime = s.mLastThrottleHintTime ∧
    s1.mLastEnabledHintTime = s.mLastEnabledHintTime := by
  unfold AdaptiveCpu.reloadConfig at h
  dsimp only at h
  split_ifs at h <;> (injection h with h; subst h; simp)

/-- The start of a run keeps the previous decision, the two time stamps and
the configuration. -/
theorem startRun_ok (s s1 : AdaptiveCpu) (env : LoopEnv)
    (h : s.startRun env = .ok s1) :
    s1.previousThrottleDecision = s.previousThrottleDecision ∧
    s1.mLastThrottleHintTime = s.mLastThrottleHintTime ∧
    s1.mLastEnabledHintTime = s.mLastEnabledHintTime ∧
    s1.mConfig = s.mConfig := by
  unfold AdaptiveCpu.startRun at h
  dsimp only at h
  split_ifs at h <;> (injection h with h; subst h; simp)

/-- Filling the model input keeps the previous decision, the two time stamps
and the configuration. -/
theorem readModelInput_ok (s s1 : AdaptiveCpu) (env : LoopEnv) (modelInput : ModelInput)
    (h : s.readModelInput env = .ok (s1, modelInput)) :
    s1.previousThrottleDecision = s.previousThrottleDecision ∧
    s1.mLastThrottleHintTime = s.mLastThrottleHintTime ∧
    s1.mLastEnabledHintTime = s.mLastEnabledHintTime ∧
    s1.mConfig = s.mConfig  := by
  unfold AdaptiveCpu.readModelInput at h
  dsimp only at h
  split_ifs at h
  split at h
  · cases h
  · injection h with h
    injection h with h1 h2
    subst h1
    simp


/-- A pass that reaches the model has left the previous decision and the
times of the last hint emission and of the last enable hint as they were. -/
theorem computeDecision_ok_keeps (s s1 : AdaptiveCpu) (env : LoopEnv)
    (features : WorkDurationFeatures) (decision : ThrottleDecision)
    (h : s.computeDecision env = .ok (s1, features, decision)) :
    s1.previousThrottleDecision = s.previousThrottleDecision ∧
    s1.mLastThrottleHintTime = s.mLastThrottleHintTime ∧
    s1.mLastEnabledHintTime = s.mLastEnabledHintTime := by
  unfold AdaptiveCpu.computeDecision at h
  split at h
  · cases h
  · rename_i a ha
    split at h
    · cases h
    · rename_i b hb
      split at h
      · cases h
      · rename_i c hc
        split at h
        · cases h
        · rename_i d m hd
          have e1 := checkEnabledHint_ok _ _ _ ha
          have e2 := reloadConfig_ok _ _ _ hb
          have e3 := startRun_ok _ _ _ hc
          have e4 := readModelInput_ok _ _ _ _ hd
          subst e1
          injection h with h
          injection h with h1 h2
          subst h1
          simp only [AdaptiveCpu.runModel]
          refine ⟨?_, ?_, ?_⟩
          · rw [e4.1, e3.1, e2.1]
          · rw [e4.2.1, e3.2.1, e2.2.1]
          · rw [e4.2.2.1, e3.2.2.1, e2.2.2]

/-- The timeout test, when failed, clears the enable flag and nothing else. -/
theorem checkEnabledHint_error (s : AdaptiveCpu) (env : LoopEnv)
    (stop : AdaptiveCpu × LoopOutcome) (h : s.checkEnabledHint env = .error stop) :
    stop = ({ s with mIsEnabled := false }, .enabledHintTimedOut) := by
  unfold AdaptiveCpu.checkEnabledHint at h
  split_ifs at h
  injection h with h
  exact h.symm

/-- A failed configuration reload ends the pass as `configReadFailed`. -/
theorem reloadConfig_error (s : AdaptiveCpu) (env : LoopEnv)
    (stop : AdaptiveCpu × LoopOutcome) (h : s.reloadConfig env = .error stop) :
    stop.2 = .configReadFailed ∧ stop.1.mLastEnabledHintTime = s.mLastEnabledHintTime := by
  unfold AdaptiveCpu.reloadConfig at h
  dsimp only at h
  split_ifs at h
  injection h with h; subst h; simp

/-- A failed reader initialisation ends the pass as `readerInitFailed`. -/
theorem startRun_error (s : AdaptiveCpu) (env : LoopEnv)
    (stop : AdaptiveCpu × LoopOutcome) (h : s.startRun env = .error stop) :
    stop.2 = .readerInitFailed ∧ stop.1.mLastEnabledHintTime = s.mLastEnabledHintTime := by
  unfold AdaptiveCpu.startRun at h
  dsimp only at h
  split_ifs at h
  injection h with h; subst h; simp

/-- Filling the model input stops only for want of durations or of CPU
features. -/
theorem readModelInput_error (s : AdaptiveCpu) (env : LoopEnv)
    (stop : AdaptiveCpu × LoopOutcome) (h : s.readModelInput env = .error stop) :
    (stop.2 = .noDurations ∨ stop.2 = .cpuFeaturesFailed) ∧
    stop.1.mLastEnabledHintTime = s.mLastEnabledHintTime := by
  unfold AdaptiveCpu.readModelInput at h
  dsimp only at h
  split_ifs at h
  · injection h with h; subst h; simp
  · split at h
    · injection h with h; subst h; simp
    · cases h

/-- A pass that stops at a `continue` stops at the enabled-hint timeout test,
with only the enable flag cleared, or passes that test and stops for another
reason, the time of the last enable hint unchanged. -/
theorem computeDecision_error (s : AdaptiveCpu) (env : LoopEnv)
    (stop : AdaptiveCpu × LoopOutcome) (h : s.computeDecision env = .error stop) :
    (s.checkEnabledHint env = .error stop ∧
      stop = ({ s with mIsEnabled := false }, .enabledHintTimedOut)) ∨
    (s.checkEnabledHint env = .ok s ∧
      (stop.2 = .configReadFailed ∨ stop.2 = .readerInitFailed ∨ stop.2 = .noDurations ∨
        stop.2 = .cpuFeaturesFailed) ∧
      stop.1.mLastEnabledHintTime = s.mLastEnabledHintTime) := by
  unfold AdaptiveCpu.computeDecision at h
  split at h
  · rename_i e hs
    injection h with h; subst h
    exact Or.inl ⟨hs, checkEnabledHint_error _ _ _ hs⟩
  · rename_i a ha
    have e1 := checkEnabledHint_ok _ _ _ ha
    subst e1
    refine Or.inr ⟨ha, ?_⟩
    split at h
    · rename_i e hs
      injection h with h; subst h
      obtain ⟨h1, h2⟩ := reloadConfig_error _ _ _ hs
      exact ⟨Or.inl h1, h2⟩
    · rename_i b hb
      have e2 := reloadConfig_ok _ _ _ hb
      split at h
      · rename_i e hs
        injection h with h; subst h
        obtain ⟨h1, h2⟩ := startRun_error _ _ _ hs
        exact ⟨Or.inr (Or.inl h1), by rw [h2, e2.2.2]⟩
      · rename_i c hc
        have e3 := startRun_ok _ _ _ hc
        split at h
        · rename_i e hs
          injection h with h; subst h
          obtain ⟨h1, h2⟩ := readModelInput_error _ _ _ hs
          refine ⟨?_, by rw [h2, e3.2.2.1, e2.2.2]⟩
          rcases h1 with h1 | h1
          · exact Or.inr (Or.inr (Or.inl h1))
          · exact Or.inr (Or.inr (Or.inr h1))
        · cases h

/-- A pass that stops at a `continue` does not end as completed. -/
theorem computeDecision_error_outcome (s : AdaptiveCpu) (env : LoopEnv)
    (stop : AdaptiveCpu × LoopOutcome) (h : s.computeDecision env = .error stop)
    (decision : ThrottleDecision) : stop.2 ≠ .completed decision := by
  rcases computeDecision_error s env stop h with ⟨-, h1⟩ | ⟨-, h1, -⟩
  · rw [h1]; simp
  · rcases h1 with h1 | h1 | h1 | h1 <;> (rw [h1]; simp)

/-- A pass that ends as completed with decision `B` has reached the model,
which returned `B`. -/
theorem iteration_completed (s : AdaptiveCpu) (env : LoopEnv) (B : ThrottleDecision)
    (h : (s.RunMainLoopIteration env).outcome = .completed B) :
    ∃ s1 features, s.computeDecision env = .ok (s1, features, B) := by
  unfold AdaptiveCpu.RunMainLoopIteration at h
  split at h
  · rename_i s1 outcome hc
    exact absurd h (computeDecision_error_outcome s env (s1, outcome) hc B)
  · rename_i s1 features decision hc
    simp only [LoopOutcome.completed.injEq] at h
    subst h
    exact ⟨s1, features, hc⟩

/-- The result of a pass in terms of the two parts of the loop body. -/
theorem iteration_of_ok (s s1 : AdaptiveCpu) (env : LoopEnv)
    (features : WorkDurationFeatures) (B : ThrottleDecision)
    (h : s.computeDecision env = .ok (s1, features, B)) :
    (s.RunMainLoopIteration env).hintCalls = (s1.sendHints env.now B).2 ∧
    (s.RunMainLoopIteration env).state.previousThrottleDecision =
      (s1.sendHints env.now B).1.previousThrottleDecision ∧
    (s.RunMainLoopIteration env).state.mLastThrottleHintTime =
      (s1.sendHints env.now B).1.mLastThrottleHintTime ∧
    (s.RunMainLoopIteration env).state.mConfig = s1.mConfig := by
  unfold AdaptiveCpu.RunMainLoopIteration
  rw [h]
  simp [AdaptiveCpu.sendHints]
  split_ifs <;> simp


/-- The `sendHints` block when the decision differs from the previous one. -/
theorem sendHints_changed (s : AdaptiveCpu) (now : Int) (B : ThrottleDecision)
    (hne : B ≠ s.previousThrottleDecision) :
    (s.sendHints now B).2 =
      (hintNames B).map (fun hintName => HintCall.DoHint hintName s.mConfig.hintTimeout) ++
        (hintNames s.previousThrottleDecision).map HintCall.EndHint ∧
    (s.sendHints now B).1.previousThrottleDecision = B ∧
    (s.sendHints now B).1.mLastThrottleHintTime = now := by
  simp [AdaptiveCpu.sendHints, hne]

/-- The `sendHints` block when the decision equals the previous one. -/
theorem sendHints_same (s : AdaptiveCpu) (now : Int) :
    (s.sendHints now s.previousThrottleDecision).2 =
      (if now - s.mLastThrottleHintTime > msToNs (s.mConfig.hintTimeout / 2) then
        (hintNames s.previousThrottleDecision).map
          (fun hintName => HintCall.DoHint hintName s.mConfig.hintTimeout)
       else []) ∧
    (s.sendHints now s.previousThrottleDecision).1.previousThrottleDecision =
      s.previousThrottleDecision ∧
    (s.sendHints now s.previousThrottleDecision).1.mLastThrottleHintTime =
      (if now - s.mLastThrottleHintTime > msToNs (s.mConfig.hintTimeout / 2) then now
       else s.mLastThrottleHintTime) := by
  simp only [AdaptiveCpu.sendHints]
  split_ifs <;> simp_all

/-- C1 (hint change law).  In a loop pass that completes with a decision `B`
different from the previous decision `A`, the hint-manager calls are exactly:
`DoHint(name, hintTimeout)` for each hint name of `B` in table order, followed
by `EndHint(name)` for each hint name of `A` in table order; afterwards the
previous decision is `B`. -/
theorem hint_change_law (s : AdaptiveCpu) (env : LoopEnv) (B : ThrottleDecision)
    (hrun : (s.RunMainLoopIteration env).outcome = .completed B)
    (hne : B ≠ s.previousThrottleDecision) :
    (s.RunMainLoopIteration env).hintCalls =
      (hintNames B).map
          (fun hintName =>
            HintCall.DoHint hintName (s.RunMainLoopIteration env).state.mConfig.hintTimeout) ++
        (hintNames s.previousThrottleDecision).map HintCall.EndHint ∧
    (s.RunMainLoopIteration env).state.previousThrottleDecision = B := by
  obtain ⟨s1, features, hc⟩ := iteration_completed s env B hrun
  obtain ⟨hcalls, hprev, -, hcfg⟩ := iteration_of_ok s s1 env features B hc
  obtain ⟨kprev, -, -⟩ := computeDecision_ok_keeps s s1 env features B hc
  rw [← kprev] at hne ⊢
  obtain ⟨c1, c2, -⟩ := sendHints_changed s1 env.now B hne
  rw [hcalls, hprev, hcfg]
  exact ⟨c1, c2⟩

/-- C3.  In a loop pass that completes with decision `B`, the `DoHint` calls
are the group of `B` when `B` differs from the previous decision or
`now - mLastThrottleHintTime > hintTimeout / 2`, and there is none otherwise;
`mLastThrottleHintTime` becomes `now` in the first case and keeps its value in
the second. -/
theorem do_hint_iff (s : AdaptiveCpu) (env : LoopEnv) (B : ThrottleDecision)
    (hrun : (s.RunMainLoopIteration env).outcome = .completed B) :
    (s.RunMainLoopIteration env).hintCalls.filter HintCall.isDoHint =
      (if B ≠ s.previousThrottleDecision ∨
          env.now - s.mLastThrottleHintTime >
            msToNs ((s.RunMainLoopIteration env).state.mConfig.hintTimeout / 2) then
        (hintNames B).map
          (fun hintName =>
            HintCall.DoHint hintName (s.RunMainLoopIteration env).state.mConfig.hintTimeout)
       else []) ∧
    (s.RunMainLoopIteration env).state.mLastThrottleHintTime =
      (if B ≠ s.previousThrottleDecision ∨
          env.now - s.mLastThrottleHintTime >
            msToNs ((s.RunMainLoopIteration env).state.mConfig.hintTimeout / 2) then env.now
       else s.mLastThrottleHintTime) := by
  obtain ⟨s1, features, hc⟩ := iteration_completed s env B hrun
  obtain ⟨hcalls, -, hlast, hcfg⟩ := iteration_of_ok s s1 env features B hc
  obtain ⟨kprev, klast, -⟩ := computeDecision_ok_keeps s s1 env features B hc
  rw [hcalls, hlast, hcfg, ← kprev, ← klast]
  by_cases hne : B = s1.previousThrottleDecision
  · subst hne
    obtain ⟨c1, -, c3⟩ := sendHints_same s1 env.now
    rw [c1, c3]
    by_cases hto : env.now - s1.mLastThrottleHintTime > msToNs (s1.mConfig.hintTimeout / 2)
    · simp [hto, List.filter_map, Function.comp_def, HintCall.isDoHint]
    · simp [hto]
  · obtain ⟨c1, -, c3⟩ := sendHints_changed s1 env.now B hne
    rw [c1, c3]
    simp [hne, List.filter_map, Function.comp_def, HintCall.isDoHint, HintCall.isEndHint]



/-- The hint change law at a pass that changes `THROTTLE_60` to `THROTTLE_80`. -/
theorem hint_change_law_witness :
    ((sampleController .THROTTLE_60 0).RunMainLoopIteration
        (sampleEnv 1000 .THROTTLE_80)).outcome = .completed .THROTTLE_80 ∧
    ThrottleDecision.THROTTLE_80 ≠ (sampleController .THROTTLE_60 0).previousThrottleDecision ∧
    ((sampleController .THROTTLE_60 0).RunMainLoopIteration
        (sampleEnv 1000 .THROTTLE_80)).hintCalls =
      [.DoHint "LOW_POWER_LITTLE_CLUSTER_80" 2000, .DoHint "LOW_POWER_MID_CLUSTER_80" 2000,
       .DoHint "LOW_POWER_CPU_80" 2000, .EndHint "LOW_POWER_LITTLE_CLUSTER_60",
       .EndHint "LOW_POWER_MID_CLUSTER_60", .EndHint "LOW_POWER_CPU_60"] ∧
    ((sampleController .THROTTLE_60 0).RunMainLoopIteration
        (sampleEnv 1000 .THROTTLE_80)).state.previousThrottleDecision = .THROTTLE_80 :=
  ⟨by rfl, by decide,
   hint_change_law (sampleController .THROTTLE_60 0) (sampleEnv 1000 .THROTTLE_80) .THROTTLE_80
     (by rfl) (by decide)⟩

/-- The emission rule at a pass that keeps `THROTTLE_60`, 1.5 s after the last
emission, under the default hint timeout of 2000 ms. -/
theorem do_hint_iff_witness :
    ((sampleController .THROTTLE_60 0).RunMainLoopIteration
        (sampleEnv 1500000000 .THROTTLE_60)).outcome = .completed .THROTTLE_60 ∧
    ((sampleController .THROTTLE_60 0).RunMainLoopIteration
        (sampleEnv 1500000000 .THROTTLE_60)).hintCalls.filter HintCall.isDoHint =
      [.DoHint "LOW_POWER_LITTLE_CLUSTER_60" 2000, .DoHint "LOW_POWER_MID_CLUSTER_60" 2000,
       .DoHint "LOW_POWER_CPU_60" 2000] ∧
    ((sampleController .THROTTLE_60 0).RunMainLoopIteration
        (sampleEnv 1500000000 .THROTTLE_60)).state.mLastThrottleHintTime = 1500000000 :=
  ⟨by rfl,
   do_hint_iff (sampleController .THROTTLE_60 0) (sampleEnv 1500000000 .THROTTLE_60)
     .THROTTLE_60 (by rfl)⟩

/-! ## Properties of the machine integers -/

theorem wrapInt64_of_range (x : Int) (hlo : -2 ^ 63 ≤ x) (hhi : x ≤ INT64_MAX) :
    wrapInt64 x = x := by
  unfold wrapInt64
  unfold INT64_MAX at hhi
  rw [Int.emod_eq_of_lt (by omega) (by omega)]
  omega

/-- Reducing a summand before a reduced sum changes nothing. -/
theorem wrapInt64_add_left (a b : Int) : wrapInt64 (wrapInt64 a + b) = wrapInt64 (a + b) := by
  unfold wrapInt64
  have h : (a + 2 ^ 63) % 2 ^ 64 - 2 ^ 63 + b + 2 ^ 63 = (a + 2 ^ 63) % 2 ^ 64 + b := by ring
  rw [h, Int.emod_add_emod]
  congr 2
  ring

/-- Reducing a summand before a reduced sum changes nothing. -/
theorem wrapUInt32_add_left (a b : Nat) : wrapUInt32 (wrapUInt32 a + b) = wrapUInt32 (a + b) := by
  unfold wrapUInt32
  exact Nat.mod_add_mod a (2 ^ 32) b

/-- Values of `uint32_t` are not changed by the reduction. -/
theorem wrapUInt32_of_lt (n : Nat) (h : n < 2 ^ 32) : wrapUInt32 n = n :=
  Nat.mod_eq_of_lt h

/-! ## Properties of `GetFeatures` -/

/-- The inner loop of `GetFeatures` in closed form: sum and counters are the
mathematical sum and counts reduced to their machine ranges. -/
theorem foldl_accumulateDuration_closed (target : Int) (workDurations : List WorkDuration) :
    ∀ (acc : FeatureSums) (S0 : Int) (n0 m0 : Nat),
      acc.durationsSum = wrapInt64 S0 → acc.numDurations = wrapUInt32 n0 →
      acc.numMissedDeadlines = wrapUInt32 m0 →
      (workDurations.foldl (accumulateDuration target) acc).durationsSum =
          wrapInt64 (S0 +
            (((workDurations.filter (fun w => !isRejected w.durationNanos)).map
              (fun w => normalizeDuration w.durationNanos target)).sum)) ∧
      (workDurations.foldl (accumulateDuration target) acc).maxDuration =
          ((workDurations.filter (fun w => !isRejected w.durationNanos)).map
              (fun w => normalizeDuration w.durationNanos target)).foldl max acc.maxDuration ∧
      (workDurations.foldl (accumulateDuration target) acc).numDurations =
          wrapUInt32 (n0 +
            (workDurations.filter (fun w => !isRejected w.durationNanos)).length) ∧
      (workDurations.foldl (accumulateDuration target) acc).numMissedDeadlines =
          wrapUInt32 (m0 +
            ((workDurations.filter (fun w => !isRejected w.durationNanos)).filter
              (fun w => decide (w.durationNanos > target))).length) := by
  induction workDurations with
  | nil => intro acc S0 n0 m0 hs hn hm; simpa using ⟨hs, hn, hm⟩
  | cons w rest ih =>
    intro acc S0 n0 m0 hs hn hm
    rw [List.foldl_cons]
    by_cases hrej : isRejected w.durationNanos = true
    · have hstep : accumulateDuration target acc w = acc := by
        simp [accumulateDuration, hrej]
      rw [hstep]
      simpa [List.filter_cons, hrej] using ih acc S0 n0 m0 hs hn hm
    · have hrej' : isRejected w.durationNanos = false := by simpa using hrej
      by_cases hmiss : w.durationNanos > target
      · have h := ih (accumulateDuration target acc w)
          (S0 + normalizeDuration w.durationNanos target) (n0 + 1) (m0 + 1)
          (by simp [accumulateDuration, hrej', hs, wrapInt64_add_left])
          (by simp [accumulateDuration, hrej', hn, wrapUInt32_add_left])
          (by simp [accumulateDuration, hrej', hmiss, hm, wrapUInt32_add_left])
        simp only [List.filter_cons, hrej', Bool.not_false, if_true, List.map_cons,
          List.sum_cons, List.length_cons, List.foldl_cons, hmiss, decide_True]
        refine ⟨?_, ?_, ?_, ?_⟩
        · rw [h.1]; congr 1; ring
        · rw [h.2.1]; simp [accumulateDuration, hrej']
        · rw [h.2.2.1]; congr 1; omega
        · rw [h.2.2.2]; congr 1; omega
      · have h := ih (accumulateDuration target acc w)
          (S0 + normalizeDuration w.durationNanos target) (n0 + 1) m0
          (by simp [accumulateDuration, hrej', hs, wrapInt64_add_left])
          (by simp [accumulateDuration, hrej', hn, wrapUInt32_add_left])
          (by simp [accumulateDuration, hrej', hmiss, hm])
        simp only [List.filter_cons, hrej', Bool.not_false, if_true, List.map_cons,
          List.sum_cons, List.length_cons, List.foldl_cons, hmiss, decide_False]
        refine ⟨?_, ?_, ?_, ?_⟩
        · rw [h.1]; congr 1; ring
        · rw [h.2.1]; simp [accumulateDuration, hrej']
        · rw [h.2.2.1]; congr 1; omega
        · rw [h.2.2.2]; simp

/-- The two nested loops of `GetFeatures` in closed form, from any values of
the four locals. -/
theorem foldl_accumulateBatch_closed (batches : List WorkDurationBatch) :
    ∀ (acc : FeatureSums) (S0 : Int) (n0 m0 : Nat),
      acc.durationsSum = wrapInt64 S0 → acc.numDurations = wrapUInt32 n0 →
      acc.numMissedDeadlines = wrapUInt32 m0 →
      (batches.foldl accumulateBatch acc).durationsSum =
          wrapInt64 (S0 + (normalizedDurations batches).sum) ∧
      (batches.foldl accumulateBatch acc).maxDuration =
          (normalizedDurations batches).foldl max acc.maxDuration ∧
      (batches.foldl accumulateBatch acc).numDurations =
          wrapUInt32 (n0 + (acceptedDurations batches).length) ∧
      (batches.foldl accumulateBatch acc).numMissedDeadlines =
          wrapUInt32 (m0 + missedDeadlineCount batches) := by
  induction batches with
  | nil =>
    intro acc S0 n0 m0 hs hn hm
    simpa [normalizedDurations, acceptedDurations, missedDeadlineCount] using ⟨hs, hn, hm⟩
  | cons b rest ih =>
    intro acc S0 n0 m0 hs hn hm
    obtain ⟨b1, b2, b3, b4⟩ :=
      foldl_accumulateDuration_closed b.targetDuration b.workDurations acc S0 n0 m0 hs hn hm
    obtain ⟨r1, r2, r3, r4⟩ := ih (accumulateBatch acc b) _ _ _ b1 b3 b4
    rw [List.foldl_cons]
    refine ⟨?_, ?_, ?_, ?_⟩
    · rw [r1]
      simp [normalizedDurations, WorkDurationBatch.accepted, add_assoc]
    · rw [r2]
      simp only [accumulateBatch] at b2 ⊢
      rw [b2]
      simp [normalizedDurations, WorkDurationBatch.accepted, List.foldl_append]
    · rw [r3]
      simp [acceptedDurations, WorkDurationBatch.accepted, add_assoc]
    · rw [r4]
      simp [missedDeadlineCount, WorkDurationBatch.accepted, add_assoc]

/-- The locals of `GetFeatures` after the loops, in closed form. -/
theorem accumulateBatches_closed (batches : List WorkDurationBatch) :
    (accumulateBatches batches).durationsSum = wrapInt64 (normalizedDurations batches).sum ∧
    (accumulateBatches batches).maxDuration = (normalizedDurations batches).foldl max 0 ∧
    (accumulateBatches batches).numDurations = wrapUInt32 (acceptedDurations batches).length ∧
    (accumulateBatches batches).numMissedDeadlines =
      wrapUInt32 (missedDeadlineCount batches) := by
  have h := foldl_accumulateBatch_closed batches FeatureSums.init 0 0 0 rfl rfl rfl
  simpa [accumulateBatches, FeatureSums.init] using h

/-- What the filter of `GetFeatures` lets through. -/
theorem isRejected_eq_false (d : Int) :
    isRejected d = false ↔ 0 ≤ d ∧ d ≤ 600 * 16666666 := by
  simp [isRejected, kMinDuration, kMaxDuration, kNormalTargetDuration]

/-- Every accepted duration lies between `0` and `kMaxDuration`. -/
theorem acceptedDurations_range (batches : List WorkDurationBatch) (d : Int)
    (h : d ∈ acceptedDurations batches) : 0 ≤ d ∧ d ≤ 600 * 16666666 := by
  simp only [acceptedDurations, WorkDurationBatch.accepted, List.mem_flatMap, List.mem_map,
    List.mem_filter] at h
  obtain ⟨b, -, w, ⟨-, hw⟩, rfl⟩ := h
  exact (isRejected_eq_false _).1 (by simpa using hw)

/-- Normalising an accepted duration against the normal target changes
nothing. -/
theorem normalizeDuration_normal (d : Int) (h : isRejected d = false) :
    normalizeDuration d kNormalTargetDuration = d := by
  obtain ⟨h0, h1⟩ := (isRejected_eq_false d).1 h
  unfold normalizeDuration kNormalTargetDuration
  rw [wrapInt64_of_range (d * 16666666) (by omega) (by unfold INT64_MAX; omega),
    Int.mul_tdiv_cancel d (by decide),
    wrapInt64_of_range d (by omega) (by unfold INT64_MAX; omega)]

/-- With every target equal to the normal target, the normalised durations
are the accepted durations themselves. -/
theorem normalizedDurations_normal (batches : List WorkDurationBatch)
    (htarget : ∀ b ∈ batches, b.targetDuration = kNormalTargetDuration) :
    normalizedDurations batches = acceptedDurations batches := by
  induction batches with
  | nil => rfl
  | cons b rest ih =>
    have hb := htarget b (List.mem_cons_self _ _)
    have hr := ih (fun c hc => htarget c (List.mem_cons_of_mem _ hc))
    simp only [normalizedDurations, acceptedDurations, List.flatMap_cons] at hr ⊢
    rw [hr, hb]
    congr 1
    apply List.map_congr_left
    intro w hw
    simp only [WorkDurationBatch.accepted, List.mem_filter] at hw
    exact normalizeDuration_normal _ (by simpa using hw.2)

/-- A running maximum is at least its start value and every element. -/
theorem foldl_max_ge (l : List Int) :
    ∀ m : Int, m ≤ l.foldl max m ∧ ∀ d ∈ l, d ≤ l.foldl max m := by
  induction l with
  | nil => intro m; simp
  | cons x rest ih =>
    intro m
    obtain ⟨h1, h2⟩ := ih (max m x)
    rw [List.foldl_cons]
    refine ⟨le_trans (le_max_left m x) h1, ?_⟩
    intro d hd
    rcases List.mem_cons.1 hd with rfl | hd
    · exact le_trans (le_max_right m d) h1
    · exact h2 d hd

/-- A running maximum is its start value or one of the elements. -/
theorem foldl_max_mem (l : List Int) :
    ∀ m : Int, l.foldl max m = m ∨ l.foldl max m ∈ l := by
  induction l with
  | nil => intro m; simp
  | cons x rest ih =>
    intro m
    rw [List.foldl_cons]
    rcases ih (max m x) with h | h
    · rw [h]
      rcases max_choice m x with hm | hm
      · exact Or.inl hm
      · exact Or.inr (by rw [hm]; exact List.mem_cons_self _ _)
    · exact Or.inr (List.mem_cons_of_mem _ h)

/-- C7 (normalisation idempotence).  For queued batches that all have the
normal target 16666666 ns and contain at least one accepted duration (fewer
than 2^32 of them, their sum within `int64_t`), `GetFeatures` returns the
truncated mean of the accepted durations as average, the largest accepted
duration as maximum, and their number as count. -/
theorem normalisation_idempotence (p : WorkDurationProcessor)
    (htarget : ∀ b ∈ p.mWorkDurationBatches, b.targetDuration = kNormalTargetDuration)
    (hne : acceptedDurations p.mWorkDurationBatches ≠ [])
    (hcount : (acceptedDurations p.mWorkDurationBatches).length < 2 ^ 32)
    (hsum : (acceptedDurations p.mWorkDurationBatches).sum ≤ INT64_MAX) :
    p.GetFeatures.1.averageDuration =
      Int.tdiv (acceptedDurations p.mWorkDurationBatches).sum
        ((acceptedDurations p.mWorkDurationBatches).length : Int) ∧
    (p.GetFeatures.1.maxDuration ∈ acceptedDurations p.mWorkDurationBatches ∧
      ∀ d ∈ acceptedDurations p.mWorkDurationBatches, d ≤ p.GetFeatures.1.maxDuration) ∧
    p.GetFeatures.1.numDurations = (acceptedDurations p.mWorkDurationBatches).length := by
  obtain ⟨c1, c2, c3, -⟩ := accumulateBatches_closed p.mWorkDurationBatches
  rw [normalizedDurations_normal _ htarget] at c1 c2
  have hnonneg : 0 ≤ (acceptedDurations p.mWorkDurationBatches).sum :=
    List.sum_nonneg (fun d hd => (acceptedDurations_range _ d hd).1)
  rw [wrapInt64_of_range _ (by omega) hsum] at c1
  rw [wrapUInt32_of_lt _ hcount] at c3
  simp only [WorkDurationProcessor.GetFeatures, featuresOfSums, c1, c2, c3]
  refine ⟨?_, ⟨?_, ?_⟩, trivial⟩
  · have hq := Int.tdiv_eq_ediv hnonneg
      (Int.natCast_nonneg (acceptedDurations p.mWorkDurationBatches).length)
    have hle := Int.ediv_le_self
      ((acceptedDurations p.mWorkDurationBatches).length : Int) hnonneg
    have hge := Int.ediv_nonneg hnonneg
      (Int.natCast_nonneg (acceptedDurations p.mWorkDurationBatches).length)
    rw [hq]
    exact wrapInt64_of_range _ (by omega) (by omega)
  · rcases foldl_max_mem (acceptedDurations p.mWorkDurationBatches) 0 with h | h
    · obtain ⟨d, hd⟩ := List.exists_mem_of_ne_nil _ hne
      have hd0 := (acceptedDurations_range _ d hd).1
      have hdle := (foldl_max_ge (acceptedDurations p.mWorkDurationBatches) 0).2 d hd
      rw [h] at hdle ⊢
      have : d = 0 := le_antisymm hdle hd0
      rw [← this]
      exact hd
    · exact h
  · exact (foldl_max_ge (acceptedDurations p.mWorkDurationBatches) 0).2

/-- C9 (missed-deadline definition).  The missed-deadline count returned by
`GetFeatures` is the number of accepted durations, over all queued batches,
that are strictly greater than the target of their own batch, compared as
reported (the counter is a `uint32_t`, so the number is below 2^32). -/
theorem missed_deadline_definition (p : WorkDurationProcessor)
    (hcount : missedDeadlineCount p.mWorkDurationBatches < 2 ^ 32) :
    p.GetFeatures.1.numMissedDeadlines = missedDeadlineCount p.mWorkDurationBatches := by
  obtain ⟨-, -, -, c4⟩ := accumulateBatches_closed p.mWorkDurationBatches
  simp only [WorkDurationProcessor.GetFeatures, featuresOfSums, c4]
  exact wrapUInt32_of_lt _ hcount

/-- The missed-deadline count of the sample queue. -/
theorem missed_deadline_definition_witness :
    missedDeadlineCount sampleQueue.mWorkDurationBatches < 2 ^ 32 ∧
    sampleQueue.GetFeatures.1.numMissedDeadlines = 3 :=
  ⟨by decide, missed_deadline_definition sampleQueue (by decide)⟩

/-- The features of the sample queue, whose batches have the normal target. -/
theorem normalisation_idempotence_witness :
    (∀ b ∈ sampleQueue.mWorkDurationBatches, b.targetDuration = kNormalTargetDuration) ∧
    acceptedDurations sampleQueue.mWorkDurationBatches ≠ [] ∧
    (acceptedDurations sampleQueue.mWorkDurationBatches).length < 2 ^ 32 ∧
    (acceptedDurations sampleQueue.mWorkDurationBatches).sum ≤ INT64_MAX ∧
    sampleQueue.GetFeatures.1.averageDuration = 49999998 ∧
    (sampleQueue.GetFeatures.1.maxDuration ∈ acceptedDurations sampleQueue.mWorkDurationBatches ∧
      ∀ d ∈ acceptedDurations sampleQueue.mWorkDurationBatches,
        d ≤ sampleQueue.GetFeatures.1.maxDuration) ∧
    sampleQueue.GetFeatures.1.numDurations = 4 :=
  ⟨by decide, by decide, by decide, by decide,
   normalisation_idempotence sampleQueue (by decide) (by decide) (by decide) (by decide)⟩

/-- Deleting the elements a loop body skips does not change the result of the
loop. -/
theorem foldl_filter_skipped {α β : Type} (f : β → α → β) (skip : α → Bool)
    (hskip : ∀ acc x, skip x = true → f acc x = acc) (l : List α) :
    ∀ acc : β, (l.filter (fun x => !skip x)).foldl f acc = l.foldl f acc := by
  induction l with
  | nil => intro acc; rfl
  | cons x rest ih =>
    intro acc
    by_cases hx : skip x = true
    · simp [List.filter_cons, hx, hskip acc x hx, ih]
    · simp [List.filter_cons, hx, ih]

/-- The inner loop of `GetFeatures` skips rejected durations. -/
theorem accumulateBatch_dropRejected (acc : FeatureSums) (batch : WorkDurationBatch) :
    accumulateBatch acc
        { batch with
          workDurations :=
            batch.workDurations.filter (fun w => !isRejected w.durationNanos) } =
      accumulateBatch acc batch := by
  unfold accumulateBatch
  exact foldl_filter_skipped (accumulateDuration batch.targetDuration)
    (fun w => isRejected w.durationNanos)
    (fun a w hw => by simp [accumulateDuration, hw]) batch.workDurations acc

/-- C6, amended (filter).  For every set of queued batches, the durations `d`
with `d < 0` or `d > 600 * 16666666` contribute to none of the four outputs of
`GetFeatures`: the features equal those computed after deleting all such
durations. -/
theorem filter_excludes_rejected (p : WorkDurationProcessor) :
    (WorkDurationProcessor.GetFeatures
      { mWorkDurationBatches :=
          dropDurations (fun d => decide (d < 0) || decide (d > 600 * 16666666))
            p.mWorkDurationBatches }).1 = p.GetFeatures.1 := by
  have hfilter : (fun d : Int => decide (d < 0) || decide (d > 600 * 16666666)) = isRejected := by
    funext d
    simp [isRejected, kMinDuration, kMaxDuration, kNormalTargetDuration]
  rw [hfilter]
  simp only [WorkDurationProcessor.GetFeatures, accumulateBatches]
  congr 1
  generalize FeatureSums.init = acc
  induction p.mWorkDurationBatches generalizing acc with
  | nil => rfl
  | cons b rest ih =>
    simp only [dropDurations, List.map_cons, List.foldl_cons] at ih ⊢
    rw [accumulateBatch_dropRejected, ih]

/-- C6 as stated fails: a duration of `0` is counted.  One batch holding the
single duration `0` yields count `1`, while deleting the durations `≤ 0`
leaves nothing and yields count `0`. -/
theorem filter_zero_duration_counted :
    (WorkDurationProcessor.GetFeatures
      { mWorkDurationBatches :=
          [{ workDurations := [⟨0, 0⟩], targetDuration := 16666666 }] }).1.numDurations = 1 ∧
    (WorkDurationProcessor.GetFeatures
      { mWorkDurationBatches :=
          dropDurations specRejected
            [{ workDurations := [⟨0, 0⟩], targetDuration := 16666666 }] }).1.numDurations = 0 ∧
    (WorkDurationProcessor.GetFeatures
      { mWorkDurationBatches :=
          dropDurations specRejected
            [{ workDurations := [⟨0, 0⟩], targetDuration := 16666666 }] }).1 ≠
    (WorkDurationProcessor.GetFeatures
      { mWorkDurationBatches :=
          [{ workDurations := [⟨0, 0⟩], targetDuration := 16666666 }] }).1 := by
  decide

/-- An accepted duration divided by `k ≥ 1` is accepted. -/
theorem isRejected_scaled (k d : Int) (hk : 1 ≤ k) (h : isRejected d = false) :
    isRejected (Int.tdiv d k) = false := by
  obtain ⟨h0, h1⟩ := (isRejected_eq_false d).1 h
  rw [isRejected_eq_false, Int.tdiv_eq_ediv h0 (by omega)]
  exact ⟨Int.ediv_nonneg h0 (by omega), le_trans (Int.ediv_le_self k h0) h1⟩

/-- Against the target `k * kNormalTargetDuration`, an accepted duration `d`
is normalised to `d / k`. -/
theorem normalizeDuration_multiple (k d : Int) (hk : 1 ≤ k) (h : isRejected d = false) :
    normalizeDuration d (k * kNormalTargetDuration) = Int.tdiv d k := by
  obtain ⟨h0, h1⟩ := (isRejected_eq_false d).1 h
  have hq0 : 0 ≤ d / k := Int.ediv_nonneg h0 (by omega)
  have hq1 : d / k ≤ d := Int.ediv_le_self k h0
  unfold normalizeDuration kNormalTargetDuration
  rw [wrapInt64_of_range (d * 16666666) (by omega) (by unfold INT64_MAX; omega),
    Int.tdiv_eq_ediv (by omega) (by omega),
    Int.mul_ediv_mul_of_pos_left d k (by decide : (0 : Int) < 16666666),
    Int.tdiv_eq_ediv h0 (by omega),
    wrapInt64_of_range (d / k) (by omega) (by unfold INT64_MAX; omega)]

/-- The normalised durations of a single batch. -/
theorem normalizedDurations_single (workDurations : List WorkDuration) (target : Int)
    (hacc : ∀ w ∈ workDurations, isRejected w.durationNanos = false) :
    normalizedDurations [{ workDurations := workDurations, targetDuration := target }] =
      workDurations.map (fun w => normalizeDuration w.durationNanos target) := by
  have hf : workDurations.filter (fun w => !isRejected w.durationNanos) = workDurations :=
    List.filter_eq_self.2 (fun w hw => by simp [hacc w hw])
  simp [normalizedDurations, WorkDurationBatch.accepted, hf]

/-- The accepted durations of a single batch none of whose durations is
rejected. -/
theorem acceptedDurations_single (workDurations : List WorkDuration) (target : Int)
    (hacc : ∀ w ∈ workDurations, isRejected w.durationNanos = false) :
    acceptedDurations [{ workDurations := workDurations, targetDuration := target }] =
      workDurations.map (fun w => w.durationNanos) := by
  have hf : workDurations.filter (fun w => !isRejected w.durationNanos) = workDurations :=
    List.filter_eq_self.2 (fun w hw => by simp [hacc w hw])
  simp [acceptedDurations, WorkDurationBatch.accepted, hf]

/-- The missed-deadline count of a single batch none of whose durations is
rejected. -/
theorem missedDeadlineCount_single (workDurations : List WorkDuration) (target : Int)
    (hacc : ∀ w ∈ workDurations, isRejected w.durationNanos = false) :
    missedDeadlineCount [{ workDurations := workDurations, targetDuration := target }] =
      (workDurations.filter (fun w => decide (w.durationNanos > target))).length := by
  have hf : workDurations.filter (fun w => !isRejected w.durationNanos) = workDurations :=
    List.filter_eq_self.2 (fun w hw => by simp [hacc w hw])
  simp only [missedDeadlineCount, WorkDurationBatch.accepted, hf, List.map_cons, List.map_nil,
    List.sum_cons, List.sum_nil, add_zero]

/-- C8, amended (scaling law).  For every integer `k ≥ 1` and every batch
reported against the target `k * 16666666` whose durations all pass the filter
(`0 ≤ d_i ≤ 600 * 16666666`, the filter being applied to the durations as
reported), `GetFeatures` returns the same average, maximum and count as for
the batch of the truncated quotients `d_i / k` reported against 16666666; the
missed-deadline counts agree as well when `k` divides every `d_i`. -/
theorem scaling_law (k : Int) (hk : 1 ≤ k) (workDurations : List WorkDuration)
    (hacc : ∀ w ∈ workDurations, 0 ≤ w.durationNanos ∧ w.durationNanos ≤ 600 * 16666666) :
    (WorkDurationProcessor.GetFeatures
        { mWorkDurationBatches :=
            [{ workDurations := workDurations,
               targetDuration := k * kNormalTargetDuration }] }).1.averageDuration =
      (WorkDurationProcessor.GetFeatures
        { mWorkDurationBatches :=
            [{ workDurations := scaleDurations k workDurations,
               targetDuration := kNormalTargetDuration }] }).1.averageDuration ∧
    (WorkDurationProcessor.GetFeatures
        { mWorkDurationBatches :=
            [{ workDurations := workDurations,
               targetDuration := k * kNormalTargetDuration }] }).1.maxDuration =
      (WorkDurationProcessor.GetFeatures
        { mWorkDurationBatches :=
            [{ workDurations := scaleDurations k workDurations,
               targetDuration := kNormalTargetDuration }] }).1.maxDuration ∧
    (WorkDurationProcessor.GetFeatures
        { mWorkDurationBatches :=
            [{ workDurations := workDurations,
               targetDuration := k * kNormalTargetDuration }] }).1.numDurations =
      (WorkDurationProcessor.GetFeatures
        { mWorkDurationBatches :=
            [{ workDurations := scaleDurations k workDurations,
               targetDuration := kNormalTargetDuration }] }).1.numDurations ∧
    ((∀ w ∈ workDurations, k ∣ w.durationNanos) →
      (WorkDurationProcessor.GetFeatures
          { mWorkDurationBatches :=
              [{ workDurations := workDurations,
                 targetDuration := k * kNormalTargetDuration }] }).1 =
        (WorkDurationProcessor.GetFeatures
          { mWorkDurationBatches :=
              [{ workDurations := scaleDurations k workDurations,
                 targetDuration := kNormalTargetDuration }] }).1) := by
  have hacc1 : ∀ w ∈ workDurations, isRejected w.durationNanos = false :=
    fun w hw => (isRejected_eq_false _).2 (hacc w hw)
  have hacc2 : ∀ w ∈ scaleDurations k workDurations, isRejected w.durationNanos = false := by
    intro w hw
    simp only [scaleDurations, List.mem_map] at hw
    obtain ⟨v, hv, rfl⟩ := hw
    exact isRejected_scaled k _ hk (hacc1 v hv)
  obtain ⟨a1, a2, a3, a4⟩ := accumulateBatches_closed
    [{ workDurations := workDurations, targetDuration := k * kNormalTargetDuration }]
  obtain ⟨b1, b2, b3, b4⟩ := accumulateBatches_closed
    [{ workDurations := scaleDurations k workDurations, targetDuration := kNormalTargetDuration }]
  have hnorm :
      normalizedDurations
          [{ workDurations := workDurations, targetDuration := k * kNormalTargetDuration }] =
        normalizedDurations
          [{ workDurations := scaleDurations k workDurations,
             targetDuration := kNormalTargetDuration }] := by
    rw [normalizedDurations_single _ _ hacc1, normalizedDurations_single _ _ hacc2]
    simp only [scaleDurations, List.map_map]
    apply List.map_congr_left
    intro w hw
    simp only [Function.comp]
    rw [normalizeDuration_multiple k _ hk (hacc1 w hw),
      normalizeDuration_normal _ (isRejected_scaled k _ hk (hacc1 w hw))]
  have hlen :
      (acceptedDurations
          [{ workDurations := workDurations,
             targetDuration := k * kNormalTargetDuration }]).length =
        (acceptedDurations
          [{ workDurations := scaleDurations k workDurations,
             targetDuration := kNormalTargetDuration }]).length := by
    rw [acceptedDurations_single _ _ hacc1, acceptedDurations_single _ _ hacc2]
    simp [scaleDurations]
  have hsum := a1.trans (by rw [hnorm, ← b1])
  have hmax := a2.trans (by rw [hnorm, ← b2])
  have hnum := a3.trans (by rw [hlen, ← b3])
  refine ⟨?_, ?_, ?_, ?_⟩
  · simp only [WorkDurationProcessor.GetFeatures, featuresOfSums, hsum, hnum]
  · simp only [WorkDurationProcessor.GetFeatures, featuresOfSums, hmax]
  · simp only [WorkDurationProcessor.GetFeatures, featuresOfSums, hnum]
  · intro hdvd
    have hmiss :
        missedDeadlineCount
            [{ workDurations := workDurations,
               targetDuration := k * kNormalTargetDuration }] =
          missedDeadlineCount
            [{ workDurations := scaleDurations k workDurations,
               targetDuration := kNormalTargetDuration }] := by
      rw [missedDeadlineCount_single _ _ hacc1, missedDeadlineCount_single _ _ hacc2]
      simp only [scaleDurations, List.filter_map, List.length_map]
      congr 1
      apply List.filter_congr
      intro w hw
      simp only [Function.comp, gt_iff_lt, decide_eq_decide]
      rw [Int.tdiv_eq_ediv (hacc w hw).1 (by omega),
        Int.lt_ediv_iff_mul_lt (by omega) (hdvd w hw), mul_comm]
    have hmissed := a4.trans (by rw [hmiss, ← b4])
    simp only [WorkDurationProcessor.GetFeatures, featuresOfSums, hsum, hmax, hnum, hmissed]

/-- C8 as stated fails.  With `k = 2`, the duration `601 * 16666666` reported
against the target `2 * 16666666` is rejected as too long, so the features are
the zero record; its half `5008333133` reported against `16666666` is accepted
and gives count `1`.  Besides, the duration `2 * 16666666 + 1` misses the
target `2 * 16666666`, while its truncated half `16666666` does not miss the
target `16666666`. -/
theorem scaling_law_fails_on_rejected :
    (WorkDurationProcessor.GetFeatures
      { mWorkDurationBatches :=
          [{ workDurations := [⟨0, 601 * 16666666⟩],
             targetDuration := 2 * kNormalTargetDuration }] }).1 = ⟨0, 0, 0, 0⟩ ∧
    (WorkDurationProcessor.GetFeatures
      { mWorkDurationBatches :=
          [{ workDurations := scaleDurations 2 [⟨0, 601 * 16666666⟩],
             targetDuration := kNormalTargetDuration }] }).1 =
      ⟨5008333133, 5008333133, 1, 1⟩ ∧
    (WorkDurationProcessor.GetFeatures
      { mWorkDurationBatches :=
          [{ workDurations := [⟨0, 2 * 16666666 + 1⟩],
             targetDuration := 2 * kNormalTargetDuration }] }).1 = ⟨16666666, 16666666, 1, 1⟩ ∧
    (WorkDurationProcessor.GetFeatures
      { mWorkDurationBatches :=
          [{ workDurations := scaleDurations 2 [⟨0, 2 * 16666666 + 1⟩],
             targetDuration := kNormalTargetDuration }] }).1 = ⟨16666666, 16666666, 0, 1⟩ := by
  decide

/-- The scaling law at the batch of the repository test
`GetFeatures_scalesDifferentTargetDurations`. -/
theorem scaling_law_witness :
    (1 : Int) ≤ 2 ∧
    (∀ w ∈ [(⟨0, 2 * 16666666⟩ : WorkDuration), ⟨0, 6 * 16666666⟩],
      0 ≤ w.durationNanos ∧ w.durationNanos ≤ 600 * 16666666) ∧
    (WorkDurationProcessor.GetFeatures
        { mWorkDurationBatches :=
            [{ workDurations := [⟨0, 2 * 16666666⟩, ⟨0, 6 * 16666666⟩],
               targetDuration := 2 * kNormalTargetDuration }] }).1.averageDuration =
      (WorkDurationProcessor.GetFeatures
        { mWorkDurationBatches :=
            [{ workDurations := scaleDurations 2 [⟨0, 2 * 16666666⟩, ⟨0, 6 * 16666666⟩],
               targetDuration := kNormalTargetDuration }] }).1.averageDuration :=
  ⟨by decide, by decide,
   (scaling_law 2 (by decide) [⟨0, 2 * 16666666⟩, ⟨0, 6 * 16666666⟩] (by decide)).1⟩

/-! ## Properties of the ingress queue -/

/-- C5.  `AdaptiveCpu::ReportWorkDurations`: when the enable flag is false the
call changes nothing; when the controller is enabled and the processor accepts
the batch, the queue grows by that batch and the flag stays true; when it is
enabled and the processor rejects the push (the queue holds 1000 batches or
more), the enable flag becomes false. -/
theorem controller_report_work_durations (s : AdaptiveCpu)
    (workDurations : List WorkDuration) (targetDuration : Int) :
    (s.mIsEnabled = false → s.ReportWorkDurations workDurations targetDuration = s) ∧
    (s.mIsEnabled = true → s.mWorkDurationProcessor.mWorkDurationBatches.length < 1000 →
      (s.mWorkDurationProcessor.ReportWorkDurations workDurations targetDuration).1 = true ∧
      (s.ReportWorkDurations workDurations targetDuration).mWorkDurationProcessor.mWorkDurationBatches =
          s.mWorkDurationProcessor.mWorkDurationBatches ++
            [{ workDurations := workDurations, targetDuration := targetDuration }] ∧
        (s.ReportWorkDurations workDurations targetDuration).mIsEnabled = true) ∧
    (s.mIsEnabled = true → s.mWorkDurationProcessor.mWorkDurationBatches.length ≥ 1000 →
      (s.mWorkDurationProcessor.ReportWorkDurations workDurations targetDuration).1 = false ∧
        (s.ReportWorkDurations workDurations targetDuration).mIsEnabled = false) := by
  refine ⟨?_, ?_, ?_⟩
  · intro h
    simp [AdaptiveCpu.ReportWorkDurations, h]
  · intro h hroom
    have hroom' : ¬ s.mWorkDurationProcessor.mWorkDurationBatches.length ≥ kMaxUnprocessedBatches :=
      not_le.2 hroom
    simp [AdaptiveCpu.ReportWorkDurations, WorkDurationProcessor.ReportWorkDurations, h, hroom']
  · intro h hfull
    have hfull' : s.mWorkDurationProcessor.mWorkDurationBatches.length ≥ kMaxUnprocessedBatches :=
      hfull
    simp [AdaptiveCpu.ReportWorkDurations, WorkDurationProcessor.ReportWorkDurations, h, hfull']

/-- While the cap is not reached, every report succeeds and is appended. -/
theorem reportAll_below_cap (reports : List (List WorkDuration × Int)) :
    ∀ p : WorkDurationProcessor,
      p.mWorkDurationBatches.length + reports.length ≤ 1000 →
      (reportAll p reports).1 = List.replicate reports.length true ∧
      (reportAll p reports).2.mWorkDurationBatches =
        p.mWorkDurationBatches ++
          reports.map (fun report =>
            { workDurations := report.1, targetDuration := report.2 }) := by
  induction reports with
  | nil => intro p _; simp [reportAll]
  | cons report rest ih =>
    intro p hlen
    simp only [List.length_cons] at hlen
    have hroom : ¬ p.mWorkDurationBatches.length ≥ kMaxUnprocessedBatches := by
      unfold kMaxUnprocessedBatches; omega
    have hfirst : p.ReportWorkDurations report.1 report.2 =
        (true, { mWorkDurationBatches :=
          p.mWorkDurationBatches ++
            [{ workDurations := report.1, targetDuration := report.2 }] }) := by
      simp [WorkDurationProcessor.ReportWorkDurations, hroom]
    obtain ⟨h1, h2⟩ := ih
      { mWorkDurationBatches :=
          p.mWorkDurationBatches ++ [{ workDurations := report.1, targetDuration := report.2 }] }
      (by simp only [List.length_append, List.length_singleton]; omega)
    simp only [reportAll, hfirst, h1, h2]
    simp [List.replicate_succ]

/-- The queue cap.  Starting from an empty processor, 1000 consecutive
`ReportWorkDurations` calls all return true; the next call returns false and
leaves the queue empty, so that `HasWorkDurations` is false. -/
theorem queue_cap (reports : List (List WorkDuration × Int)) (hlen : reports.length = 1000)
    (workDurations : List WorkDuration) (targetDuration : Int) :
    (reportAll { mWorkDurationBatches := [] } reports).1 = List.replicate 1000 true ∧
    ((reportAll { mWorkDurationBatches := [] } reports).2.ReportWorkDurations
        workDurations targetDuration) = (false, { mWorkDurationBatches := [] }) ∧
    ((reportAll { mWorkDurationBatches := [] } reports).2.ReportWorkDurations
        workDurations targetDuration).2.HasWorkDurations = false := by
  obtain ⟨h1, h2⟩ := reportAll_below_cap reports { mWorkDurationBatches := [] }
    (by simp [hlen])
  have hfull : (reportAll { mWorkDurationBatches := [] } reports).2.mWorkDurationBatches.length ≥
      kMaxUnprocessedBatches := by
    rw [h2]; simp [hlen, kMaxUnprocessedBatches]
  have hcall : (reportAll { mWorkDurationBatches := [] } reports).2.ReportWorkDurations
      workDurations targetDuration = (false, { mWorkDurationBatches := [] }) := by
    simp [WorkDurationProcessor.ReportWorkDurations, hfull]
  rw [hlen] at h1
  refine ⟨h1, hcall, ?_⟩
  rw [hcall]
  rfl

/-- C10 fails.  In the repository test
`GetFeatures_tooManyUnprocessedThenClears`, and after any 1000 reports on an
empty processor, the 1000 calls return true and the next call returns false
and leaves the queue empty, so that `HasWorkDurations` is false, as claimed;
but in the `GetFeatures` that follows no duration is accepted, the divisor
`numDurations` of `durationsSum / numDurations` is 0, and the call divides by
zero where the claim has it report the count 0. -/
theorem queue_cap_then_divides_by_zero :
    (reportAll { mWorkDurationBatches := [] }
        (List.replicate 1000 ([⟨0, 16666666⟩], 16666666))).1 = List.replicate 1000 true ∧
    ((reportAll { mWorkDurationBatches := [] }
        (List.replicate 1000 ([⟨0, 16666666⟩], 16666666))).2.ReportWorkDurations
          [⟨0, 16666666⟩] 16666666) = (false, { mWorkDurationBatches := [] }) ∧
    (∀ (reports : List (List WorkDuration × Int)) (workDurations : List WorkDuration)
        (targetDuration : Int), reports.length = 1000 →
      (reportAll { mWorkDurationBatches := [] } reports).1 = List.replicate 1000 true ∧
      ((reportAll { mWorkDurationBatches := [] } reports).2.ReportWorkDurations
          workDurations targetDuration).1 = false ∧
      ((reportAll { mWorkDurationBatches := [] } reports).2.ReportWorkDurations
          workDurations targetDuration).2.mWorkDurationBatches = [] ∧
      ((reportAll { mWorkDurationBatches := [] } reports).2.ReportWorkDurations
          workDurations targetDuration).2.HasWorkDurations = false ∧
      ((reportAll { mWorkDurationBatches := [] } reports).2.ReportWorkDurations
          workDurations targetDuration).2.averageDivisor = 0) ∧
    acceptedDurations ([] : List WorkDurationBatch) = [] ∧
    WorkDurationProcessor.averageDivisor { mWorkDurationBatches := [] } = 0 := by
  have hsample := queue_cap (List.replicate 1000 ([⟨0, 16666666⟩], 16666666))
    (List.length_replicate _ _) [⟨0, 16666666⟩] 16666666
  refine ⟨hsample.1, hsample.2.1, ?_, rfl, rfl⟩
  intro reports workDurations targetDuration hlen
  obtain ⟨h1, h2, h3⟩ := queue_cap reports hlen workDurations targetDuration
  refine ⟨h1, ?_, ?_, h3, ?_⟩
  · rw [h2]
  · rw [h2]
  · rw [h2]
    rfl

/-! ## Properties of the enable lifecycle -/

/-- A loop pass does not change the time of the last enable hint. -/
theorem iteration_keeps_enabledHintTime (s : AdaptiveCpu) (env : LoopEnv) :
    (s.RunMainLoopIteration env).state.mLastEnabledHintTime = s.mLastEnabledHintTime := by
  unfold AdaptiveCpu.RunMainLoopIteration
  split
  · rename_i s1 outcome hc
    rcases computeDecision_error s env (s1, outcome) hc with ⟨-, h1⟩ | ⟨-, -, h1⟩
    · injection h1 with h1 h2; subst h1; rfl
    · exact h1
  · rename_i s1 features decision hc
    obtain ⟨-, -, h3⟩ := computeDecision_ok_keeps s s1 env features decision hc
    rw [← h3]
    simp only [AdaptiveCpu.sendHints]
    split_ifs <;> rfl

/-- Only an enable hint changes the time of the last enable hint. -/
theorem handle_keeps_enabledHintTime (s : AdaptiveCpu) (event : ControllerEvent)
    (hno : ∀ t, event ≠ .hintReceived true t) :
    (s.handle event).1.mLastEnabledHintTime = s.mLastEnabledHintTime := by
  cases event with
  | hintReceived enable now =>
    cases enable with
    | true => exact absurd rfl (hno now)
    | false => rfl
  | reportWorkDurations workDurations targetDuration =>
    simp only [AdaptiveCpu.handle, AdaptiveCpu.ReportWorkDurations]
    split_ifs <;> rfl
  | loopPass env =>
    simp only [AdaptiveCpu.handle]
    split_ifs
    · exact iteration_keeps_enabledHintTime s env
    · rfl

/-- Without an enable hint among the events, the time of the last enable hint
stays what it was. -/
theorem run_keeps_enabledHintTime (events : List ControllerEvent) :
    ∀ s : AdaptiveCpu, (∀ e ∈ events, ∀ t, e ≠ .hintReceived true t) →
      (s.run events).1.mLastEnabledHintTime = s.mLastEnabledHintTime := by
  induction events with
  | nil => intro s _; rfl
  | cons event rest ih =>
    intro s hno
    simp only [AdaptiveCpu.run]
    rw [ih _ (fun e he => hno e (List.mem_cons_of_mem _ he))]
    exact handle_keeps_enabledHintTime s event (hno event (List.mem_cons_self _ _))

/-- C4 (enable-timeout law).  Let the controller be enabled by `StartThread`
at time `T0` and let any events other than an enable hint follow.  A loop pass
whose clock reading at the head of the loop body is strictly after
`T0 + enabledHintTimeout` clears the enable flag and does nothing else: every
other part of the controller (configuration, statistics, queue, history) is
unchanged and no hint-manager call is made.  A pass whose reading is at or
before that instant does not end at the enabled-hint timeout. -/
theorem enable_timeout_law (s0 : AdaptiveCpu) (T0 : Int) (events : List ControllerEvent)
    (env : LoopEnv) (hno : ∀ e ∈ events, ∀ t, e ≠ .hintReceived true t) :
    (T0 + msToNs ((s0.StartThread T0).run events).1.mConfig.enabledHintTimeout <
        env.timeAtLoopEntry →
      ((s0.StartThread T0).run events).1.RunMainLoopIteration env =
        { state := { ((s0.StartThread T0).run events).1 with mIsEnabled := false }
          hintCalls := []
          outcome := .enabledHintTimedOut }) ∧
    (env.timeAtLoopEntry ≤
        T0 + msToNs ((s0.StartThread T0).run events).1.mConfig.enabledHintTimeout →
      (((s0.StartThread T0).run events).1.RunMainLoopIteration env).outcome ≠
        .enabledHintTimedOut) := by
  have hT : ((s0.StartThread T0).run events).1.mLastEnabledHintTime = T0 := by
    rw [run_keeps_enabledHintTime events _ hno]
    simp only [AdaptiveCpu.StartThread]
    split_ifs <;> rfl
  generalize ((s0.StartThread T0).run events).1 = s at hT ⊢
  subst hT
  constructor
  · intro hlate
    have hcheck : s.checkEnabledHint env =
        .error ({ s with mIsEnabled := false }, .enabledHintTimedOut) := by
      simp [AdaptiveCpu.checkEnabledHint, hlate]
    simp [AdaptiveCpu.RunMainLoopIteration, AdaptiveCpu.computeDecision, hcheck]
  · intro hearly
    have hcheck : s.checkEnabledHint env = .ok s := by
      simp [AdaptiveCpu.checkEnabledHint, not_lt.2 hearly]
    unfold AdaptiveCpu.RunMainLoopIteration
    split
    · rename_i s1 outcome hc
      rcases computeDecision_error s env (s1, outcome) hc with ⟨h1, -⟩ | ⟨-, h1, -⟩
      · rw [hcheck] at h1; cases h1
      · rcases h1 with h1 | h1 | h1 | h1 <;> (simp only at h1; rw [h1]; simp)
    · simp

/-- The enable-timeout law at a controller enabled at time 0 with the default
timeout of 120 minutes, one report later, at a pass one nanosecond late. -/
theorem enable_timeout_law_witness :
    (∀ e ∈ [ControllerEvent.reportWorkDurations [⟨0, 5⟩] 16666666],
      ∀ t, e ≠ .hintReceived true t) ∧
    ((((sampleController .NO_THROTTLE 0).StartThread 0).run
        [.reportWorkDurations [⟨0, 5⟩] 16666666]).1.RunMainLoopIteration
          (sampleEnv 7200000000001 .NO_THROTTLE)).outcome = .enabledHintTimedOut :=
  ⟨by simp,
   congrArg LoopResult.outcome
     ((enable_timeout_law (sampleController .NO_THROTTLE 0) 0
        [.reportWorkDurations [⟨0, 5⟩] 16666666] (sampleEnv 7200000000001 .NO_THROTTLE)
        (by simp)).1 (by decide))⟩

/-- The three cases of the controller's `ReportWorkDurations` at a disabled
controller, an enabled one with room, and an enabled one with a full queue. -/
theorem controller_report_work_durations_witness :
    (sampleController .NO_THROTTLE 0).mIsEnabled = true ∧
    (sampleController .NO_THROTTLE 0).mWorkDurationProcessor.mWorkDurationBatches.length < 1000 ∧
    ((sampleController .NO_THROTTLE 0).ReportWorkDurations [⟨0, 5⟩] 16666666).mIsEnabled = true :=
  ⟨rfl, by decide,
   ((controller_report_work_durations (sampleController .NO_THROTTLE 0) [⟨0, 5⟩]
      16666666).2.1 rfl (by decide)).2.2⟩

/-! ## Properties of a stable decision -/

/-- A pass that reaches the model has not touched `mLoopThreadJoinable`. -/
theorem computeDecision_ok_thread (s s1 : AdaptiveCpu) (env : LoopEnv)
    (features : WorkDurationFeatures) (decision : ThrottleDecision)
    (h : s.computeDecision env = .ok (s1, features, decision)) :
    s1.mLoopThreadJoinable = s.mLoopThreadJoinable := by
  unfold AdaptiveCpu.computeDecision at h
  split at h
  · cases h
  · rename_i a ha
    split at h
    · cases h
    · rename_i b hb
      split at h
      · cases h
      · rename_i c hc
        split at h
        · cases h
        · rename_i d m hd
          have e1 := checkEnabledHint_ok _ _ _ ha
          subst e1
          have e2 : b.mLoopThreadJoinable = a.mLoopThreadJoinable := by
            unfold AdaptiveCpu.reloadConfig at hb
            dsimp only at hb
            split_ifs at hb <;> (injection hb with hb; subst hb; rfl)
          have e3 : c.mLoopThreadJoinable = b.mLoopThreadJoinable := by
            unfold AdaptiveCpu.startRun at hc
            dsimp only at hc
            split_ifs at hc <;> (injection hc with hc; subst hc; rfl)
          have e4 : d.mLoopThreadJoinable = c.mLoopThreadJoinable := by
            unfold AdaptiveCpu.readModelInput at hd
            dsimp only at hd
            split_ifs at hd
            split at hd
            · cases hd
            · injection hd with hd
              injection hd with h1 h2
              subst h1
              rfl
          injection h with h
          injection h with h1 h2
          subst h1
          simp only [AdaptiveCpu.runModel]
          rw [e4, e3, e2]

/-- A completed pass whose decision is the previous decision: the hint calls
are the `DoHint` group of that decision when more than half the hint timeout
has passed since the last emission and none otherwise; the previous decision
stays, and the time of the last emission becomes `now` in the first case. -/
theorem iteration_stable (s : AdaptiveCpu) (env : LoopEnv)
    (hrun : (s.RunMainLoopIteration env).outcome = .completed s.previousThrottleDecision) :
    (s.RunMainLoopIteration env).hintCalls =
      (if env.now - s.mLastThrottleHintTime >
          msToNs ((s.RunMainLoopIteration env).state.mConfig.hintTimeout / 2) then
        (hintNames s.previousThrottleDecision).map
          (fun hintName =>
            HintCall.DoHint hintName (s.RunMainLoopIteration env).state.mConfig.hintTimeout)
       else []) ∧
    (s.RunMainLoopIteration env).state.previousThrottleDecision = s.previousThrottleDecision ∧
    (s.RunMainLoopIteration env).state.mLastThrottleHintTime =
      (if env.now - s.mLastThrottleHintTime >
          msToNs ((s.RunMainLoopIteration env).state.mConfig.hintTimeout / 2) then env.now
       else s.mLastThrottleHintTime) ∧
    (s.RunMainLoopIteration env).state.mLoopThreadJoinable = s.mLoopThreadJoinable := by
  obtain ⟨s1, features, hc⟩ := iteration_completed s env _ hrun
  obtain ⟨hcalls, hprev, hlast, hcfg⟩ := iteration_of_ok s s1 env features _ hc
  obtain ⟨kprev, klast, -⟩ := computeDecision_ok_keeps s s1 env features _ hc
  have kthread := computeDecision_ok_thread s s1 env features _ hc
  have hthread : (s.RunMainLoopIteration env).state.mLoopThreadJoinable =
      s1.mLoopThreadJoinable := by
    unfold AdaptiveCpu.RunMainLoopIteration
    rw [hc]
    simp only [AdaptiveCpu.sendHints]
    split_ifs <;> rfl
  rw [hcalls, hprev, hlast, hcfg, hthread, kthread, ← kprev, ← klast]
  obtain ⟨c1, c2, c3⟩ := sendHints_same s1 env.now
  exact ⟨c1, c2, c3, rfl⟩

/-- An event either is a loop pass that takes place, or leaves the previous
decision and the time of the last hint emission as they are. -/
theorem handle_cases (s : AdaptiveCpu) (event : ControllerEvent)
    (hthread : s.mLoopThreadJoinable = true) :
    ((s.handle event).2 = none ∧
      (s.handle event).1.previousThrottleDecision = s.previousThrottleDecision ∧
      (s.handle event).1.mLastThrottleHintTime = s.mLastThrottleHintTime ∧
      (s.handle event).1.mLoopThreadJoinable = true) ∨
    (∃ env, s.handle event =
      ((s.RunMainLoopIteration env).state, some (env.now, s.RunMainLoopIteration env))) := by
  cases event with
  | hintReceived enable now =>
    left
    cases enable with
    | true => simp [AdaptiveCpu.handle, AdaptiveCpu.HintReceived, AdaptiveCpu.StartThread, hthread]
    | false => simp [AdaptiveCpu.handle, AdaptiveCpu.HintReceived, AdaptiveCpu.SuspendThread, hthread]
  | reportWorkDurations workDurations targetDuration =>
    left
    simp only [AdaptiveCpu.handle, AdaptiveCpu.ReportWorkDurations]
    split_ifs <;> simp [hthread]
  | loopPass env =>
    by_cases hwait : s.WaitForEnabledAndWorkDurations = true
    · right
      exact ⟨env, by simp [AdaptiveCpu.handle, hwait]⟩
    · left
      simp [AdaptiveCpu.handle, hwait, hthread]

/-- The invariant of a run in which every pass completes with the previous
decision `D`. -/
theorem run_stable (events : List ControllerEvent) :
    ∀ (s : AdaptiveCpu) (D : ThrottleDecision),
      s.mLoopThreadJoinable = true → s.previousThrottleDecision = D →
      (∀ p ∈ (s.run events).2, p.2.outcome = .completed D) →
      ∀ p ∈ (s.run events).2,
        (∀ c ∈ p.2.hintCalls, c.isEndHint = false) ∧
        p.1 - p.2.state.mLastThrottleHintTime ≤ msToNs (p.2.state.mConfig.hintTimeout / 2) ∧
        (p.2.hintCalls = [] ∨
          (p.2.hintCalls =
              (hintNames D).map
                (fun hintName => HintCall.DoHint hintName p.2.state.mConfig.hintTimeout) ∧
            p.2.state.mLastThrottleHintTime = p.1)) ∧
        (((s.run events).2.map Prod.fst).Pairwise (fun a b => a ≤ b) →
          (p.2.state.mLastThrottleHintTime = s.mLastThrottleHintTime ∨
            ∃ r ∈ (s.run events).2,
              r.1 = p.2.state.mLastThrottleHintTime ∧ r.1 ≤ p.1 ∧
              r.2.hintCalls =
                (hintNames D).map
                  (fun hintName => HintCall.DoHint hintName r.2.state.mConfig.hintTimeout))) := by
  induction events with
  | nil => intro s D _ _ _ p hp; simp [AdaptiveCpu.run] at hp
  | cons event rest ih =>
    intro s D hthread hprev hstable p hp
    simp only [AdaptiveCpu.run] at hstable hp ⊢
    rcases handle_cases s event hthread with ⟨hnone, k1, k2, k3⟩ | ⟨env, hsome⟩
    · rw [hnone] at hstable hp ⊢
      simp only [Option.toList, List.nil_append] at hstable hp ⊢
      have h := ih (s.handle event).1 D k3 (k1.trans hprev) hstable p hp
      rw [k2] at h
      exact h
    · rw [hsome] at hstable hp ⊢
      simp only [Option.toList, List.singleton_append, List.mem_cons, List.map_cons,
        List.pairwise_cons] at hstable hp ⊢
      have hrun : (s.RunMainLoopIteration env).outcome =
          .completed s.previousThrottleDecision := by
        rw [hprev]; exact hstable _ (Or.inl rfl)
      obtain ⟨i1, i2, i3, i4⟩ := iteration_stable s env hrun
      have hnonneg : 0 ≤ msToNs ((s.RunMainLoopIteration env).state.mConfig.hintTimeout / 2) := by
        unfold msToNs; positivity
      rcases hp with rfl | hp
      · -- the pass at the head of the run
        by_cases hto : env.now - s.mLastThrottleHintTime >
            msToNs ((s.RunMainLoopIteration env).state.mConfig.hintTimeout / 2)
        · rw [if_pos hto] at i1 i3
          rw [hprev] at i1
          refine ⟨?_, ?_, Or.inr ⟨i1, i3⟩, ?_⟩
          · intro c hc
            rw [i1] at hc
            obtain ⟨n, -, rfl⟩ := List.mem_map.1 hc
            rfl
          · simp only [i3]; omega
          · intro _
            exact Or.inr ⟨_, Or.inl rfl, i3.symm, le_refl _, i1⟩
        · rw [if_neg hto] at i1 i3
          refine ⟨?_, ?_, Or.inl i1, ?_⟩
          · intro c hc; rw [i1] at hc; cases hc
          · simp only [i3]; omega
          · intro _; exact Or.inl i3
      · -- a later pass
        obtain ⟨j1, j2, j3, j4⟩ :=
          ih (s.RunMainLoopIteration env).state D (i4.trans hthread) (i2.trans hprev)
            (fun q hq => hstable q (Or.inr hq)) p hp
        refine ⟨j1, j2, j3, ?_⟩
        intro hsorted
        rcases j4 hsorted.2 with j | ⟨r, hr, hr1, hr2, hr3⟩
        · by_cases hto : env.now - s.mLastThrottleHintTime >
              msToNs ((s.RunMainLoopIteration env).state.mConfig.hintTimeout / 2)
          · rw [if_pos hto] at i1 i3
            rw [hprev] at i1
            refine Or.inr ⟨_, Or.inl rfl, ?_, ?_, i1⟩
            · simp only [j, i3]
            · exact hsorted.1 p.1 (List.mem_map.2 ⟨p, hp, rfl⟩)
          · rw [if_neg hto] at i3
            exact Or.inl (j.trans i3)
        · exact Or.inr ⟨r, Or.inr hr, hr1, hr2, hr3⟩

/-- In a list of clock readings in time order whose neighbours are at most `g`
apart, a reading at or after `c` is reached within `g` of `c`, once the first
reading is at or before `c`. -/
theorem exists_reading_from_head (g c : Int) (hg : 0 ≤ g) (rest : List Int) :
    ∀ t : Int, (t :: rest).Chain' (fun a b => a ≤ b ∧ b - a ≤ g) → t ≤ c →
      (∃ b ∈ t :: rest, c ≤ b) → ∃ x ∈ t :: rest, c ≤ x ∧ x ≤ c + g := by
  induction rest with
  | nil =>
    intro t _ htc hb
    obtain ⟨b, hb, hcb⟩ := hb
    simp only [List.mem_singleton] at hb
    subst hb
    exact ⟨b, List.mem_singleton.2 rfl, hcb, by omega⟩
  | cons t1 rest1 ih =>
    intro t hchain htc hb
    rw [List.chain'_cons] at hchain
    obtain ⟨⟨h1, h2⟩, hrest⟩ := hchain
    by_cases ht1 : t1 ≤ c
    · obtain ⟨b, hb, hcb⟩ := hb
      rcases List.mem_cons.1 hb with rfl | hb
      · exact ⟨b, List.mem_cons_self _ _, hcb, by omega⟩
      · obtain ⟨x, hx, hx1, hx2⟩ := ih t1 hrest ht1 ⟨b, hb, hcb⟩
        exact ⟨x, List.mem_cons_of_mem _ hx, hx1, hx2⟩
    · exact ⟨t1, List.mem_cons_of_mem _ (List.mem_cons_self _ _), by omega, by omega⟩

/-- Clock readings whose neighbours are in time order are in time order
throughout. -/
theorem pairwise_of_chain (g : Int) (ts : List Int)
    (hchain : ts.Chain' (fun a b => a ≤ b ∧ b - a ≤ g)) :
    ts.Pairwise (fun a b => a ≤ b) :=
  List.chain'_iff_pairwise.1 (hchain.imp (fun _ _ h => h.1))

/-- In a list of clock readings in time order whose neighbours are at most `g`
apart, between a reading at or before `c` and one at or after `c` there is a
reading in `[c, c + g]`. -/
theorem exists_reading_in_band (g c : Int) (hg : 0 ≤ g) (ts : List Int)
    (hchain : ts.Chain' (fun a b => a ≤ b ∧ b - a ≤ g))
    (hlow : ∃ a ∈ ts, a ≤ c) (hhigh : ∃ b ∈ ts, c ≤ b) :
    ∃ x ∈ ts, c ≤ x ∧ x ≤ c + g := by
  cases ts with
  | nil => obtain ⟨a, ha, -⟩ := hlow; cases ha
  | cons t rest =>
    have hsorted := pairwise_of_chain g _ hchain
    rw [List.pairwise_cons] at hsorted
    obtain ⟨a, ha, hac⟩ := hlow
    have hta : t ≤ a := by
      rcases List.mem_cons.1 ha with rfl | ha
      · exact le_refl _
      · exact hsorted.1 a ha
    exact exists_reading_from_head g c hg rest t hchain (le_trans hta hac) hhigh

/-- Every decision other than `NO_THROTTLE` has a hint name. -/
theorem hintNames_ne_nil (D : ThrottleDecision) (hD : D ≠ .NO_THROTTLE) : hintNames D ≠ [] := by
  cases D <;> first | exact absurd rfl hD | decide

/-- C2, amended (hint refresh law).  Take a controller whose worker thread
exists and any sequence of events in which every loop pass completes with the
decision `D` that was already the previous decision.  Then no `EndHint` is ever emitted; every pass either makes no hint
call or re-sends the `DoHint` group of `D`, and after every pass the last
emission is at most `hintTimeout / 2` old.  If moreover `D` has hint names
(`D ≠ NO_THROTTLE`), the hint timeout is the same `H` at every pass, the
clock readings of consecutive passes are in time order and at most `H / 2`
apart, and the last emission before the sequence precedes it, then a `DoHint`
is emitted in every window of length `H`. -/
theorem refresh_law (s : AdaptiveCpu) (events : List ControllerEvent) (D : ThrottleDecision)
    (hthread : s.mLoopThreadJoinable = true) (hprev : s.previousThrottleDecision = D)
    (hstable : ∀ p ∈ (s.run events).2, p.2.outcome = .completed D) :
    (∀ p ∈ (s.run events).2, ∀ c ∈ p.2.hintCalls, c.isEndHint = false) ∧
    (∀ p ∈ (s.run events).2,
      p.1 - p.2.state.mLastThrottleHintTime ≤ msToNs (p.2.state.mConfig.hintTimeout / 2) ∧
      (p.2.hintCalls = [] ∨
        (p.2.hintCalls =
            (hintNames D).map
              (fun hintName => HintCall.DoHint hintName p.2.state.mConfig.hintTimeout) ∧
          p.2.state.mLastThrottleHintTime = p.1))) ∧
    (∀ H : Nat, D ≠ .NO_THROTTLE →
      (∀ p ∈ (s.run events).2, p.2.state.mConfig.hintTimeout = H) →
      ((s.run events).2.map Prod.fst).Chain' (fun a b => a ≤ b ∧ b - a ≤ msToNs (H / 2)) →
      (∀ p ∈ (s.run events).2, s.mLastThrottleHintTime < p.1) →
      DoHintInEveryWindow (msToNs H) (s.run events).2) := by
  have hinv := run_stable events s D hthread hprev hstable
  refine ⟨fun p hp => (hinv p hp).1, fun p hp => ⟨(hinv p hp).2.1, (hinv p hp).2.2.1⟩, ?_⟩
  intro H hD hconfig hchain hstart w hlow hhigh
  obtain ⟨a, ha, haw⟩ := hlow
  obtain ⟨b, hb, hwb⟩ := hhigh
  have hg : 0 ≤ msToNs (H / 2) := by unfold msToNs; positivity
  have h2g : 2 * msToNs (H / 2) ≤ msToNs H := by unfold msToNs; omega
  obtain ⟨x, hx, hx1, hx2⟩ := exists_reading_in_band (msToNs (H / 2)) (w + msToNs (H / 2)) hg
    ((s.run events).2.map Prod.fst) hchain
    ⟨a.1, List.mem_map.2 ⟨a, ha, rfl⟩, by omega⟩
    ⟨b.1, List.mem_map.2 ⟨b, hb, rfl⟩, by omega⟩
  obtain ⟨p, hp, rfl⟩ := List.mem_map.1 hx
  obtain ⟨-, hage, -, hsource⟩ := hinv p hp
  rw [hconfig p hp] at hage
  rcases hsource (pairwise_of_chain _ _ hchain) with h0 | ⟨r, hr, hr1, hr2, hr3⟩
  · have := hstart a ha
    omega
  · refine ⟨r, hr, by omega, by omega, ?_⟩
    rw [hr3]
    obtain ⟨n, hn⟩ := List.exists_mem_of_ne_nil _ (hintNames_ne_nil D hD)
    exact ⟨_, List.mem_map.2 ⟨n, hn, rfl⟩, rfl⟩

/-- A window without a `DoHint` refutes `DoHintInEveryWindow`. -/
theorem not_doHintInEveryWindow (window w : Int) (passes : List (Int × LoopResult))
    (hlow : ∃ p ∈ passes, p.1 ≤ w) (hhigh : ∃ p ∈ passes, w + window ≤ p.1)
    (hnone : ∀ p ∈ passes, w ≤ p.1 → p.1 ≤ w + window →
      ∀ c ∈ p.2.hintCalls, c.isDoHint = false) :
    ¬ DoHintInEveryWindow window passes := by
  intro h
  obtain ⟨p, hp, h1, h2, c, hc, hd⟩ := h w hlow hhigh
  rw [hnone p hp h1 h2 c hc] at hd
  cases hd

/-- C2 as stated fails.  With the default hint timeout of 2000 ms and the
decision `THROTTLE_60` throughout, two completed passes 10 s apart leave the
window from 3 s to 5 s without any `DoHint`; and with the decision
`NO_THROTTLE` throughout, completed passes 1 s apart make no `DoHint` call at
all, the hint list of `NO_THROTTLE` being empty. -/
theorem refresh_law_fails :
    ((∀ p ∈ ((sampleController .THROTTLE_60 0).run
          (stablePasses .THROTTLE_60 [1500000000, 11500000000])).2,
        p.2.outcome = .completed .THROTTLE_60) ∧
      ¬ DoHintInEveryWindow (msToNs 2000)
        ((sampleController .THROTTLE_60 0).run
          (stablePasses .THROTTLE_60 [1500000000, 11500000000])).2) ∧
    ((∀ p ∈ ((sampleController .NO_THROTTLE 0).run
          (stablePasses .NO_THROTTLE [1500000000, 2500000000, 3500000000])).2,
        p.2.outcome = .completed .NO_THROTTLE) ∧
      ¬ DoHintInEveryWindow (msToNs 2000)
        ((sampleController .NO_THROTTLE 0).run
          (stablePasses .NO_THROTTLE [1500000000, 2500000000, 3500000000])).2) :=
  ⟨⟨by decide,
    not_doHintInEveryWindow _ 3000000000 _ (by decide) (by decide) (by decide)⟩,
   ⟨by decide,
    not_doHintInEveryWindow _ 1500000000 _ (by decide) (by decide) (by decide)⟩⟩

/-- The refresh law at five completed passes with decision `THROTTLE_60`, at
most 1 s apart, under the default hint timeout of 2000 ms. -/
theorem refresh_law_witness :
    (sampleController .THROTTLE_60 0).mLoopThreadJoinable = true ∧
    (sampleController .THROTTLE_60 0).previousThrottleDecision = .THROTTLE_60 ∧
    (∀ p ∈ ((sampleController .THROTTLE_60 0).run
          (stablePasses .THROTTLE_60
            [1500000000, 2200000000, 3000000000, 3900000000, 4900000000])).2,
        p.2.outcome = .completed .THROTTLE_60) ∧
    DoHintInEveryWindow (msToNs 2000)
      ((sampleController .THROTTLE_60 0).run
        (stablePasses .THROTTLE_60
          [1500000000, 2200000000, 3000000000, 3900000000, 4900000000])).2 :=
  ⟨rfl, rfl, by decide,
   (refresh_law (sampleController .THROTTLE_60 0)
      (stablePasses .THROTTLE_60 [1500000000, 2200000000, 3000000000, 3900000000, 4900000000])
      .THROTTLE_60 rfl rfl (by decide)).2.2 2000 (by decide) (by decide)
      (by
        rw [show ((sampleController .THROTTLE_60 0).run
              (stablePasses .THROTTLE_60
                [1500000000, 2200000000, 3000000000, 3900000000, 4900000000])).2.map Prod.fst =
            [1500000000, 2200000000, 3000000000, 3900000000, 4900000000] from by decide]
        simp [msToNs])
      (by decide)⟩

/-! ## Properties of a queue without accepted durations -/

/-- There are as many normalised durations as accepted ones. -/
theorem normalizedDurations_length (batches : List WorkDurationBatch) :
    (normalizedDurations batches).length = (acceptedDurations batches).length := by
  induction batches with
  | nil => rfl
  | cons b rest ih =>
    simp only [normalizedDurations, acceptedDurations, List.flatMap_cons, List.length_append,
      List.length_map] at ih ⊢
    rw [ih]

/-- The durations that miss their deadline are among the accepted ones. -/
theorem missedDeadlineCount_le (batches : List WorkDurationBatch) :
    missedDeadlineCount batches ≤ (acceptedDurations batches).length := by
  induction batches with
  | nil => simp [missedDeadlineCount, acceptedDurations]
  | cons b rest ih =>
    simp only [missedDeadlineCount, acceptedDurations, List.map_cons, List.sum_cons,
      List.flatMap_cons, List.length_append, List.length_map] at ih ⊢
    exact Nat.add_le_add (List.length_filter_le _ _) ih

/-- Without an accepted duration the four locals of `GetFeatures` keep their
initial value zero. -/
theorem accumulateBatches_of_no_accepted (batches : List WorkDurationBatch)
    (hnone : acceptedDurations batches = []) :
    accumulateBatches batches = FeatureSums.init := by
  obtain ⟨c1, c2, c3, c4⟩ := accumulateBatches_closed batches
  have hnorm : normalizedDurations batches = [] := by
    apply List.length_eq_zero.1
    rw [normalizedDurations_length, hnone]
    rfl
  have hmiss : missedDeadlineCount batches = 0 := by
    have h := missedDeadlineCount_le batches
    rw [hnone] at h
    exact Nat.le_zero.1 h
  rw [hnorm] at c1 c2
  rw [hnone] at c3
  rw [hmiss] at c4
  cases hacc : accumulateBatches batches with
  | mk s m md n =>
    rw [hacc] at c1 c2 c3 c4
    simp only [List.sum_nil, List.foldl_nil, List.length_nil] at c1 c2 c3 c4
    subst c1 c2 c3 c4
    rfl

/-- When no accepted duration is queued, the four fields `GetFeatures` returns
are zero, the quotient with divisor zero being taken as zero, and that divisor
is zero. -/
theorem getFeatures_zero_record (p : WorkDurationProcessor)
    (hnone : acceptedDurations p.mWorkDurationBatches = []) :
    p.GetFeatures.1 = ⟨0, 0, 0, 0⟩ ∧ p.averageDivisor = 0 := by
  have h := accumulateBatches_of_no_accepted _ hnone
  simp only [WorkDurationProcessor.GetFeatures, WorkDurationProcessor.averageDivisor, h]
  exact ⟨rfl, rfl⟩

/-- C11 at its failing inputs.  On a freshly constructed processor, and on a
processor whose only queued duration is filtered out, the divisor of
`durationsSum / numDurations` in `GetFeatures` is zero. -/
theorem getFeatures_divides_by_zero :
    WorkDurationProcessor.averageDivisor { mWorkDurationBatches := [] } = 0 ∧
    WorkDurationProcessor.averageDivisor
      { mWorkDurationBatches :=
          [{ workDurations := [⟨0, -5⟩], targetDuration := 16666666 }] } = 0 := by
  decide

/-! ## Properties of `HasWorkDurations` -/

/-- C12, amended.  `HasWorkDurations` is false on a fresh processor; after a
call of `ReportWorkDurations` it is the value that call returned, true after an
accepted report and false after a rejected one (which empties the queue); after
`GetFeatures` it is false. -/
theorem hasWorkDurations_law :
    WorkDurationProcessor.HasWorkDurations { mWorkDurationBatches := [] } = false ∧
    (∀ (p : WorkDurationProcessor) (workDurations : List WorkDuration) (targetDuration : Int),
      (p.ReportWorkDurations workDurations targetDuration).2.HasWorkDurations =
        (p.ReportWorkDurations workDurations targetDuration).1) ∧
    (∀ p : WorkDurationProcessor, p.GetFeatures.2.HasWorkDurations = false) := by
  refine ⟨rfl, ?_, fun _ => rfl⟩
  intro p workDurations targetDuration
  unfold WorkDurationProcessor.ReportWorkDurations
  split_ifs
  · rfl
  · simp [WorkDurationProcessor.HasWorkDurations]

/-- C12 as stated fails.  After 1000 accepted reports on a fresh processor and
one more report, `ReportWorkDurations` has been called since construction and
`GetFeatures` has not, yet `HasWorkDurations` is false. -/
theorem hasWorkDurations_false_after_rejected_report :
    ((reportAll { mWorkDurationBatches := [] }
        (List.replicate 1000 ([⟨0, 16666666⟩], 16666666))).2.ReportWorkDurations
          [⟨0, 16666666⟩] 16666666).2.HasWorkDurations = false := by
  obtain ⟨-, h2⟩ := reportAll_below_cap (List.replicate 1000 ([⟨0, 16666666⟩], 16666666))
    { mWorkDurationBatches := [] } (by simp)
  have hfull : (reportAll { mWorkDurationBatches := [] }
      (List.replicate 1000 ([⟨0, 16666666⟩], 16666666))).2.mWorkDurationBatches.length ≥
      kMaxUnprocessedBatches := by
    rw [h2]
    simp only [List.nil_append, List.length_map, List.length_replicate, kMaxUnprocessedBatches]
    exact le_refl _
  generalize (reportAll { mWorkDurationBatches := [] }
      (List.replicate 1000 ([⟨0, 16666666⟩], 16666666))).2 = q at hfull ⊢
  unfold WorkDurationProcessor.ReportWorkDurations
  rw [if_pos hfull]
  rfl

/-! ## Properties of the configuration loader -/

/-- The test `randomThrottleDecisionProbability > 1.0` in terms of the percent
value read. -/
theorem percent_gt_one (p : Nat) : ((p : Rat) / 100 > 1) ↔ p > 100 := by
  rw [gt_iff_lt, one_lt_div (by norm_num : (0 : Rat) < 100)]
  exact_mod_cast Iff.rfl

/-- The default passed for the percent property, `DEFAULT.randomThrottleDecisionProbability * 100`
converted to `uint32_t`, is zero. -/
theorem default_percent :
    (AdaptiveCpuConfig.DEFAULT.randomThrottleDecisionProbability * 100).floor.toNat = 0 := by
  simp [AdaptiveCpuConfig.DEFAULT, Rat.floor]

/-- The loop body of `ParseThrottleDecisions` accepts the decimal form of a
decision and appends the decision. -/
theorem parseThrottleDecision_repr (d : ThrottleDecision) (output : List ThrottleDecision) :
    parseThrottleDecision (Nat.repr d.toNat).toList output = some (output ++ [d]) := by
  cases d <;> rfl

/-- The decimal form of a decision is cut off at a following comma. -/
theorem splitAtCommas_repr_comma (d : ThrottleDecision) (chars : List Char) :
    splitAtCommas ((Nat.repr d.toNat).toList ++ ',' :: chars) =
      (Nat.repr d.toNat).toList :: splitAtCommas chars := by
  cases d <;> rfl

/-- The decimal form of a decision holds no comma. -/
theorem splitAtCommas_repr (d : ThrottleDecision) :
    splitAtCommas (Nat.repr d.toNat).toList = [(Nat.repr d.toNat).toList] := by
  cases d <;> rfl

/-- A string is cut into at least one piece. -/
theorem splitAtCommas_ne_nil (chars : List Char) : splitAtCommas chars ≠ [] := by
  cases chars with
  | nil => simp [splitAtCommas]
  | cons c rest =>
    simp only [splitAtCommas]
    split_ifs
    · simp
    · split <;> simp

/-- The characters written for a list of one decision. -/
theorem formatThrottleDecisionChars_single (d : ThrottleDecision) :
    formatThrottleDecisionChars [d] = (Nat.repr d.toNat).toList := rfl

/-- The characters written for a list of two decisions or more. -/
theorem formatThrottleDecisionChars_cons (d d1 : ThrottleDecision)
    (rest : List ThrottleDecision) :
    formatThrottleDecisionChars (d :: d1 :: rest) =
      (Nat.repr d.toNat).toList ++ ',' :: formatThrottleDecisionChars (d1 :: rest) := rfl

/-- The last pass of the parsing loop. -/
theorem parseThrottleDecisionsFrom_single (str : List Char) (output : List ThrottleDecision) :
    parseThrottleDecisionsFrom [str] output =
      if str.isEmpty then (false, output)
      else
        match parseThrottleDecision str output with
        | none => (false, output)
        | some pushed => (!pushed.isEmpty, pushed) := rfl

/-- A pass of the parsing loop that is not the last. -/
theorem parseThrottleDecisionsFrom_cons (str str1 : List Char) (rest : List (List Char))
    (output : List ThrottleDecision) :
    parseThrottleDecisionsFrom (str :: str1 :: rest) output =
      match parseThrottleDecision str output with
      | none => (false, output)
      | some pushed => parseThrottleDecisionsFrom (str1 :: rest) pushed := rfl

/-- What `FormatThrottleDecisions` writes for a non-empty list is parsed back
to that list, appended to the output. -/
theorem parse_format_chars (decisions : List ThrottleDecision) (hne : decisions ≠ []) :
    ∀ output : List ThrottleDecision,
      parseThrottleDecisionsFrom (splitAtCommas (formatThrottleDecisionChars decisions)) output =
        (true, output ++ decisions) := by
  induction decisions with
  | nil => exact absurd rfl hne
  | cons d rest ih =>
    intro output
    cases rest with
    | nil =>
      have hdigit : (Nat.repr d.toNat).toList.isEmpty = false := by cases d <;> rfl
      rw [formatThrottleDecisionChars_single, splitAtCommas_repr,
        parseThrottleDecisionsFrom_single, hdigit, parseThrottleDecision_repr]
      simp
    | cons d1 rest1 =>
      have hrec := ih (List.cons_ne_nil _ _) (output ++ [d])
      rw [formatThrottleDecisionChars_cons, splitAtCommas_repr_comma]
      cases hsplit : splitAtCommas (formatThrottleDecisionChars (d1 :: rest1)) with
      | nil => exact absurd hsplit (splitAtCommas_ne_nil _)
      | cons piece pieces =>
        rw [hsplit] at hrec
        rw [parseThrottleDecisionsFrom_cons, parseThrottleDecision_repr]
        simp only [hrec, List.append_assoc, List.singleton_append]

/-- `ParseThrottleDecisions` applied to what `FormatThrottleDecisions` returns
for a non-empty list. -/
theorem parse_format (decisions : List ThrottleDecision) (hne : decisions ≠ [])
    (output : List ThrottleDecision) :
    ParseThrottleDecisions (FormatThrottleDecisions decisions) output =
      (true, output ++ decisions) :=
  parse_format_chars decisions hne output

/-- A load in which the percent value is at most 100 and the option list
parses: the flag is true and the five fields are what was read. -/
theorem readFromSystemProperties_ok (props : SystemProperties) (output : AdaptiveCpuConfig)
    (options : List ThrottleDecision)
    (hpercent : props.GetUintProperty kRandomThrottleDecisionPercentProperty 0 ≤ 100)
    (hparse : ParseThrottleDecisions
        (props.GetProperty kRandomThrottleOptionsProperty
          (FormatThrottleDecisions AdaptiveCpuConfig.DEFAULT.randomThrottleOptions)) [] =
      (true, options)) :
    AdaptiveCpuConfig.ReadFromSystemProperties props output =
      (true,
        { iterationSleepDuration :=
            max (props.GetUintProperty kIterationSleepDurationProperty 1000) 20
          hintTimeout := props.GetUintProperty kHintTimeoutProperty 2000
          randomThrottleDecisionProbability :=
            (props.GetUintProperty kRandomThrottleDecisionPercentProperty 0 : Rat) / 100
          randomThrottleOptions := options
          enabledHintTimeout := props.GetUintProperty kEnabledHintTimeoutProperty 7200000 }) := by
  have hnot : ¬ ((props.GetUintProperty kRandomThrottleDecisionPercentProperty 0 : Rat) / 100 > 1) :=
    fun h => absurd ((percent_gt_one _).1 h) (not_lt.2 hpercent)
  simp only [AdaptiveCpuConfig.ReadFromSystemProperties, default_percent, hnot, if_false, hparse]
  rfl

/-- A load in which the percent value exceeds 100 returns false. -/
theorem readFromSystemProperties_percent_too_big (props : SystemProperties)
    (output : AdaptiveCpuConfig)
    (hpercent : props.GetUintProperty kRandomThrottleDecisionPercentProperty 0 > 100) :
    (AdaptiveCpuConfig.ReadFromSystemProperties props output).1 = false := by
  have hgt : (props.GetUintProperty kRandomThrottleDecisionPercentProperty 0 : Rat) / 100 > 1 :=
    (percent_gt_one _).2 hpercent
  simp only [AdaptiveCpuConfig.ReadFromSystemProperties, default_percent, hgt, if_true]

/-- C13 (config valid load).  When the sleep, hint-timeout, percent and
enabled-timeout properties read as `s`, `h`, `p ≤ 100` and `e`, and the options
property holds the comma-separated decimal form of a non-empty list `L` of
decisions, `ReadFromSystemProperties` returns true with
`iterationSleepDuration = max s 20`, `hintTimeout = h`,
`randomThrottleDecisionProbability = p / 100`, `randomThrottleOptions = L` in
the same order and `enabledHintTimeout = e`. -/
theorem config_valid_load (props : SystemProperties) (output : AdaptiveCpuConfig)
    (s h p e : Nat) (L : List ThrottleDecision) (hL : L ≠ []) (hp : p ≤ 100)
    (hs : props.GetUintProperty kIterationSleepDurationProperty 1000 = s)
    (hh : props.GetUintProperty kHintTimeoutProperty 2000 = h)
    (hpercent : props.GetUintProperty kRandomThrottleDecisionPercentProperty 0 = p)
    (hoptions : props.GetProperty kRandomThrottleOptionsProperty
        (FormatThrottleDecisions AdaptiveCpuConfig.DEFAULT.randomThrottleOptions) =
      FormatThrottleDecisions L)
    (he : props.GetUintProperty kEnabledHintTimeoutProperty 7200000 = e) :
    AdaptiveCpuConfig.ReadFromSystemProperties props output =
      (true,
        { iterationSleepDuration := max s 20
          hintTimeout := h
          randomThrottleDecisionProbability := (p : Rat) / 100
          randomThrottleOptions := L
          enabledHintTimeout := e }) := by
  have hparse : ParseThrottleDecisions
      (props.GetProperty kRandomThrottleOptionsProperty
        (FormatThrottleDecisions AdaptiveCpuConfig.DEFAULT.randomThrottleOptions)) [] =
      (true, L) := by
    rw [hoptions, parse_format L hL []]
    rfl
  rw [readFromSystemProperties_ok props output L (by rw [hpercent]; exact hp) hparse,
    hs, hh, hpercent, he]

/-- The valid load at the property values of the repository test
`AdaptiveCpuConfigTest.valid`. -/
theorem config_valid_load_witness :
    AdaptiveCpuConfig.ReadFromSystemProperties
        (androidProperties (configStore "25" "500" "25" "0,3,4" "1000"))
        AdaptiveCpuConfig.DEFAULT =
      (true,
        { iterationSleepDuration := max 25 20
          hintTimeout := 500
          randomThrottleDecisionProbability := ((25 : Nat) : Rat) / 100
          randomThrottleOptions := [.NO_THROTTLE, .THROTTLE_70, .THROTTLE_80]
          enabledHintTimeout := 1000 }) :=
  config_valid_load (androidProperties (configStore "25" "500" "25" "0,3,4" "1000"))
    AdaptiveCpuConfig.DEFAULT 25 500 25 1000 [.NO_THROTTLE, .THROTTLE_70, .THROTTLE_80]
    (by decide) (by decide) (by decide) (by decide) (by decide) (by decide) (by decide)

/-- C15.  Whenever the percent property reads as a value greater than 100,
`ReadFromSystemProperties` returns false; and every load that returns true
leaves `randomThrottleDecisionProbability` between 0 and 1. -/
theorem percent_too_big_fails (props : SystemProperties) (output : AdaptiveCpuConfig) :
    (props.GetUintProperty kRandomThrottleDecisionPercentProperty 0 > 100 →
      (AdaptiveCpuConfig.ReadFromSystemProperties props output).1 = false) ∧
    ((AdaptiveCpuConfig.ReadFromSystemProperties props output).1 = true →
      0 ≤ (AdaptiveCpuConfig.ReadFromSystemProperties props
            output).2.randomThrottleDecisionProbability ∧
        (AdaptiveCpuConfig.ReadFromSystemProperties props
            output).2.randomThrottleDecisionProbability ≤ 1) := by
  refine ⟨readFromSystemProperties_percent_too_big props output, ?_⟩
  intro hok
  by_cases hbig : props.GetUintProperty kRandomThrottleDecisionPercentProperty 0 > 100
  · rw [readFromSystemProperties_percent_too_big props output hbig] at hok
    cases hok
  · have hnot :
        ¬ ((props.GetUintProperty kRandomThrottleDecisionPercentProperty 0 : Rat) / 100 > 1) :=
      fun h => hbig ((percent_gt_one _).1 h)
    have hprob : (AdaptiveCpuConfig.ReadFromSystemProperties props
          output).2.randomThrottleDecisionProbability =
        (props.GetUintProperty kRandomThrottleDecisionPercentProperty 0 : Rat) / 100 := by
      simp only [AdaptiveCpuConfig.ReadFromSystemProperties, default_percent, hnot, if_false]
      split_ifs <;> rfl
    rw [hprob]
    exact ⟨by positivity, not_lt.1 hnot⟩

/-- The load at the percent value of the repository test
`randomThrottleDecisionProbability_tooBig`. -/
theorem percent_too_big_fails_witness :
    (androidProperties (configStore "" "" "101" "" "")).GetUintProperty
        kRandomThrottleDecisionPercentProperty 0 > 100 ∧
    (AdaptiveCpuConfig.ReadFromSystemProperties
        (androidProperties (configStore "" "" "101" "" ""))
        AdaptiveCpuConfig.DEFAULT).1 = false :=
  ⟨by decide,
   (percent_too_big_fails (androidProperties (configStore "" "" "101" "" ""))
      AdaptiveCpuConfig.DEFAULT).1 (by decide)⟩

/-- C18 (default load).  When all five properties are absent, so that each
getter returns the default it is given, `ReadFromSystemProperties` returns true
and the resulting configuration is `AdaptiveCpuConfig::DEFAULT`. -/
theorem default_load (props : SystemProperties) (output : AdaptiveCpuConfig)
    (huint : ∀ key defaultValue, props.GetUintProperty key defaultValue = defaultValue)
    (hstring : ∀ key defaultValue, props.GetProperty key defaultValue = defaultValue) :
    AdaptiveCpuConfig.ReadFromSystemProperties props output =
      (true, AdaptiveCpuConfig.DEFAULT) := by
  have hparse : ParseThrottleDecisions
      (props.GetProperty kRandomThrottleOptionsProperty
        (FormatThrottleDecisions AdaptiveCpuConfig.DEFAULT.randomThrottleOptions)) [] =
      (true, AdaptiveCpuConfig.DEFAULT.randomThrottleOptions) := by
    rw [hstring, parse_format _ (by decide) []]
    rfl
  rw [readFromSystemProperties_ok props output _ (by rw [huint]; decide) hparse]
  simp only [huint]
  simp [AdaptiveCpuConfig.DEFAULT]

/-- The default load over a property store in which every property is empty,
as the repository test `defaultConfig` sets it up. -/
theorem default_load_witness :
    (∀ key defaultValue,
      (androidProperties (fun _ => "")).GetUintProperty key defaultValue = defaultValue) ∧
    (∀ key defaultValue,
      (androidProperties (fun _ => "")).GetProperty key defaultValue = defaultValue) ∧
    AdaptiveCpuConfig.ReadFromSystemProperties (androidProperties (fun _ => ""))
        { iterationSleepDuration := 0, hintTimeout := 0, randomThrottleDecisionProbability := 0,
          randomThrottleOptions := [], enabledHintTimeout := 0 } =
      (true, AdaptiveCpuConfig.DEFAULT) :=
  ⟨fun _ _ => rfl, fun _ _ => rfl,
   default_load (androidProperties (fun _ => "")) _ (fun _ _ => rfl) (fun _ _ => rfl)⟩

/-- C19, amended.  The default `randomThrottleOptions` is the sequence of all
six decisions `{0, 1, 2, 3, 4, 5}`, `THROTTLE_50` included. -/
theorem default_random_options :
    AdaptiveCpuConfig.DEFAULT.randomThrottleOptions.map ThrottleDecision.toNat =
      [0, 1, 2, 3, 4, 5] := by
  decide

/-- C19 as stated fails: `THROTTLE_50` is an element of the default
`randomThrottleOptions`. -/
theorem default_random_options_contain_throttle_50 :
    ThrottleDecision.THROTTLE_50 ∈ AdaptiveCpuConfig.DEFAULT.randomThrottleOptions := by
  decide

/-- The digits scanned are at most the string, and they are the whole string
only if every character is a decimal digit. -/
theorem scanDigits_count (chars : List Char) :
    ∀ value count : Nat,
      (scanDigits chars value count).2 ≤ count + chars.length ∧
      ((scanDigits chars value count).2 = count + chars.length →
        ∀ c ∈ chars, c.isDigit = true) := by
  induction chars with
  | nil => intro value count; simp [scanDigits]
  | cons c rest ih =>
    intro value count
    by_cases hc : c.isDigit = true
    · obtain ⟨h1, h2⟩ := ih (10 * value + (c.toNat - '0'.toNat)) (count + 1)
      simp only [scanDigits, hc, if_true, List.length_cons]
      refine ⟨by omega, ?_⟩
      intro hall d hd
      rcases List.mem_cons.1 hd with rfl | hd
      · exact hc
      · exact h2 (by omega) d hd
    · simp only [scanDigits, hc, List.length_cons]
      refine ⟨by simp, ?_⟩
      intro hall
      simp at hall

/-- The modelled getter returns the default for an absent value, for a value
that begins with a minus sign, and for a value with a character that is not a
decimal digit. -/
theorem uintPropertyOrDefault_default (value : String) (defaultValue : Nat)
    (h : value = "" ∨ value.toList.head? = some '-' ∨ ∃ c ∈ value.toList, c.isDigit = false) :
    uintPropertyOrDefault value defaultValue = defaultValue := by
  have hlen : value.length = value.toList.length := rfl
  obtain ⟨-, hall⟩ := scanDigits_count value.toList 0 0
  unfold uintPropertyOrDefault
  apply if_neg
  rintro ⟨hcount, hwhole, -⟩
  rw [hlen] at hwhole
  have hdigits := hall (by rw [hwhole, Nat.zero_add])
  rcases h with h | h | ⟨c, hc, hd⟩
  · apply hcount
    rw [h]
    rfl
  · cases hv : value.toList with
    | nil => rw [hv] at h; cases h
    | cons c rest =>
      rw [hv] at h hdigits
      have hc : c = '-' := by
        simp only [List.head?_cons, Option.some.injEq] at h
        exact h
      have := hdigits c (List.mem_cons_self _ _)
      rw [hc] at this
      exact absurd this (by decide)
  · rw [hdigits c hc] at hd
    cases hd

/-- C14 (iteration-sleep resolution).  After every call of
`ReadFromSystemProperties`, successful or not, `iterationSleepDuration` is the
maximum of 20 ms and the value read for the sleep property with default
1000 ms, hence at least 20 ms; over a property store it is 1000 ms when the
property is absent, begins with a minus sign or holds a character that is not a
decimal digit. -/
theorem iteration_sleep_resolution (props : SystemProperties) (output : AdaptiveCpuConfig) :
    (AdaptiveCpuConfig.ReadFromSystemProperties props output).2.iterationSleepDuration =
        max (props.GetUintProperty kIterationSleepDurationProperty 1000) 20 ∧
    20 ≤ (AdaptiveCpuConfig.ReadFromSystemProperties props output).2.iterationSleepDuration ∧
    (∀ store : String → String,
      (store kIterationSleepDurationProperty = "" ∨
        (store kIterationSleepDurationProperty).toList.head? = some '-' ∨
        ∃ c ∈ (store kIterationSleepDurationProperty).toList, c.isDigit = false) →
      (AdaptiveCpuConfig.ReadFromSystemProperties (androidProperties store)
        output).2.iterationSleepDuration = 1000) := by
  have hsleep : ∀ (q : SystemProperties),
      (AdaptiveCpuConfig.ReadFromSystemProperties q output).2.iterationSleepDuration =
        max (q.GetUintProperty kIterationSleepDurationProperty 1000) 20 := by
    intro q
    simp only [AdaptiveCpuConfig.ReadFromSystemProperties]
    split_ifs <;> rfl
  refine ⟨hsleep props, ?_, ?_⟩
  · rw [hsleep props]
    exact le_max_right _ _
  · intro store hstore
    rw [hsleep (androidProperties store)]
    simp only [androidProperties]
    rw [uintPropertyOrDefault_default _ _ hstore]
    rfl

/-- The iteration sleep for the property values `"2"` and `"-100"` of the
repository tests `iterationSleepDuration_belowMin` and `_negative`. -/
theorem iteration_sleep_resolution_witness :
    (AdaptiveCpuConfig.ReadFromSystemProperties
        (androidProperties (configStore "2" "" "" "" ""))
        AdaptiveCpuConfig.DEFAULT).2.iterationSleepDuration = 20 ∧
    (AdaptiveCpuConfig.ReadFromSystemProperties
        (androidProperties (configStore "-100" "" "" "" ""))
        AdaptiveCpuConfig.DEFAULT).2.iterationSleepDuration = 1000 :=
  ⟨(iteration_sleep_resolution (androidProperties (configStore "2" "" "" "" ""))
      AdaptiveCpuConfig.DEFAULT).1.trans (by decide),
   (iteration_sleep_resolution (androidProperties (configStore "" "" "" "" ""))
      AdaptiveCpuConfig.DEFAULT).2.2 (configStore "-100" "" "" "" "")
      (Or.inr (Or.inl (by decide)))⟩

/-- C16 at its failing input.  `ParseThrottleDecisions` returns true on
`"0, 1"`, whose second element `" 1"` begins with a space: the `%u` conversion
skips the space, and `scanEnd` equals the size of the element.  The elements
`"+1"` and `"-0"` are accepted as well, and so is `"4294967297"`, which is
stored as 1 in the 32-bit object. -/
theorem parseThrottleDecisions_accepts_leading_space :
    ParseThrottleDecisions "0, 1" [] = (true, [.NO_THROTTLE, .THROTTLE_50]) ∧
    sscanfUInt32 " 1".toList = some (1, 2) ∧
    ParseThrottleDecisions "+1,-0" [] = (true, [.THROTTLE_50, .NO_THROTTLE]) ∧
    ParseThrottleDecisions "4294967297" [] = (true, [.THROTTLE_50]) := by
  decide

/-- C17 at its failing inputs.  With the options property set to `"0, 1"`, or to
`"0,+1"`, and the other properties absent, `ReadFromSystemProperties` returns
true with the options `NO_THROTTLE, THROTTLE_50`. -/
theorem load_accepts_leading_space_and_sign :
    AdaptiveCpuConfig.ReadFromSystemProperties
        (androidProperties (configStore "" "" "" "0, 1" "")) AdaptiveCpuConfig.DEFAULT =
      (true, { AdaptiveCpuConfig.DEFAULT with
                randomThrottleOptions := [.NO_THROTTLE, .THROTTLE_50] }) ∧
    AdaptiveCpuConfig.ReadFromSystemProperties
        (androidProperties (configStore "" "" "" "0,+1" "")) AdaptiveCpuConfig.DEFAULT =
      (true, { AdaptiveCpuConfig.DEFAULT with
                randomThrottleOptions := [.NO_THROTTLE, .THROTTLE_50] }) := by
  constructor
  · rw [readFromSystemProperties_ok _ _ [.NO_THROTTLE, .THROTTLE_50] (by decide) (by decide)]
    simp [AdaptiveCpuConfig.DEFAULT, androidProperties, configStore, uintPropertyOrDefault,
      kIterationSleepDurationProperty, kHintTimeoutProperty,
      kRandomThrottleDecisionPercentProperty, kRandomThrottleOptionsProperty,
      kEnabledHintTimeoutProperty, scanDigits]
  · rw [readFromSystemProperties_ok _ _ [.NO_THROTTLE, .THROTTLE_50] (by decide) (by decide)]
    simp [AdaptiveCpuConfig.DEFAULT, androidProperties, configStore, uintPropertyOrDefault,
      kIterationSleepDurationProperty, kHintTimeoutProperty,
      kRandomThrottleDecisionPercentProperty, kRandomThrottleOptionsProperty,
      kEnabledHintTimeoutProperty, scanDigits]

/-! ## Properties of the kernel feature reader -/

/-- Without regression the clamped difference is the difference. -/
theorem clampedDelta_of_le (newValue previousValue : Nat) (h : previousValue ≤ newValue) :
    (clampedDelta newValue previousValue : Rat) = (newValue : Rat) - (previousValue : Rat) := by
  unfold clampedDelta
  rw [if_neg (not_lt.2 h)]
  exact Nat.cast_sub h

/-- C20 (kernel reader deltas).  After `Init` has read the sample `P` at time
`t0`, a call of `GetRecentCpuFeatures` that reads the sample `N` at time
`t1 > t0`, no counter of `N` being below that of `P`, succeeds and yields
`(N[idx].weighted_sum_freq - P[idx].weighted_sum_freq) / (t1 - t0)` for the
indices 0, 4, 6 and
`(N[c].total_idle_time_ns - P[c].total_idle_time_ns) / (t1 - t0)` for every
core `c` in 0..7; afterwards `N` and `t1` are the stored sample. -/
theorem kernel_reader_deltas (r0 : KernelCpuFeatureReader) (P N : List acpu_stats)
    (t0 t1 : Int) (hP : P.length = 8) (hN : N.length = 8) (ht : t0 < t1)
    (hfreq : ∀ idx ∈ CPU_POLICY_INDICES,
      (statsAt P idx).weighted_sum_freq ≤ (statsAt N idx).weighted_sum_freq)
    (hidle : ∀ c ∈ List.range NUM_CPU_CORES,
      (statsAt P c).total_idle_time_ns ≤ (statsAt N c).total_idle_time_ns) :
    (r0.Init true { kernelTime := t0, resetFileStream := true, records := P }).1 = true ∧
    (0 : Rat) < ((t1 - t0 : Int) : Rat) ∧
    (r0.Init true { kernelTime := t0, resetFileStream := true, records := P }).2.GetRecentCpuFeatures
        { kernelTime := t1, resetFileStream := true, records := N } =
      (some
        ([0, 4, 6].map (fun idx =>
            (((statsAt N idx).weighted_sum_freq : Rat) - ((statsAt P idx).weighted_sum_freq : Rat)) /
              ((t1 - t0 : Int) : Rat)),
         (List.range 8).map (fun c =>
            (((statsAt N c).total_idle_time_ns : Rat) - ((statsAt P c).total_idle_time_ns : Rat)) /
              ((t1 - t0 : Int) : Rat))),
       { mPreviousStats := N, mPreviousReadTime := t1 }) := by
  have hinit : r0.Init true { kernelTime := t0, resetFileStream := true, records := P } =
      (true, { mPreviousStats := P, mPreviousReadTime := t0 }) := by
    simp [KernelCpuFeatureReader.Init, KernelCpuFeatureReader.ReadStats, NUM_CPU_CORES, hP,
      List.take_of_length_le]
  have hread : KernelCpuFeatureReader.ReadStats
      { kernelTime := t1, resetFileStream := true, records := N } [] = (true, N, t1) := by
    simp [KernelCpuFeatureReader.ReadStats, NUM_CPU_CORES, hN, List.take_of_length_le]
  refine ⟨by rw [hinit], by exact_mod_cast sub_pos.2 ht, ?_⟩
  rw [hinit]
  simp only [KernelCpuFeatureReader.GetRecentCpuFeatures, hread, Bool.not_true, Bool.false_eq_true,
    if_false]
  congr 1
  congr 1
  congr 1
  · apply List.map_congr_left
    intro idx hidx
    rw [clampedDelta_of_le _ _ (hfreq idx hidx)]
  · apply List.map_congr_left
    intro c hc
    rw [clampedDelta_of_le _ _ (hidle c hc)]

/-- The reader deltas at the two samples of the repository test
`KernelCpuFeatureReaderTest.valid`, read at 100 ns and 200 ns: the frequencies
are 1, 1, 1 and the idle fractions 0.5 for the first four cores and 1 for the
others. -/
theorem kernel_reader_deltas_witness :
    sampleStatsBefore.length = 8 ∧ sampleStatsAfter.length = 8 ∧ (100 : Int) < 200 ∧
    (∀ idx ∈ CPU_POLICY_INDICES,
      (statsAt sampleStatsBefore idx).weighted_sum_freq ≤
        (statsAt sampleStatsAfter idx).weighted_sum_freq) ∧
    (∀ c ∈ List.range NUM_CPU_CORES,
      (statsAt sampleStatsBefore c).total_idle_time_ns ≤
        (statsAt sampleStatsAfter c).total_idle_time_ns) ∧
    ((KernelCpuFeatureReader.Init { mPreviousStats := [], mPreviousReadTime := 0 } true
        { kernelTime := 100, resetFileStream := true,
          records := sampleStatsBefore }).2.GetRecentCpuFeatures
        { kernelTime := 200, resetFileStream := true, records := sampleStatsAfter }).1 =
      some ([1, 1, 1], [1 / 2, 1 / 2, 1 / 2, 1 / 2, 1, 1, 1, 1]) :=
  ⟨rfl, rfl, by decide, by decide, by decide,
   (congrArg Prod.fst
      (kernel_reader_deltas { mPreviousStats := [], mPreviousReadTime := 0 } sampleStatsBefore
        sampleStatsAfter 100 200 rfl rfl (by decide) (by decide) (by decide)).2.2).trans
     (by
       simp only [List.map, List.range, List.range.loop, statsAt, sampleStatsBefore,
         sampleStatsAfter, List.getD_cons_zero, List.getD_cons_succ]
       norm_num)⟩

/-! ## Properties of regressing and racing kernel counters -/

/-- The clamped difference is zero when the counter went down, and the plain
difference otherwise: it is never the difference reduced modulo `2 ^ 64`. -/
theorem clampedDelta_eq (newValue previousValue : Nat) :
    clampedDelta newValue previousValue =
      if newValue < previousValue then 0 else newValue - previousValue := by
  unfold clampedDelta
  split_ifs <;> simp

/-- A read that resets the stream and finds at least `NUM_CPU_CORES` records
succeeds with the first `NUM_CPU_CORES` of them. -/
theorem readStats_ok (read : StatsRead) (stats : List acpu_stats)
    (hreset : read.resetFileStream = true) (hlen : NUM_CPU_CORES ≤ read.records.length) :
    KernelCpuFeatureReader.ReadStats read stats =
      (true, read.records.take NUM_CPU_CORES, read.kernelTime) := by
  unfold KernelCpuFeatureReader.ReadStats
  rw [if_neg (by simp [hreset]), if_neg (not_lt.2 hlen)]

/-- The two arrays a successful `GetRecentCpuFeatures` fills, and the reader
afterwards. -/
theorem getRecentCpuFeatures_ok (r : KernelCpuFeatureReader) (read : StatsRead)
    (hreset : read.resetFileStream = true) (hlen : NUM_CPU_CORES ≤ read.records.length) :
    r.GetRecentCpuFeatures read =
      (some
        (CPU_POLICY_INDICES.map (fun statsIdx =>
            (clampedDelta (statsAt (read.records.take NUM_CPU_CORES) statsIdx).weighted_sum_freq
                (statsAt r.mPreviousStats statsIdx).weighted_sum_freq : Rat) /
              ((read.kernelTime - r.mPreviousReadTime : Int) : Rat)),
         (List.range NUM_CPU_CORES).map (fun i =>
            (clampedDelta (statsAt (read.records.take NUM_CPU_CORES) i).total_idle_time_ns
                (statsAt r.mPreviousStats i).total_idle_time_ns : Rat) /
              ((read.kernelTime - r.mPreviousReadTime : Int) : Rat))),
       { mPreviousStats := read.records.take NUM_CPU_CORES,
         mPreviousReadTime := read.kernelTime }) := by
  simp only [KernelCpuFeatureReader.GetRecentCpuFeatures, readStats_ok read [] hreset hlen,
    Bool.not_true, Bool.false_eq_true, if_false]

/-- Among the first `NUM_CPU_CORES` records, the record read is the record of
the stream. -/
theorem statsAt_take (records : List acpu_stats) (i : Nat) (hi : i < NUM_CPU_CORES) :
    statsAt (records.take NUM_CPU_CORES) i = statsAt records i := by
  unfold statsAt
  rw [List.getD_eq_getElem?_getD, List.getD_eq_getElem?_getD, List.getElem?_take_of_lt hi]

/-- A quotient of a clamped difference by a positive time difference is not
negative. -/
theorem clamped_quotient_nonneg (newValue previousValue : Nat) (timeDelta : Int)
    (ht : 0 < timeDelta) : (0 : Rat) ≤ (clampedDelta newValue previousValue : Rat) / (timeDelta : Rat) := by
  apply div_nonneg
  · exact Nat.cast_nonneg _
  · exact_mod_cast ht.le

/-- Every index of `CPU_POLICY_INDICES` is the index of a core. -/
theorem policy_index_lt (i idx : Nat) (h : CPU_POLICY_INDICES[i]? = some idx) :
    idx < NUM_CPU_CORES := by
  have hmem : idx ∈ CPU_POLICY_INDICES := List.getElem?_mem h
  simp only [CPU_POLICY_INDICES, List.mem_cons, List.mem_singleton, List.not_mem_nil,
    or_false] at hmem
  unfold NUM_CPU_CORES
  omega

/-- C21 (counter monotonicity recovery).  Let a call of `GetRecentCpuFeatures`
read a full sample at a kernel time later than the previous read.  The call
succeeds and fills three frequencies and eight idle fractions.  Where the
`weighted_sum_freq` counter of a policy-index core is smaller than in the
previous sample, the frequency of that policy is exactly 0; where the
`total_idle_time_ns` counter of a core is smaller than in the previous sample,
the idle fraction of that core is exactly 0; and every value returned is
`≥ 0`. -/
theorem counter_regression_yields_zero (r : KernelCpuFeatureReader) (read : StatsRead)
    (hreset : read.resetFileStream = true) (hlen : NUM_CPU_CORES ≤ read.records.length)
    (ht : r.mPreviousReadTime < read.kernelTime) :
    ∃ freq idle : List Rat,
      (r.GetRecentCpuFeatures read).1 = some (freq, idle) ∧
      freq.length = NUM_CPU_POLICIES ∧ idle.length = NUM_CPU_CORES ∧
      (∀ i idx : Nat, CPU_POLICY_INDICES[i]? = some idx →
        (statsAt read.records idx).weighted_sum_freq <
          (statsAt r.mPreviousStats idx).weighted_sum_freq →
        freq[i]? = some (0 : Rat)) ∧
      (∀ c : Nat, c < NUM_CPU_CORES →
        (statsAt read.records c).total_idle_time_ns <
          (statsAt r.mPreviousStats c).total_idle_time_ns →
        idle[c]? = some (0 : Rat)) ∧
      (∀ v ∈ freq, 0 ≤ v) ∧ (∀ v ∈ idle, 0 ≤ v) := by
  have hpos : (0 : Int) < read.kernelTime - r.mPreviousReadTime := sub_pos.2 ht
  rw [getRecentCpuFeatures_ok r read hreset hlen]
  refine ⟨_, _, rfl, by simp [CPU_POLICY_INDICES, NUM_CPU_POLICIES], by simp, ?_, ?_, ?_, ?_⟩
  · intro i idx hi hlt
    rw [List.getElem?_map, hi, Option.map_some', statsAt_take _ _ (policy_index_lt i idx hi),
      clampedDelta_eq, if_pos hlt]
    simp
  · intro c hc hlt
    rw [List.getElem?_map, List.getElem?_range hc, Option.map_some', statsAt_take _ _ hc,
      clampedDelta_eq, if_pos hlt]
    simp
  · intro v hv
    obtain ⟨idx, -, rfl⟩ := List.mem_map.1 hv
    exact clamped_quotient_nonneg _ _ _ hpos
  · intro v hv
    obtain ⟨c, -, rfl⟩ := List.mem_map.1 hv
    exact clamped_quotient_nonneg _ _ _ hpos

/-- The law of C21 at the two repository tests `frequencies_capsNegativeDiff`
and `idleTimes_capsNegativeDiff` (reads at 100 ns and 200 ns): the frequency of
policy 0, whose counter falls from 200 to 100, and in the other test the idle
fraction of core 0, whose counter falls from 150 to 100, are 0. -/
theorem counter_regression_yields_zero_witness :
    (∃ freq idle : List Rat,
      (KernelCpuFeatureReader.GetRecentCpuFeatures
          { mPreviousStats := sampleStatsHighFreq, mPreviousReadTime := 100 }
          { kernelTime := 200, resetFileStream := true, records := sampleStatsHighIdle }).1 =
        some (freq, idle) ∧ freq[0]? = some (0 : Rat) ∧ (∀ v ∈ freq, 0 ≤ v) ∧ (∀ v ∈ idle, 0 ≤ v)) ∧
    (∃ freq idle : List Rat,
      (KernelCpuFeatureReader.GetRecentCpuFeatures
          { mPreviousStats := sampleStatsHighIdle, mPreviousReadTime := 100 }
          { kernelTime := 200, resetFileStream := true, records := sampleStatsHighFreq }).1 =
        some (freq, idle) ∧ idle[0]? = some (0 : Rat) ∧ (∀ v ∈ freq, 0 ≤ v) ∧ (∀ v ∈ idle, 0 ≤ v)) := by
  constructor
  · obtain ⟨freq, idle, h, -, -, hfreq, -, hf, hi⟩ :=
      counter_regression_yields_zero
        { mPreviousStats := sampleStatsHighFreq, mPreviousReadTime := 100 }
        { kernelTime := 200, resetFileStream := true, records := sampleStatsHighIdle }
        rfl (by decide) (by decide)
    exact ⟨freq, idle, h, hfreq 0 0 rfl (by decide), hf, hi⟩
  · obtain ⟨freq, idle, h, -, -, -, hidle, hf, hi⟩ :=
      counter_regression_yields_zero
        { mPreviousStats := sampleStatsHighIdle, mPreviousReadTime := 100 }
        { kernelTime := 200, resetFileStream := true, records := sampleStatsHighFreq }
        rfl (by decide) (by decide)
    exact ⟨freq, idle, h, hidle 0 (by decide) (by decide), hf, hi⟩

/-- A pass that fills a `ModelInput` copies into it the two arrays
`GetRecentCpuFeatures` returned. -/
theorem readModelInput_cpu_features (s s1 : AdaptiveCpu) (env : LoopEnv)
    (modelInput : ModelInput) (h : s.readModelInput env = .ok (s1, modelInput)) :
    env.recentCpuFeatures =
      some (modelInput.cpuPolicyAverageFrequencyHz, modelInput.cpuCoreIdleTimesPercentage) := by
  unfold AdaptiveCpu.readModelInput at h
  dsimp only at h
  split_ifs at h
  split at h
  · cases h
  · rename_i cpuFeatures hsome
    injection h with h
    injection h with h1 h2
    subst h2
    rw [hsome]

/-- The read of the sample `sampleStatsIdleAhead` at 200 ns after the sample
`sampleStatsHighFreq` read at 100 ns. -/
theorem getRecentCpuFeatures_idle_ahead :
    (KernelCpuFeatureReader.GetRecentCpuFeatures
        { mPreviousStats := sampleStatsHighFreq, mPreviousReadTime := 100 }
        { kernelTime := 200, resetFileStream := true, records := sampleStatsIdleAhead }).1 =
      some ([0, 0, 0], [2, 0, 0, 0, 0, 0, 0, 0]) := by
  rw [getRecentCpuFeatures_ok _ _ rfl (by decide)]
  simp only [List.map, List.range, List.range.loop, statsAt, sampleStatsHighFreq,
    sampleStatsIdleAhead, CPU_POLICY_INDICES, NUM_CPU_CORES, List.take, clampedDelta_eq,
    List.getD_cons_zero, List.getD_cons_succ]
  norm_num

/-- C22, as the code has it.  When a loop pass fills a `ModelInput` from a
call of `GetRecentCpuFeatures` that reads a full sample at a kernel time later
than the previous read, the input holds eight idle fractions; the fraction of
core `c` is the clamped increment of its `total_idle_time_ns` divided by the
time between the reads; it is `≥ 0`, and it is `≤ 1` exactly when the
increment does not exceed the time between the reads.  No cap at 1 is
applied. -/
theorem idle_fraction_bounds (s s1 : AdaptiveCpu) (env : LoopEnv) (modelInput : ModelInput)
    (r : KernelCpuFeatureReader) (read : StatsRead)
    (hstage : s.readModelInput env = .ok (s1, modelInput))
    (henv : env.recentCpuFeatures = (r.GetRecentCpuFeatures read).1)
    (hreset : read.resetFileStream = true) (hlen : NUM_CPU_CORES ≤ read.records.length)
    (ht : r.mPreviousReadTime < read.kernelTime) :
    modelInput.cpuCoreIdleTimesPercentage.length = NUM_CPU_CORES ∧
    ∀ c : Nat, c < NUM_CPU_CORES →
      ∃ v : Rat, modelInput.cpuCoreIdleTimesPercentage[c]? = some v ∧
        v = (clampedDelta (statsAt read.records c).total_idle_time_ns
              (statsAt r.mPreviousStats c).total_idle_time_ns : Rat) /
            ((read.kernelTime - r.mPreviousReadTime : Int) : Rat) ∧
        0 ≤ v ∧
        (v ≤ 1 ↔
          (clampedDelta (statsAt read.records c).total_idle_time_ns
              (statsAt r.mPreviousStats c).total_idle_time_ns : Int) ≤
            read.kernelTime - r.mPreviousReadTime) := by
  have hpos : (0 : Int) < read.kernelTime - r.mPreviousReadTime := sub_pos.2 ht
  have hposq : (0 : Rat) < ((read.kernelTime - r.mPreviousReadTime : Int) : Rat) := by
    exact_mod_cast hpos
  have hcopy := readModelInput_cpu_features s s1 env modelInput hstage
  rw [henv, getRecentCpuFeatures_ok r read hreset hlen] at hcopy
  injection hcopy with hcopy
  injection hcopy with hfreq hidle
  rw [← hidle]
  refine ⟨by simp, ?_⟩
  intro c hc
  refine ⟨_, ?_, rfl, clamped_quotient_nonneg _ _ _ hpos, ?_⟩
  · rw [List.getElem?_map, List.getElem?_range hc, Option.map_some', statsAt_take _ _ hc]
  · rw [div_le_one hposq]
    exact_mod_cast Iff.rfl

/-- The law of C22 at the samples `sampleStatsHighFreq` (read at 100 ns) and
`sampleStatsIdleAhead` (read at 200 ns). -/
theorem idle_fraction_bounds_witness :
    (sampleController .NO_THROTTLE 0).readModelInput sampleEnvIdleAhead =
      .ok ({ sampleController .NO_THROTTLE 0 with
              mWorkDurationProcessor := { mWorkDurationBatches := [] } },
           sampleModelInputIdleAhead) ∧
    sampleModelInputIdleAhead.cpuCoreIdleTimesPercentage.length = NUM_CPU_CORES ∧
    ∀ c : Nat, c < NUM_CPU_CORES →
      ∃ v : Rat, sampleModelInputIdleAhead.cpuCoreIdleTimesPercentage[c]? = some v ∧
        v = (clampedDelta (statsAt sampleStatsIdleAhead c).total_idle_time_ns
              (statsAt sampleStatsHighFreq c).total_idle_time_ns : Rat) /
            (((200 : Int) - 100 : Int) : Rat) ∧
        0 ≤ v ∧
        (v ≤ 1 ↔
          (clampedDelta (statsAt sampleStatsIdleAhead c).total_idle_time_ns
              (statsAt sampleStatsHighFreq c).total_idle_time_ns : Int) ≤ (200 : Int) - 100) :=
  ⟨rfl,
   idle_fraction_bounds (sampleController .NO_THROTTLE 0)
     { sampleController .NO_THROTTLE 0 with
       mWorkDurationProcessor := { mWorkDurationBatches := [] } }
     sampleEnvIdleAhead sampleModelInputIdleAhead
     { mPreviousStats := sampleStatsHighFreq, mPreviousReadTime := 100 }
     { kernelTime := 200, resetFileStream := true, records := sampleStatsIdleAhead }
     rfl getRecentCpuFeatures_idle_ahead.symm rfl (by decide) (by decide)⟩

/-- C22 fails.  Let the previous read, at 100 ns, have found a
`total_idle_time_ns` of 100 for core 0, and let the read at 200 ns find 300
(the counter is read after the clock, so it can have advanced by more than the
time between the two clock readings).  `GetRecentCpuFeatures` returns the idle
fraction 2 for core 0, and the loop pass stores a `ModelInput` with that value
in the history handed to the model. -/
theorem idle_fraction_exceeds_one :
    (KernelCpuFeatureReader.GetRecentCpuFeatures
        { mPreviousStats := sampleStatsHighFreq, mPreviousReadTime := 100 }
        { kernelTime := 200, resetFileStream := true, records := sampleStatsIdleAhead }).1 =
      sampleEnvIdleAhead.recentCpuFeatures ∧
    ((sampleController .NO_THROTTLE 0).RunMainLoopIteration
        sampleEnvIdleAhead).state.historicalModelInputs.map
        (fun modelInput => modelInput.cpuCoreIdleTimesPercentage) =
      [[2, 0, 0, 0, 0, 0, 0, 0]] ∧
    ¬ ((2 : Rat) ≤ 1) :=
  ⟨getRecentCpuFeatures_idle_ahead, by decide, by norm_num⟩

/-! ## Properties of `SetCpuFreqiencies` -/

/-- Below `2 ^ 31` the conversion to `int32_t` keeps the value. -/
theorem toInt32_of_lt (n : Nat) (h : n < 2 ^ 31) : toInt32 n = (n : Int) := by
  unfold toInt32
  have h32 : n % 2 ^ 32 = n := Nat.mod_eq_of_lt (by omega)
  rw [h32, if_pos h]

/-- A `uint32_t` value whose conversion to `int32_t` is not negative is below
`2 ^ 31`. -/
theorem lt_of_toInt32_nonneg (n : Nat) (hn : n < 2 ^ 32) (h : 0 ≤ toInt32 n) : n < 2 ^ 31 := by
  unfold toInt32 at h
  have h32 : n % 2 ^ 32 = n := Nat.mod_eq_of_lt hn
  rw [h32] at h
  split_ifs at h with hlt
  · exact hlt
  · omega

/-- When the loop of `SetCpuFreqiencies` runs to its end, the policy ids it
visited increase strictly, exceed the id it started from, and are below
`2 ^ 31`. -/
theorem setCpuFreqienciesLoop_true (frequencies : List CpuPolicyAverageFrequency) :
    ∀ (previousPolicyId : Int) (i : Nat) (hz : List Rat), -1 ≤ previousPolicyId →
      (∀ f ∈ frequencies, f.policyId < 2 ^ 32) →
      (setCpuFreqienciesLoop previousPolicyId i frequencies hz).1 = true →
      (frequencies.map (fun f => f.policyId)).Pairwise (fun a b => a < b) ∧
      ∀ f ∈ frequencies, previousPolicyId < (f.policyId : Int) ∧ f.policyId < 2 ^ 31 := by
  induction frequencies with
  | nil => intro _ _ _ _ _ _; simp
  | cons frequency rest ih =>
    intro previousPolicyId i hz hprev hids hrun
    unfold setCpuFreqienciesLoop at hrun
    split_ifs at hrun with hge
    have hlt : previousPolicyId < toInt32 frequency.policyId := not_le.1 hge
    have hsmall : frequency.policyId < 2 ^ 31 :=
      lt_of_toInt32_nonneg _ (hids frequency (List.mem_cons_self _ _)) (by omega)
    rw [toInt32_of_lt _ hsmall] at hlt hrun
    obtain ⟨hpair, hall⟩ := ih (frequency.policyId : Int) (i + 1) _ (by omega)
      (fun f hf => hids f (List.mem_cons_of_mem _ hf)) hrun
    refine ⟨?_, ?_⟩
    · rw [List.map_cons, List.pairwise_cons]
      refine ⟨?_, hpair⟩
      intro b hb
      obtain ⟨f, hf, rfl⟩ := List.mem_map.1 hb
      exact_mod_cast (hall f hf).1
    · intro f hf
      rcases List.mem_cons.1 hf with rfl | hf
      · exact ⟨hlt, hsmall⟩
      · exact ⟨lt_trans hlt (hall f hf).1, (hall f hf).2⟩

/-- C23 (policy-order invariant).  `SetCpuFreqiencies` returns false for every
list of entries with 32-bit unsigned policy ids whose length is not
`NUM_CPU_POLICIES` and for every such list whose policy ids are not strictly
increasing. -/
theorem setCpuFreqiencies_rejects (m : ModelInput)
    (frequencies : List CpuPolicyAverageFrequency)
    (hids : ∀ f ∈ frequencies, f.policyId < 2 ^ 32)
    (hbad : frequencies.length ≠ NUM_CPU_POLICIES ∨
      ¬ (frequencies.map (fun f => f.policyId)).Pairwise (fun a b => a < b)) :
    (m.SetCpuFreqiencies frequencies).1 = false := by
  unfold ModelInput.SetCpuFreqiencies
  split_ifs with hlen
  · rfl
  · rcases hbad with hbad | hbad
    · exact absurd hbad hlen
    · dsimp only
      by_contra hrun
      rw [Bool.not_eq_false] at hrun
      exact hbad (setCpuFreqienciesLoop_true frequencies (-1) 0 _ (le_refl _) hids hrun).1

/-- The law of C23 at the out-of-order list of the repository test (policy ids
0, 6, 4) and at a list of two entries. -/
theorem setCpuFreqiencies_rejects_witness :
    (sampleModelInputIdleAhead.SetCpuFreqiencies sampleOutOfOrderFrequencies).1 = false ∧
    (sampleModelInputIdleAhead.SetCpuFreqiencies [⟨0, 100⟩, ⟨4, 101⟩]).1 = false :=
  ⟨setCpuFreqiencies_rejects _ _ (by decide) (Or.inr (by decide)),
   setCpuFreqiencies_rejects _ _ (by decide) (Or.inl (by decide))⟩

/-- For three entries whose policy ids increase strictly and are below
`2 ^ 31`, `SetCpuFreqiencies` returns true and stores the three frequencies, in
order, leaving the other fields as they were. -/
theorem setCpuFreqiencies_ok (m : ModelInput) (a b c : CpuPolicyAverageFrequency)
    (hlen : m.cpuPolicyAverageFrequencyHz.length = NUM_CPU_POLICIES)
    (hab : a.policyId < b.policyId) (hbc : b.policyId < c.policyId)
    (hc : c.policyId < 2 ^ 31) :
    m.SetCpuFreqiencies [a, b, c] =
      (true, { m with
        cpuPolicyAverageFrequencyHz :=
          [(a.averageFrequencyHz : Rat), (b.averageFrequencyHz : Rat),
           (c.averageFrequencyHz : Rat)] }) := by
  obtain ⟨x, y, z, hxyz⟩ := List.length_eq_three.1 hlen
  have ha : a.policyId < 2 ^ 31 := by omega
  have hb : b.policyId < 2 ^ 31 := by omega
  have h1 : ¬ ((-1 : Int) ≥ (a.policyId : Int)) := by omega
  have h2 : ¬ ((a.policyId : Int) ≥ (b.policyId : Int)) := by omega
  have h3 : ¬ ((b.policyId : Int) ≥ (c.policyId : Int)) := by omega
  unfold ModelInput.SetCpuFreqiencies
  rw [if_neg (by simp [NUM_CPU_POLICIES])]
  simp only [setCpuFreqienciesLoop, toInt32_of_lt _ ha, toInt32_of_lt _ hb, toInt32_of_lt _ hc,
    if_neg h1, if_neg h2, if_neg h3, hxyz, List.set_cons_zero, List.set_cons_succ]

/-- C24 fails for a policy id from `2 ^ 31` on.  The policy ids 0, 1, `2 ^ 31`
are 32-bit unsigned values that increase strictly, yet `SetCpuFreqiencies`
returns false for the three entries: the last id is compared after conversion
to `int32_t`, where it is negative.  The first two frequencies have been
stored by then.  The list of the repository test (ids 0, 4, 6) is accepted. -/
theorem setCpuFreqiencies_rejects_large_policy_id :
    sampleLargePolicyId.length = 3 ∧
    (sampleLargePolicyId.map (fun f => f.policyId)).Pairwise (fun a b => a < b) ∧
    (∀ f ∈ sampleLargePolicyId, f.policyId < 2 ^ 32) ∧
    toInt32 2147483648 = -2147483648 ∧
    (sampleModelInputIdleAhead.SetCpuFreqiencies sampleLargePolicyId).1 = false ∧
    (sampleModelInputIdleAhead.SetCpuFreqiencies sampleLargePolicyId).2.cpuPolicyAverageFrequencyHz =
      [100, 101, 0] ∧
    sampleModelInputIdleAhead.SetCpuFreqiencies sampleFrequencies =
      (true, { sampleModelInputIdleAhead with cpuPolicyAverageFrequencyHz := [100, 101, 102] }) := by
  refine ⟨rfl, by decide, by decide, by decide, by decide, by decide, by decide⟩

/-! ## Properties of `Model::Run` -/

/-- For a non-empty vector the upper bound of the option distribution is at
most the last index. -/
theorem optionUpperBound_lt (size : Nat) (h : 0 < size) : optionUpperBound size < size := by
  unfold optionUpperBound wrapUInt32
  omega

/-- For a non-empty vector of at most `2 ^ 32` elements the upper bound of the
option distribution is the last index. -/
theorem optionUpperBound_eq (size : Nat) (h : 0 < size) (hsize : size ≤ 2 ^ 32) :
    optionUpperBound size = size - 1 := by
  unfold optionUpperBound wrapUInt32
  omega

/-- C25 (`Model::Run`).  Let the real draw `u` be in `[0, 1)`, let the integer
draw be within the bounds of its distribution, and let the configured options
be non-empty, at most `2 ^ 32` of them.  The upper bound of the integer
distribution is the last index `len - 1`.  If the probability is positive and
`u` is below it, the integer draw `j` is at most `len - 1` and the result is
the option at `j`, hence an element of the options; with a probability of 1 or
more this is always the case; and every option is the result for some draw:
when the integer draw is `j`, for any `j` below `len`, the result is the option
at `j`.  Otherwise, and whenever the probability is 0, the result is
`RunDecisionTree(history)`, whatever the draws and the configuration. -/
theorem model_run_law (RunDecisionTree : DecisionTree) (draws : ModelDraws)
    (history : List ModelInput) (config : AdaptiveCpuConfig)
    (hu : 0 ≤ draws.shouldRandomThrottle ∧ draws.shouldRandomThrottle < 1)
    (hdraw : ∀ b, draws.option b ≤ b)
    (hne : config.randomThrottleOptions ≠ [])
    (hsize : config.randomThrottleOptions.length ≤ 2 ^ 32) :
    optionUpperBound config.randomThrottleOptions.length =
      config.randomThrottleOptions.length - 1 ∧
    (0 < config.randomThrottleDecisionProbability ∧
        draws.shouldRandomThrottle < config.randomThrottleDecisionProbability →
      draws.option (config.randomThrottleOptions.length - 1) ≤
        config.randomThrottleOptions.length - 1 ∧
      Model.Run RunDecisionTree draws history config =
        config.randomThrottleOptions[
          draws.option (config.randomThrottleOptions.length - 1)]? ∧
      ∃ d ∈ config.randomThrottleOptions,
        Model.Run RunDecisionTree draws history config = some d) ∧
    (1 ≤ config.randomThrottleDecisionProbability →
      Model.Run RunDecisionTree draws history config =
        config.randomThrottleOptions[
          draws.option (config.randomThrottleOptions.length - 1)]? ∧
      ∃ d ∈ config.randomThrottleOptions,
        Model.Run RunDecisionTree draws history config = some d) ∧
    (∀ j : Nat, j < config.randomThrottleOptions.length →
      0 < config.randomThrottleDecisionProbability →
      draws.shouldRandomThrottle < config.randomThrottleDecisionProbability →
      Model.Run RunDecisionTree
          { shouldRandomThrottle := draws.shouldRandomThrottle, option := fun b => min j b }
          history config =
        config.randomThrottleOptions[j]?) ∧
    (¬ (0 < config.randomThrottleDecisionProbability ∧
        draws.shouldRandomThrottle < config.randomThrottleDecisionProbability) →
      Model.Run RunDecisionTree draws history config = some (RunDecisionTree history)) ∧
    (config.randomThrottleDecisionProbability = 0 →
      Model.Run RunDecisionTree draws history config = some (RunDecisionTree history)) := by
  have hpos : 0 < config.randomThrottleOptions.length := List.length_pos.2 hne
  have hbound := optionUpperBound_eq _ hpos hsize
  have hidx : draws.option (config.randomThrottleOptions.length - 1) <
      config.randomThrottleOptions.length :=
    lt_of_le_of_lt (hdraw _) (by omega)
  have hrandom : 0 < config.randomThrottleDecisionProbability ∧
      draws.shouldRandomThrottle < config.randomThrottleDecisionProbability →
      Model.Run RunDecisionTree draws history config =
        config.randomThrottleOptions[
          draws.option (config.randomThrottleOptions.length - 1)]? := by
    intro h
    unfold Model.Run
    rw [if_pos h, hbound]
  have hmem : 0 < config.randomThrottleDecisionProbability ∧
      draws.shouldRandomThrottle < config.randomThrottleDecisionProbability →
      ∃ d ∈ config.randomThrottleOptions,
        Model.Run RunDecisionTree draws history config = some d := by
    intro h
    refine ⟨config.randomThrottleOptions.get ⟨_, hidx⟩, List.get_mem _ _ _, ?_⟩
    rw [hrandom h, List.getElem?_eq_getElem hidx]
    rfl
  have htree : ¬ (0 < config.randomThrottleDecisionProbability ∧
      draws.shouldRandomThrottle < config.randomThrottleDecisionProbability) →
      Model.Run RunDecisionTree draws history config = some (RunDecisionTree history) := by
    intro h
    unfold Model.Run
    rw [if_neg h]
  refine ⟨hbound, fun h => ⟨hdraw _, hrandom h, hmem h⟩, ?_, ?_, htree, ?_⟩
  · intro hone
    have h : 0 < config.randomThrottleDecisionProbability ∧
        draws.shouldRandomThrottle < config.randomThrottleDecisionProbability :=
      ⟨lt_of_lt_of_le one_pos hone, lt_of_lt_of_le hu.2 hone⟩
    exact ⟨hrandom h, hmem h⟩
  · intro j hj hp hlt
    unfold Model.Run
    dsimp only
    rw [if_pos ⟨hp, hlt⟩, hbound, Nat.min_eq_left (by omega)]
  · intro hzero
    apply htree
    rintro ⟨hpos, -⟩
    rw [hzero] at hpos
    exact lt_irrefl _ hpos

/-- The law of C25 at the configuration of the repository test
`Run_randomThrottling` (probability 1, options THROTTLE_70 and THROTTLE_80):
the upper bound of the integer distribution is 1, the integer draw 1 gives
THROTTLE_80 and the integer draw 0 gives THROTTLE_70, so that both options
occur; and at the default configuration (probability 0), where the result is
the decision of the tree. -/
theorem model_run_law_witness :
    optionUpperBound sampleRandomConfig.randomThrottleOptions.length = 1 ∧
    Model.Run (fun _ => .NO_THROTTLE) sampleDraws [sampleModelInputIdleAhead]
      sampleRandomConfig = some .THROTTLE_80 ∧
    Model.Run (fun _ => .NO_THROTTLE) { shouldRandomThrottle := 0, option := fun _ => 0 }
      [sampleModelInputIdleAhead] sampleRandomConfig = some .THROTTLE_70 ∧
    Model.Run (fun _ => .THROTTLE_60) sampleDraws [sampleModelInputIdleAhead]
      AdaptiveCpuConfig.DEFAULT = some .THROTTLE_60 :=
  ⟨(model_run_law (fun _ => .NO_THROTTLE) sampleDraws [sampleModelInputIdleAhead]
      sampleRandomConfig ⟨le_refl _, by norm_num [sampleDraws]⟩ (fun b => le_refl b)
      (by decide) (by decide)).1,
   ((model_run_law (fun _ => .NO_THROTTLE) sampleDraws [sampleModelInputIdleAhead]
      sampleRandomConfig ⟨le_refl _, by norm_num [sampleDraws]⟩ (fun b => le_refl b)
      (by decide) (by decide)).2.2.1 (le_refl _)).1,
   ((model_run_law (fun _ => .NO_THROTTLE) { shouldRandomThrottle := 0, option := fun _ => 0 }
      [sampleModelInputIdleAhead] sampleRandomConfig ⟨le_refl _, by norm_num⟩
      (fun b => Nat.zero_le b) (by decide) (by decide)).2.2.1 (le_refl _)).1,
   (model_run_law (fun _ => .THROTTLE_60) sampleDraws [sampleModelInputIdleAhead]
      AdaptiveCpuConfig.DEFAULT ⟨le_refl _, by norm_num [sampleDraws]⟩ (fun b => le_refl b)
      (by decide) (by decide)).2.2.2.2.2 rfl⟩

/-! ## Properties of the statistics -/

/-- Distinct decisions have distinct enumerator values. -/
theorem ThrottleDecision.toNat_injective (a b : ThrottleDecision) (h : a.toNat = b.toNat) :
    a = b := by
  cases a <;> cases b <;> first | rfl | cases h

/-- A key below all keys of a map is missing from it. -/
theorem mapFind_of_lt {α : Type} (key : ThrottleDecision) (m : List (ThrottleDecision × α))
    (h : ∀ entry ∈ m, key.toNat < entry.1.toNat) : mapFind key m = none := by
  induction m with
  | nil => rfl
  | cons entry rest ih =>
    obtain ⟨k, v⟩ := entry
    have hk : key ≠ k := by
      intro hkey
      have := h (k, v) (List.mem_cons_self _ _)
      rw [hkey] at this
      exact lt_irrefl _ this
    unfold mapFind
    rw [if_neg hk]
    exact ih (fun entry hmem => h entry (List.mem_cons_of_mem _ hmem))

/-- The statement `map[key] op= ...` leaves the entries of the other keys as
they were. -/
theorem mapFind_mapModify_ne {α : Type} (f : α → α) (dflt : α) (key other : ThrottleDecision)
    (m : List (ThrottleDecision × α)) (h : other ≠ key) :
    mapFind other (mapModify f dflt key m) = mapFind other m := by
  induction m with
  | nil =>
    unfold mapModify mapFind
    rw [if_neg h]
    rfl
  | cons entry rest ih =>
    obtain ⟨k, v⟩ := entry
    unfold mapModify
    split_ifs with hk hlt
    · subst hk
      unfold mapFind
      rw [if_neg h, if_neg h]
    · rw [mapFind, if_neg h]
    · rw [mapFind, mapFind, ih]

/-- The statement `map[key] op= ...` applies the operation to the mapped
value, or to the value-initialised one when the key was missing. -/
theorem mapFind_mapModify_self {α : Type} (f : α → α) (dflt : α) (key : ThrottleDecision)
    (m : List (ThrottleDecision × α)) (hm : mapSorted m) :
    mapFind key (mapModify f dflt key m) = some (f ((mapFind key m).getD dflt)) := by
  induction m with
  | nil =>
    unfold mapModify mapFind
    rw [if_pos rfl]
    rfl
  | cons entry rest ih =>
    obtain ⟨k, v⟩ := entry
    unfold mapSorted at hm
    rw [List.map_cons, List.pairwise_cons] at hm
    unfold mapModify
    split_ifs with hk hlt
    · subst hk
      rw [mapFind, if_pos rfl, mapFind, if_pos rfl]
      rfl
    · have hnone : mapFind key ((k, v) :: rest) = none := by
        apply mapFind_of_lt
        intro entry hmem
        rcases List.mem_cons.1 hmem with rfl | hmem
        · exact hlt
        · exact lt_trans hlt (hm.1 _ (List.mem_map.2 ⟨entry, hmem, rfl⟩))
      rw [mapFind, if_pos rfl, hnone]
      rfl
    · rw [mapFind, if_neg hk, ih hm.2, mapFind, if_neg hk]

/-- The keys after `map[key] op= ...` are `key` and the keys before. -/
theorem mem_mapModify {α : Type} (f : α → α) (dflt : α) (key : ThrottleDecision)
    (m : List (ThrottleDecision × α)) (entry : ThrottleDecision × α)
    (h : entry ∈ mapModify f dflt key m) :
    entry.1 = key ∨ ∃ old ∈ m, old.1 = entry.1 := by
  induction m with
  | nil =>
    unfold mapModify at h
    rw [List.mem_singleton] at h
    subst h
    exact Or.inl rfl
  | cons head rest ih =>
    obtain ⟨k, v⟩ := head
    unfold mapModify at h
    split_ifs at h with hk hlt
    · rcases List.mem_cons.1 h with rfl | h
      · exact Or.inl hk.symm
      · exact Or.inr ⟨entry, List.mem_cons_of_mem _ h, rfl⟩
    · rcases List.mem_cons.1 h with rfl | h
      · exact Or.inl rfl
      · exact Or.inr ⟨entry, h, rfl⟩
    · rcases List.mem_cons.1 h with rfl | h
      · exact Or.inr ⟨(k, v), List.mem_cons_self _ _, rfl⟩
      · rcases ih h with hkey | ⟨old, hold, hsame⟩
        · exact Or.inl hkey
        · exact Or.inr ⟨old, List.mem_cons_of_mem _ hold, hsame⟩

/-- The statement `map[key] op= ...` keeps the keys in increasing order. -/
theorem mapSorted_mapModify {α : Type} (f : α → α) (dflt : α) (key : ThrottleDecision)
    (m : List (ThrottleDecision × α)) (hm : mapSorted m) :
    mapSorted (mapModify f dflt key m) := by
  induction m with
  | nil =>
    unfold mapModify mapSorted
    simp
  | cons head rest ih =>
    obtain ⟨k, v⟩ := head
    have hm0 := hm
    unfold mapSorted at hm
    rw [List.map_cons, List.pairwise_cons] at hm
    unfold mapModify
    split_ifs with hk hlt
    · unfold mapSorted
      rw [List.map_cons, List.pairwise_cons]
      exact hm
    · unfold mapSorted
      rw [List.map_cons, List.pairwise_cons]
      refine ⟨?_, hm0⟩
      intro b hb
      obtain ⟨entry, hmem, rfl⟩ := List.mem_map.1 hb
      rcases List.mem_cons.1 hmem with rfl | hmem
      · exact hlt
      · exact lt_trans hlt (hm.1 _ (List.mem_map.2 ⟨entry, hmem, rfl⟩))
    · have hgt : k.toNat < key.toNat := by
        rcases Nat.lt_trichotomy key.toNat k.toNat with h | h | h
        · exact absurd h hlt
        · exact absurd (ThrottleDecision.toNat_injective _ _ h) hk
        · exact h
      unfold mapSorted
      rw [List.map_cons, List.pairwise_cons]
      refine ⟨?_, ih hm.2⟩
      intro b hb
      obtain ⟨entry, hmem, rfl⟩ := List.mem_map.1 hb
      rcases mem_mapModify f dflt key rest entry hmem with hkey | ⟨old, hold, hsame⟩
      · rw [hkey]
        exact hgt
      · rw [← hsame]
        exact hm.1 _ (List.mem_map.2 ⟨old, hold, rfl⟩)

/-- What `RegisterStartRun` changes: the count of started runs and the time of
the last start (and the time of the first start, while that is zero). -/
theorem registerStartRun_fields (st : AdaptiveCpuStats) (now : Int) :
    (st.RegisterStartRun now).mNumStartedRuns = st.mNumStartedRuns + 1 ∧
    (st.RegisterStartRun now).mLastRunStartTime = now ∧
    (st.RegisterStartRun now).mNumSuccessfulRuns = st.mNumSuccessfulRuns ∧
    (st.RegisterStartRun now).mLastRunSuccessTime = st.mLastRunSuccessTime ∧
    (st.RegisterStartRun now).mTotalRunDuration = st.mTotalRunDuration ∧
    (st.RegisterStartRun now).mNumThrottles = st.mNumThrottles ∧
    (st.RegisterStartRun now).mThrottleDurations = st.mThrottleDurations ∧
    (st.RegisterStartRun now).mNumDurations = st.mNumDurations ∧
    (st.RegisterStartRun now).mNumMissedDeadlines = st.mNumMissedDeadlines := by
  unfold AdaptiveCpuStats.RegisterStartRun
  dsimp only
  split_ifs <;> simp

/-- What `RegisterSuccessfulRun` does to the members that do not depend on
whether a run has succeeded before. -/
theorem registerSuccessfulRun_fields (st : AdaptiveCpuStats)
    (previous current : ThrottleDecision) (work : WorkDurationFeatures)
    (config : AdaptiveCpuConfig) (now : Int) :
    (st.RegisterSuccessfulRun previous current work config now).mNumStartedRuns =
      st.mNumStartedRuns ∧
    (st.RegisterSuccessfulRun previous current work config now).mLastRunStartTime =
      st.mLastRunStartTime ∧
    (st.RegisterSuccessfulRun previous current work config now).mNumSuccessfulRuns =
      st.mNumSuccessfulRuns + 1 ∧
    (st.RegisterSuccessfulRun previous current work config now).mLastRunSuccessTime = now ∧
    (st.RegisterSuccessfulRun previous current work config now).mTotalRunDuration =
      st.mTotalRunDuration + (now - st.mLastRunStartTime) ∧
    (st.RegisterSuccessfulRun previous current work config now).mNumThrottles =
      mapModify (fun n => n + 1) 0 current st.mNumThrottles := by
  unfold AdaptiveCpuStats.RegisterSuccessfulRun
  dsimp only
  split_ifs <;> simp

/-- The first `RegisterSuccessfulRun`, recognised by a zero time of the last
success, leaves the three maps keyed by the previous decision as they were. -/
theorem registerSuccessfulRun_first (st : AdaptiveCpuStats)
    (previous current : ThrottleDecision) (work : WorkDurationFeatures)
    (config : AdaptiveCpuConfig) (now : Int) (h : st.mLastRunSuccessTime = 0) :
    (st.RegisterSuccessfulRun previous current work config now).mThrottleDurations =
      st.mThrottleDurations ∧
    (st.RegisterSuccessfulRun previous current work config now).mNumDurations =
      st.mNumDurations ∧
    (st.RegisterSuccessfulRun previous current work config now).mNumMissedDeadlines =
      st.mNumMissedDeadlines := by
  unfold AdaptiveCpuStats.RegisterSuccessfulRun
  dsimp only
  rw [if_neg (by simp [h])]
  simp

/-- A later `RegisterSuccessfulRun`, recognised by a non-zero time of the last
success, updates the entry of the previous decision in the three maps. -/
theorem registerSuccessfulRun_later (st : AdaptiveCpuStats)
    (previous current : ThrottleDecision) (work : WorkDurationFeatures)
    (config : AdaptiveCpuConfig) (now : Int) (h : st.mLastRunSuccessTime ≠ 0) :
    (st.RegisterSuccessfulRun previous current work config now).mThrottleDurations =
      mapModify (fun d => d + min (now - st.mLastRunSuccessTime) (msToNs config.hintTimeout))
        0 previous st.mThrottleDurations ∧
    (st.RegisterSuccessfulRun previous current work config now).mNumDurations =
      mapModify (fun n => n + work.numDurations) 0 previous st.mNumDurations ∧
    (st.RegisterSuccessfulRun previous current work config now).mNumMissedDeadlines =
      mapModify (fun n => n + work.numMissedDeadlines) 0 previous st.mNumMissedDeadlines := by
  unfold AdaptiveCpuStats.RegisterSuccessfulRun
  dsimp only
  rw [if_pos h]
  simp

/-- The maps of a constructed object are empty, hence ordered. -/
theorem wellFormed_constructed (startTime lastRunStartTime lastRunSuccessTime total : Int) :
    (AdaptiveCpuStats.constructed startTime lastRunStartTime lastRunSuccessTime
      total).WellFormed := by
  unfold AdaptiveCpuStats.WellFormed AdaptiveCpuStats.constructed mapSorted
  simp

/-- A call keeps the maps ordered. -/
theorem wellFormed_call (st : AdaptiveCpuStats) (c : StatsCall) (h : st.WellFormed) :
    (st.call c).WellFormed := by
  obtain ⟨h1, h2, h3, h4⟩ := h
  cases c with
  | RegisterStartRun now =>
    obtain ⟨-, -, -, -, -, e1, e2, e3, e4⟩ := registerStartRun_fields st now
    unfold AdaptiveCpuStats.WellFormed AdaptiveCpuStats.call
    rw [e1, e2, e3, e4]
    exact ⟨h1, h2, h3, h4⟩
  | RegisterSuccessfulRun previous current work config now =>
    obtain ⟨-, -, -, -, -, e1⟩ := registerSuccessfulRun_fields st previous current work config now
    unfold AdaptiveCpuStats.WellFormed AdaptiveCpuStats.call
    rw [e1]
    by_cases hfirst : st.mLastRunSuccessTime = 0
    · obtain ⟨e2, e3, e4⟩ :=
        registerSuccessfulRun_first st previous current work config now hfirst
      rw [e2, e3, e4]
      exact ⟨mapSorted_mapModify _ _ _ _ h1, h2, h3, h4⟩
    · obtain ⟨e2, e3, e4⟩ :=
        registerSuccessfulRun_later st previous current work config now hfirst
      rw [e2, e3, e4]
      exact ⟨mapSorted_mapModify _ _ _ _ h1, mapSorted_mapModify _ _ _ _ h2,
        mapSorted_mapModify _ _ _ _ h3, mapSorted_mapModify _ _ _ _ h4⟩

/-- A sequence of calls keeps the maps ordered. -/
theorem wellFormed_callAll (calls : List StatsCall) :
    ∀ st : AdaptiveCpuStats, st.WellFormed → (st.callAll calls).WellFormed := by
  induction calls with
  | nil => intro st h; exact h
  | cons c rest ih => intro st h; exact ih _ (wellFormed_call st c h)

/-- After a sequence of calls the time of the last success is the clock
reading of the last `RegisterSuccessfulRun` among them, if there is one. -/
theorem lastRunSuccessTime_callAll (calls : List StatsCall) :
    ∀ st : AdaptiveCpuStats,
      (st.callAll calls).mLastRunSuccessTime =
        (successTimes calls).getLast?.getD st.mLastRunSuccessTime := by
  induction calls with
  | nil => intro st; rfl
  | cons c rest ih =>
    intro st
    cases c with
    | RegisterStartRun now =>
      rw [AdaptiveCpuStats.callAll, ih, AdaptiveCpuStats.call, successTimes,
        (registerStartRun_fields st now).2.2.2.1]
    | RegisterSuccessfulRun previous current work config now =>
      rw [AdaptiveCpuStats.callAll, ih, AdaptiveCpuStats.call, successTimes,
        (registerSuccessfulRun_fields st previous current work config now).2.2.2.1]
      cases hrest : successTimes rest with
      | nil => rfl
      | cons t ts =>
        rw [List.getLast?_eq_getLast _ (List.cons_ne_nil t ts)]
        rfl

/-- After a sequence of calls the count of started runs has grown by the
number of `RegisterStartRun` calls, and the count of successful runs by the
number of `RegisterSuccessfulRun` calls. -/
theorem run_counts_callAll (calls : List StatsCall) :
    ∀ st : AdaptiveCpuStats,
      (st.callAll calls).mNumStartedRuns = st.mNumStartedRuns + startCount calls ∧
      (st.callAll calls).mNumSuccessfulRuns =
        st.mNumSuccessfulRuns + (successTimes calls).length := by
  induction calls with
  | nil => intro st; exact ⟨rfl, rfl⟩
  | cons c rest ih =>
    intro st
    cases c with
    | RegisterStartRun now =>
      obtain ⟨e1, -, e2, -⟩ := registerStartRun_fields st now
      rw [AdaptiveCpuStats.callAll, AdaptiveCpuStats.call, (ih _).1, (ih _).2, e1, e2,
        startCount, successTimes]
      exact ⟨by omega, rfl⟩
    | RegisterSuccessfulRun previous current work config now =>
      obtain ⟨e1, -, e2, -⟩ := registerSuccessfulRun_fields st previous current work config now
      rw [AdaptiveCpuStats.callAll, AdaptiveCpuStats.call, (ih _).1, (ih _).2, e1, e2,
        startCount, successTimes, List.length_cons]
      exact ⟨rfl, by omega⟩

/-- After a sequence of calls the total run duration has grown by the sum,
over the `RegisterSuccessfulRun` calls, of the time since the most recent
`RegisterStartRun`. -/
theorem totalRunDuration_callAll (calls : List StatsCall) :
    ∀ st : AdaptiveCpuStats,
      (st.callAll calls).mTotalRunDuration =
        st.mTotalRunDuration + (runDurations st.mLastRunStartTime calls).sum := by
  induction calls with
  | nil => intro st; simp [AdaptiveCpuStats.callAll, runDurations]
  | cons c rest ih =>
    intro st
    cases c with
    | RegisterStartRun now =>
      obtain ⟨-, e1, -, -, e2, -⟩ := registerStartRun_fields st now
      rw [AdaptiveCpuStats.callAll, AdaptiveCpuStats.call, ih, e1, e2, runDurations]
    | RegisterSuccessfulRun previous current work config now =>
      obtain ⟨-, e1, -, -, e2, -⟩ :=
        registerSuccessfulRun_fields st previous current work config now
      rw [AdaptiveCpuStats.callAll, AdaptiveCpuStats.call, ih, e1, e2, runDurations,
        List.sum_cons]
      ring

/-- After a sequence of calls the count of a decision has grown by the number
of `RegisterSuccessfulRun` calls whose current decision it is. -/
theorem numThrottles_callAll (decision : ThrottleDecision) (calls : List StatsCall) :
    ∀ st : AdaptiveCpuStats, st.WellFormed →
      (mapFind decision (st.callAll calls).mNumThrottles).getD 0 =
        (mapFind decision st.mNumThrottles).getD 0 + (successDecisions calls).count decision := by
  induction calls with
  | nil => intro st _; simp [AdaptiveCpuStats.callAll, successDecisions]
  | cons c rest ih =>
    intro st hst
    have hnext := wellFormed_call st c hst
    cases c with
    | RegisterStartRun now =>
      rw [AdaptiveCpuStats.callAll, ih _ hnext, AdaptiveCpuStats.call,
        (registerStartRun_fields st now).2.2.2.2.2.1, successDecisions]
    | RegisterSuccessfulRun previous current work config now =>
      rw [AdaptiveCpuStats.callAll, ih _ hnext, AdaptiveCpuStats.call,
        (registerSuccessfulRun_fields st previous current work config now).2.2.2.2.2,
        successDecisions]
      by_cases hd : decision = current
      · subst hd
        rw [mapFind_mapModify_self _ _ _ _ hst.1, List.count_cons_self, Option.getD_some]
        omega
      · rw [mapFind_mapModify_ne _ _ _ _ _ hd, List.count_cons_of_ne hd]

/-- The holding attribution when the indeterminate time of the last success
happens to be zero after construction.  Let `st` be the object after any
sequence of calls on such a constructed object, no `RegisterSuccessfulRun` of
which read the clock as 0, and let `RegisterSuccessfulRun(previous, current,
work, config)` be called next, reading the clock as `now`.  Afterwards the time
of the last success is `now`.  If the sequence holds no
`RegisterSuccessfulRun`, the three maps keyed by the previous decision are
unchanged.  Otherwise, with `last` the clock reading of the last
`RegisterSuccessfulRun` of the sequence, the entry of `previous` has grown by
`min(now - last, config.hintTimeout)` in the holding durations, by
`work.numDurations` in the work counts and by `work.numMissedDeadlines` in the
missed deadlines (a missing entry counting as 0), and the entries of all other
decisions are unchanged. -/
theorem holding_attribution_from_zero (calls : List StatsCall) (st : AdaptiveCpuStats)
    (startTime lastRunStartTime total : Int)
    (previous current : ThrottleDecision) (work : WorkDurationFeatures)
    (config : AdaptiveCpuConfig) (now : Int)
    (hst : st =
      (AdaptiveCpuStats.constructed startTime lastRunStartTime 0 total).callAll calls)
    (hclock : ∀ t ∈ successTimes calls, t ≠ 0) :
    (st.RegisterSuccessfulRun previous current work config now).mLastRunSuccessTime = now ∧
    (successTimes calls = [] →
      (st.RegisterSuccessfulRun previous current work config now).mThrottleDurations =
        st.mThrottleDurations ∧
      (st.RegisterSuccessfulRun previous current work config now).mNumDurations =
        st.mNumDurations ∧
      (st.RegisterSuccessfulRun previous current work config now).mNumMissedDeadlines =
        st.mNumMissedDeadlines) ∧
    (∀ last : Int, (successTimes calls).getLast? = some last →
      mapFind previous
          (st.RegisterSuccessfulRun previous current work config now).mThrottleDurations =
        some ((mapFind previous st.mThrottleDurations).getD 0 +
          min (now - last) (msToNs config.hintTimeout)) ∧
      mapFind previous
          (st.RegisterSuccessfulRun previous current work config now).mNumDurations =
        some ((mapFind previous st.mNumDurations).getD 0 + work.numDurations) ∧
      mapFind previous
          (st.RegisterSuccessfulRun previous current work config now).mNumMissedDeadlines =
        some ((mapFind previous st.mNumMissedDeadlines).getD 0 + work.numMissedDeadlines) ∧
      ∀ other : ThrottleDecision, other ≠ previous →
        mapFind other
            (st.RegisterSuccessfulRun previous current work config now).mThrottleDurations =
          mapFind other st.mThrottleDurations ∧
        mapFind other
            (st.RegisterSuccessfulRun previous current work config now).mNumDurations =
          mapFind other st.mNumDurations ∧
        mapFind other
            (st.RegisterSuccessfulRun previous current work config now).mNumMissedDeadlines =
          mapFind other st.mNumMissedDeadlines) := by
  have hwf : st.WellFormed := by
    rw [hst]
    exact wellFormed_callAll calls _ (wellFormed_constructed _ _ _ _)
  have hlast : st.mLastRunSuccessTime = (successTimes calls).getLast?.getD 0 := by
    rw [hst, lastRunSuccessTime_callAll]
    rfl
  refine ⟨(registerSuccessfulRun_fields st previous current work config now).2.2.2.1, ?_, ?_⟩
  · intro hnone
    apply registerSuccessfulRun_first
    rw [hlast, hnone]
    rfl
  · intro last hsome
    rw [hsome, Option.getD_some] at hlast
    have hne : st.mLastRunSuccessTime ≠ 0 := by
      rw [hlast]
      exact hclock last (List.mem_of_getLast?_eq_some hsome)
    obtain ⟨e1, e2, e3⟩ :=
      registerSuccessfulRun_later st previous current work config now hne
    rw [e1, e2, e3, hlast]
    refine ⟨mapFind_mapModify_self _ _ _ _ hwf.2.1, mapFind_mapModify_self _ _ _ _ hwf.2.2.1,
      mapFind_mapModify_self _ _ _ _ hwf.2.2.2, ?_⟩
    intro other hother
    exact ⟨mapFind_mapModify_ne _ _ _ _ _ hother, mapFind_mapModify_ne _ _ _ _ _ hother,
      mapFind_mapModify_ne _ _ _ _ _ hother⟩

/-- C26 fails.  The member `mLastRunSuccessTime` has no initialiser, and
`RegisterSuccessfulRun` recognises the first successful run by its being
`0ns`.  On a constructed object in which it holds 7, after `RegisterStartRun`
at 1000 ns the first `RegisterSuccessfulRun`, at 1100 ns with the previous
decision NO_THROTTLE, 100000 durations and 123 missed deadlines, records for
NO_THROTTLE the holding duration `min(1100 - 7, 2 s) = 1093` ns, 100000
durations and 123 missed deadlines.  The same happens whenever the member
holds another value than zero: the first call adds the work counts to the
entries of the previous decision.  Only when it holds zero does the first call
leave the three maps empty, as in the repository test `multipleRuns`, whose
second `RegisterSuccessfulRun` then records 1100 ns, 100 and 10 for
THROTTLE_60. -/
theorem first_success_reads_indeterminate_time :
    (((AdaptiveCpuStats.constructed 0 0 7 0).RegisterStartRun 1000).RegisterSuccessfulRun
        .NO_THROTTLE .THROTTLE_60 (workCounts 100000 123) AdaptiveCpuConfig.DEFAULT
        1100).mThrottleDurations = [(.NO_THROTTLE, 1093)] ∧
    (((AdaptiveCpuStats.constructed 0 0 7 0).RegisterStartRun 1000).RegisterSuccessfulRun
        .NO_THROTTLE .THROTTLE_60 (workCounts 100000 123) AdaptiveCpuConfig.DEFAULT
        1100).mNumDurations = [(.NO_THROTTLE, 100000)] ∧
    (((AdaptiveCpuStats.constructed 0 0 7 0).RegisterStartRun 1000).RegisterSuccessfulRun
        .NO_THROTTLE .THROTTLE_60 (workCounts 100000 123) AdaptiveCpuConfig.DEFAULT
        1100).mNumMissedDeadlines = [(.NO_THROTTLE, 123)] ∧
    (∀ (startTime lastRunStartTime lastRunSuccessTime total start now : Int)
        (previous current : ThrottleDecision) (work : WorkDurationFeatures)
        (config : AdaptiveCpuConfig),
      lastRunSuccessTime ≠ 0 →
      (((AdaptiveCpuStats.constructed startTime lastRunStartTime lastRunSuccessTime
          total).RegisterStartRun start).RegisterSuccessfulRun previous current work config
          now).mThrottleDurations =
        [(previous, min (now - lastRunSuccessTime) (msToNs config.hintTimeout))] ∧
      (((AdaptiveCpuStats.constructed startTime lastRunStartTime lastRunSuccessTime
          total).RegisterStartRun start).RegisterSuccessfulRun previous current work config
          now).mNumDurations = [(previous, work.numDurations)] ∧
      (((AdaptiveCpuStats.constructed startTime lastRunStartTime lastRunSuccessTime
          total).RegisterStartRun start).RegisterSuccessfulRun previous current work config
          now).mNumMissedDeadlines = [(previous, work.numMissedDeadlines)]) ∧
    (((AdaptiveCpuStats.constructed 0 0 0 0).RegisterStartRun 1000).RegisterSuccessfulRun
        .NO_THROTTLE .THROTTLE_60 (workCounts 100000 123) AdaptiveCpuConfig.DEFAULT
        1100).mNumDurations = [] ∧
    mapFind .THROTTLE_60
        (((AdaptiveCpuStats.constructed 0 0 0 0).callAll
          sampleStatsCallsHead).RegisterSuccessfulRun
          .THROTTLE_60 .THROTTLE_70 (workCounts 100 10) AdaptiveCpuConfig.DEFAULT
          2200).mThrottleDurations = some 1100 ∧
    mapFind .THROTTLE_60
        (((AdaptiveCpuStats.constructed 0 0 0 0).callAll
          sampleStatsCallsHead).RegisterSuccessfulRun
          .THROTTLE_60 .THROTTLE_70 (workCounts 100 10) AdaptiveCpuConfig.DEFAULT
          2200).mNumDurations = some 100 := by
  refine ⟨by decide, by decide, by decide, ?_, by decide, by decide, by decide⟩
  intro startTime lastRunStartTime lastRunSuccessTime total start now previous current work
    config hne
  have hkept : ((AdaptiveCpuStats.constructed startTime lastRunStartTime lastRunSuccessTime
      total).RegisterStartRun start).mLastRunSuccessTime = lastRunSuccessTime :=
    (registerStartRun_fields _ _).2.2.2.1
  obtain ⟨e1, e2, e3⟩ := registerSuccessfulRun_later
    ((AdaptiveCpuStats.constructed startTime lastRunStartTime lastRunSuccessTime
      total).RegisterStartRun start) previous current work config now (by rw [hkept]; exact hne)
  obtain ⟨-, -, -, -, -, -, f1, f2, f3⟩ := registerStartRun_fields
    (AdaptiveCpuStats.constructed startTime lastRunStartTime lastRunSuccessTime total) start
  rw [e1, e2, e3, f1, f2, f3, hkept]
  refine ⟨?_, ?_, ?_⟩
  · show mapModify _ 0 previous [] = _
    unfold mapModify
    rw [zero_add]
  · show mapModify _ 0 previous [] = _
    unfold mapModify
    rw [zero_add]
  · show mapModify _ 0 previous [] = _
    unfold mapModify
    rw [zero_add]

/-- `FormatDuration` by cases on the nanosecond count. -/
theorem formatDuration_eq (n : Int) :
    AdaptiveCpuStats.FormatDuration n =
      if n < 1000 then ((n : Rat), "ns")
      else if n < 1000000 then ((n : Rat) / 1000, "us")
      else if n < 100000000 then ((n : Rat) / 1000000, "ms")
      else ((n : Rat) / 1000000000, "s") := by
  have h1 : ((n : Rat) < 1000) ↔ n < 1000 := by exact_mod_cast Iff.rfl
  have h2 : ((n : Rat) < 1000 * 1000) ↔ n < 1000000 := by
    norm_num
    exact_mod_cast Iff.rfl
  have h3 : ((n : Rat) < 1000 * 1000 * 100) ↔ n < 100000000 := by
    norm_num
    exact_mod_cast Iff.rfl
  unfold AdaptiveCpuStats.FormatDuration
  simp only [h1, h2, h3]
  norm_num

/-- C29 (`FormatDuration` autoscaling).  For a duration of `n` nanoseconds the
result is `n` with the suffix "ns" when `n < 1000`, `n / 10^3` with "us" when
`1000 ≤ n < 10^6`, `n / 10^6` with "ms" when `10^6 ≤ n < 10^8`, and `n / 10^9`
with "s" when `n ≥ 10^8`. -/
theorem formatDuration_autoscaling (n : Int) :
    (n < 1000 → AdaptiveCpuStats.FormatDuration n = ((n : Rat), "ns")) ∧
    (1000 ≤ n → n < 10 ^ 6 →
      AdaptiveCpuStats.FormatDuration n = ((n : Rat) / 10 ^ 3, "us")) ∧
    (10 ^ 6 ≤ n → n < 10 ^ 8 →
      AdaptiveCpuStats.FormatDuration n = ((n : Rat) / 10 ^ 6, "ms")) ∧
    (10 ^ 8 ≤ n → AdaptiveCpuStats.FormatDuration n = ((n : Rat) / 10 ^ 9, "s")) := by
  rw [formatDuration_eq]
  refine ⟨?_, ?_, ?_, ?_⟩
  · intro h
    rw [if_pos h]
  · intro h1 h2
    rw [if_neg (by omega), if_pos (by omega)]
    norm_num
  · intro h1 h2
    rw [if_neg (by omega), if_neg (by omega), if_pos (by omega)]
    norm_num
  · intro h
    rw [if_neg (by omega), if_neg (by omega), if_neg (by omega)]
    norm_num

/-- The law of C29 at 300 ns and 1200 ns (the two durations of the repository
test `multipleRuns`, shown as "300.000000ns" and "1.200000us") and on both
sides of the threshold of 100 ms. -/
theorem formatDuration_autoscaling_witness :
    AdaptiveCpuStats.FormatDuration 300 = (300, "ns") ∧
    AdaptiveCpuStats.FormatDuration 1200 = (6 / 5, "us") ∧
    AdaptiveCpuStats.FormatDuration 99999999 = (99999999 / 1000000, "ms") ∧
    AdaptiveCpuStats.FormatDuration 100000000 = (1 / 10, "s") :=
  ⟨((formatDuration_autoscaling 300).1 (by decide)).trans (by norm_num),
   ((formatDuration_autoscaling 1200).2.1 (by decide) (by decide)).trans (by norm_num),
   ((formatDuration_autoscaling 99999999).2.2.1 (by decide) (by decide)).trans (by norm_num),
   ((formatDuration_autoscaling 100000000).2.2.2 (by decide)).trans (by norm_num)⟩

/-- The object at the end of the repository test `multipleRuns`, member by
member, when the four indeterminate members hold zero after construction. -/
theorem sampleStatsCalls_result :
    AdaptiveCpuStats.initial.callAll sampleStatsCalls =
      { mNumStartedRuns := 4
        mNumSuccessfulRuns := 4
        mStartTime := 1000
        mLastRunStartTime := 4000
        mLastRunSuccessTime := 4800
        mTotalRunDuration := 1200
        mNumThrottles := [(.THROTTLE_60, 2), (.THROTTLE_70, 1), (.THROTTLE_80, 1)]
        mThrottleDurations := [(.THROTTLE_60, 2800), (.THROTTLE_70, 900)]
        mNumDurations := [(.THROTTLE_60, 300), (.THROTTLE_70, 50)]
        mNumMissedDeadlines := [(.THROTTLE_60, 30), (.THROTTLE_70, 1)] } := by
  decide

/-- The object at the end of the repository test `multipleRuns`, member by
member, when after construction `mStartTime` holds 400 and `mTotalRunDuration`
holds 5. -/
theorem sampleStatsCalls_result_indeterminate :
    (AdaptiveCpuStats.constructed 400 0 0 5).callAll sampleStatsCalls =
      { mNumStartedRuns := 4
        mNumSuccessfulRuns := 4
        mStartTime := 400
        mLastRunStartTime := 4000
        mLastRunSuccessTime := 4800
        mTotalRunDuration := 1205
        mNumThrottles := [(.THROTTLE_60, 2), (.THROTTLE_70, 1), (.THROTTLE_80, 1)]
        mThrottleDurations := [(.THROTTLE_60, 2800), (.THROTTLE_70, 900)]
        mNumDurations := [(.THROTTLE_60, 300), (.THROTTLE_70, 50)]
        mNumMissedDeadlines := [(.THROTTLE_60, 30), (.THROTTLE_70, 1)] } := by
  decide

/-- C27 fails.  The members `mTotalRunDuration` and `mStartTime` have no
initialiser.  After any sequence of calls on a constructed object the count of
started runs is the number of `RegisterStartRun` calls, the count of successful
runs is the number of `RegisterSuccessfulRun` calls and the count of a decision
is the number of `RegisterSuccessfulRun` calls whose current decision it is, as
claimed; but the total run duration is what `mTotalRunDuration` held after
construction plus the sum, over the `RegisterSuccessfulRun` calls, of the time
since the most recent `RegisterStartRun`.  In the scenario of four runs on an
object in which `mTotalRunDuration` held 5 and `mStartTime` held 400, the total
is 1205 ns, the average 301 ns and the running fraction at 5000 ns
1205 / 4600, where the claim has 1200 ns, 300 ns and 0.3; these are the values
when both members held zero. -/
theorem run_totals_start_indeterminate :
    (∀ (startTime lastRunStartTime lastRunSuccessTime total : Int) (calls : List StatsCall),
      ((AdaptiveCpuStats.constructed startTime lastRunStartTime lastRunSuccessTime
        total).callAll calls).mNumStartedRuns = startCount calls ∧
      ((AdaptiveCpuStats.constructed startTime lastRunStartTime lastRunSuccessTime
        total).callAll calls).mNumSuccessfulRuns = (successTimes calls).length ∧
      ∀ decision : ThrottleDecision,
        (mapFind decision
          ((AdaptiveCpuStats.constructed startTime lastRunStartTime lastRunSuccessTime
            total).callAll calls).mNumThrottles).getD 0 =
          (successDecisions calls).count decision) ∧
    (∀ (startTime lastRunStartTime lastRunSuccessTime total firstStart : Int)
        (rest : List StatsCall),
      ((AdaptiveCpuStats.constructed startTime lastRunStartTime lastRunSuccessTime
        total).callAll (.RegisterStartRun firstStart :: rest)).mTotalRunDuration =
        total + (runDurations firstStart rest).sum) ∧
    runDurations 1000 sampleStatsCalls.tail = [100, 200, 100, 800] ∧
    ((AdaptiveCpuStats.constructed 400 0 0 5).callAll sampleStatsCalls).mNumStartedRuns = 4 ∧
    ((AdaptiveCpuStats.constructed 400 0 0 5).callAll sampleStatsCalls).mNumSuccessfulRuns = 4 ∧
    ((AdaptiveCpuStats.constructed 400 0 0 5).callAll sampleStatsCalls).mTotalRunDuration =
      1205 ∧
    ((AdaptiveCpuStats.constructed 400 0 0 5).callAll sampleStatsCalls).averageRunDuration =
      some 301 ∧
    ((AdaptiveCpuStats.constructed 400 0 0 5).callAll sampleStatsCalls).runningTimeFraction
      5000 = 1205 / 4600 ∧
    ((AdaptiveCpuStats.constructed 0 0 0 0).callAll sampleStatsCalls).mTotalRunDuration =
      1200 ∧
    ((AdaptiveCpuStats.constructed 0 0 0 0).callAll sampleStatsCalls).averageRunDuration =
      some 300 ∧
    ((AdaptiveCpuStats.constructed 0 0 0 0).callAll sampleStatsCalls).runningTimeFraction
      5000 = 3 / 10 ∧
    ((AdaptiveCpuStats.constructed 0 0 0 0).callAll sampleStatsCalls).dumpRunLines 5000 =
      some { numSuccessfulRuns := 4, numStartedRuns := 4, totalRunDuration := (6 / 5, "us"),
             averageRunDuration := (300, "ns"), runningTimeFraction := 3 / 10 } := by
  have hzero : (AdaptiveCpuStats.constructed 0 0 0 0).callAll sampleStatsCalls =
      AdaptiveCpuStats.initial.callAll sampleStatsCalls := rfl
  have hfraction :
      (AdaptiveCpuStats.initial.callAll sampleStatsCalls).runningTimeFraction 5000 = 3 / 10 := by
    rw [sampleStatsCalls_result]
    unfold AdaptiveCpuStats.runningTimeFraction
    norm_num
  have haverage :
      (AdaptiveCpuStats.initial.callAll sampleStatsCalls).averageRunDuration = some 300 := by
    rw [sampleStatsCalls_result]
    decide
  refine ⟨?_, ?_, by decide, ?_, ?_, ?_, ?_, ?_, ?_, ?_, ?_, ?_⟩
  · intro startTime lastRunStartTime lastRunSuccessTime total calls
    have hcounts := run_counts_callAll calls
      (AdaptiveCpuStats.constructed startTime lastRunStartTime lastRunSuccessTime total)
    refine ⟨?_, ?_, ?_⟩
    · rw [hcounts.1]
      exact Nat.zero_add _
    · rw [hcounts.2]
      exact Nat.zero_add _
    · intro decision
      rw [numThrottles_callAll decision calls _ (wellFormed_constructed _ _ _ _)]
      exact Nat.zero_add _
  · intro startTime lastRunStartTime lastRunSuccessTime total firstStart rest
    rw [totalRunDuration_callAll]
    show total + (runDurations lastRunStartTime (.RegisterStartRun firstStart :: rest)).sum = _
    rw [runDurations]
  · rw [sampleStatsCalls_result_indeterminate]
  · rw [sampleStatsCalls_result_indeterminate]
  · rw [sampleStatsCalls_result_indeterminate]
  · rw [sampleStatsCalls_result_indeterminate]
    decide
  · rw [sampleStatsCalls_result_indeterminate]
    unfold AdaptiveCpuStats.runningTimeFraction
    norm_num
  · rw [hzero, sampleStatsCalls_result]
  · rw [hzero]
    exact haverage
  · rw [hzero]
    exact hfraction
  · rw [hzero]
    unfold AdaptiveCpuStats.dumpRunLines
    rw [haverage]
    dsimp only
    rw [hfraction, sampleStatsCalls_result]
    dsimp only
    rw [formatDuration_eq, formatDuration_eq]
    norm_num

/-- The average run duration is undefined while no run has succeeded, and so
are the lines of the dump that show it. -/
theorem dumpRunLines_of_no_success (st : AdaptiveCpuStats) (now : Int)
    (h : st.mNumSuccessfulRuns = 0) :
    st.averageRunDuration = none ∧ st.dumpRunLines now = none := by
  have haverage : st.averageRunDuration = none := by
    unfold AdaptiveCpuStats.averageRunDuration
    rw [if_pos h]
  refine ⟨haverage, ?_⟩
  unfold AdaptiveCpuStats.dumpRunLines
  rw [haverage]

/-- C28 fails.  On a constructed `AdaptiveCpuStats`, which has no successful
run, the divisor `mNumSuccessfulRuns` of the average run duration that
`DumpToStream` computes is 0: the integer division is a division by zero and
the dump has no defined content.  The same holds after a run has been started
but has not succeeded, and in a controller whose statistics are in that
state. -/
theorem dump_divides_by_zero :
    AdaptiveCpuStats.initial.mNumSuccessfulRuns = 0 ∧
    AdaptiveCpuStats.initial.averageRunDuration = none ∧
    AdaptiveCpuStats.initial.dumpRunLines 5000 = none ∧
    (AdaptiveCpuStats.initial.RegisterStartRun 1000).mNumSuccessfulRuns = 0 ∧
    (AdaptiveCpuStats.initial.RegisterStartRun 1000).dumpRunLines 5000 = none ∧
    (sampleController .NO_THROTTLE 0).mAdaptiveCpuStats = AdaptiveCpuStats.initial ∧
    (sampleController .NO_THROTTLE 0).mAdaptiveCpuStats.dumpRunLines 5000 = none := by
  refine ⟨rfl, rfl, rfl, rfl, ?_, rfl, rfl⟩
  exact (dumpRunLines_of_no_success _ _ rfl).2

/-! ## Properties of the decision-to-hint map -/

/-- C30 (decision-to-hint map).  The lookup in `THROTTLE_DECISION_TO_HINT_NAMES`
succeeds for every decision, that is for every value 0..5; NO_THROTTLE maps to
the empty list and THROTTLE_p, for p in 50, 60, 70, 80, 90, to the list
LOW_POWER_LITTLE_CLUSTER_p, LOW_POWER_MID_CLUSTER_p, LOW_POWER_CPU_p, in this
order; a hint name in the lists of two decisions means that the two decisions
are the same. -/
theorem hint_map_total_and_disjoint :
    (∀ n : Nat, n ≤ 5 →
      ∃ decision, ThrottleDecision.ofNat? n = some decision ∧ decision.toNat = n ∧
        (hintNamesAt decision).isSome = true) ∧
    (∀ decision : ThrottleDecision, hintNamesAt decision = some (hintNames decision)) ∧
    hintNamesAt .NO_THROTTLE = some [] ∧
    hintNamesAt .THROTTLE_50 =
      some ["LOW_POWER_LITTLE_CLUSTER_50", "LOW_POWER_MID_CLUSTER_50", "LOW_POWER_CPU_50"] ∧
    hintNamesAt .THROTTLE_60 =
      some ["LOW_POWER_LITTLE_CLUSTER_60", "LOW_POWER_MID_CLUSTER_60", "LOW_POWER_CPU_60"] ∧
    hintNamesAt .THROTTLE_70 =
      some ["LOW_POWER_LITTLE_CLUSTER_70", "LOW_POWER_MID_CLUSTER_70", "LOW_POWER_CPU_70"] ∧
    hintNamesAt .THROTTLE_80 =
      some ["LOW_POWER_LITTLE_CLUSTER_80", "LOW_POWER_MID_CLUSTER_80", "LOW_POWER_CPU_80"] ∧
    hintNamesAt .THROTTLE_90 =
      some ["LOW_POWER_LITTLE_CLUSTER_90", "LOW_POWER_MID_CLUSTER_90", "LOW_POWER_CPU_90"] ∧
    (∀ (first second : ThrottleDecision) (hintName : String),
      hintName ∈ hintNames first → hintName ∈ hintNames second → first = second) := by
  refine ⟨?_, ?_, rfl, rfl, rfl, rfl, rfl, rfl, ?_⟩
  · intro n hn
    have hcases : n = 0 ∨ n = 1 ∨ n = 2 ∨ n = 3 ∨ n = 4 ∨ n = 5 := by omega
    rcases hcases with rfl | rfl | rfl | rfl | rfl | rfl
    · exact ⟨.NO_THROTTLE, rfl, rfl, rfl⟩
    · exact ⟨.THROTTLE_50, rfl, rfl, rfl⟩
    · exact ⟨.THROTTLE_60, rfl, rfl, rfl⟩
    · exact ⟨.THROTTLE_70, rfl, rfl, rfl⟩
    · exact ⟨.THROTTLE_80, rfl, rfl, rfl⟩
    · exact ⟨.THROTTLE_90, rfl, rfl, rfl⟩
  · intro decision
    cases decision <;> rfl
  · intro first second hintName h1 h2
    have hall : ∀ a b : ThrottleDecision, ∀ x ∈ hintNames a, x ∈ hintNames b → a = b := by
      intro a b
      cases a <;> cases b <;> decide
    exact hall first second hintName h1 h2

/-- The law of C30 at the values 0 and 3 and at the hint name
LOW_POWER_CPU_70, which only THROTTLE_70 has. -/
theorem hint_map_total_and_disjoint_witness :
    (∃ decision, ThrottleDecision.ofNat? 3 = some decision ∧ decision.toNat = 3 ∧
      (hintNamesAt decision).isSome = true) ∧
    "LOW_POWER_CPU_70" ∈ hintNames .THROTTLE_70 ∧
    ∀ second : ThrottleDecision, "LOW_POWER_CPU_70" ∈ hintNames second →
      ThrottleDecision.THROTTLE_70 = second :=
  ⟨hint_map_total_and_disjoint.1 3 (by decide), by decide,
   fun second h =>
     hint_map_total_and_disjoint.2.2.2.2.2.2.2.2 .THROTTLE_70 second "LOW_POWER_CPU_70"
       (by decide) h⟩

/-! ## Properties of what a loop pass hands to the model and to the statistics -/

/-- After the `sendHints` block the previous decision is the decision of the
pass, whether it changed or not; the statistics and the configuration are
untouched. -/
theorem sendHints_previous (s : AdaptiveCpu) (now : Int) (decision : ThrottleDecision) :
    (s.sendHints now decision).1.previousThrottleDecision = decision ∧
    (s.sendHints now decision).1.mAdaptiveCpuStats = s.mAdaptiveCpuStats ∧
    (s.sendHints now decision).1.mConfig = s.mConfig := by
  unfold AdaptiveCpu.sendHints
  dsimp only
  by_cases hsame : decision = s.previousThrottleDecision
  · subst hsame
    split_ifs <;> simp_all
  · split_ifs <;> simp_all

/-- In a pass that reaches the model, `RegisterSuccessfulRun` is called with
the decision of the pass in both decision arguments. -/
theorem iteration_registers_decision_twice (s s1 : AdaptiveCpu) (env : LoopEnv)
    (features : WorkDurationFeatures) (decision : ThrottleDecision)
    (h : s.computeDecision env = .ok (s1, features, decision)) :
    (s.RunMainLoopIteration env).state.mAdaptiveCpuStats =
      s1.mAdaptiveCpuStats.RegisterSuccessfulRun decision decision features s1.mConfig
        env.runSuccessTime := by
  obtain ⟨h1, h2, h3⟩ := sendHints_previous s1 env.now decision
  unfold AdaptiveCpu.RunMainLoopIteration
  rw [h]
  dsimp only
  rw [h1, h2, h3]

/-- C34 fails.  In a pass whose decision changes from THROTTLE_60 to
THROTTLE_70, 1000 ns after the previous successful pass and with one work
duration drained, `RegisterSuccessfulRun` is called after the local
`previousThrottleDecision` has been overwritten: the holding duration of
1000 ns and the work duration are recorded for THROTTLE_70, the new decision,
and nothing is recorded for THROTTLE_60, the decision that was in force. -/
theorem stats_attributed_to_new_decision :
    ((sampleController .NO_THROTTLE 0).run sampleChangingPasses).2.map
        (fun pass => pass.2.outcome) =
      [.completed .THROTTLE_60, .completed .THROTTLE_70] ∧
    ((sampleController .NO_THROTTLE 0).run
        sampleChangingPasses).1.mAdaptiveCpuStats.mThrottleDurations =
      [(.THROTTLE_70, 1000)] ∧
    ((sampleController .NO_THROTTLE 0).run
        sampleChangingPasses).1.mAdaptiveCpuStats.mNumDurations =
      [(.THROTTLE_70, 1)] ∧
    mapFind .THROTTLE_60
        ((sampleController .NO_THROTTLE 0).run
          sampleChangingPasses).1.mAdaptiveCpuStats.mThrottleDurations = none ∧
    mapFind .THROTTLE_60
        ((sampleController .NO_THROTTLE 0).run
          sampleChangingPasses).1.mAdaptiveCpuStats.mNumDurations = none := by
  decide

/-- C39 fails.  In the first pass of a controller on a device whose property
is "raven", `ReadDevice()` returns RAVEN and `mDevice` is set to it, but the
`device` field of the `ModelInput` handed to the model is never assigned.  Its
`previousThrottleDecision` is NO_THROTTLE, as claimed, and in the next pass it
is the decision of the first. -/
theorem model_input_device_unassigned :
    ReadDevice "raven" = .RAVEN ∧ ReadDevice "oriole" = .ORIOLE ∧
    ReadDevice "panther" = .UNKNOWN ∧
    (sampleFreshController.RunMainLoopIteration
        (sampleEnvRaven 1000 .THROTTLE_60)).outcome = .completed .THROTTLE_60 ∧
    (sampleFreshController.RunMainLoopIteration
        (sampleEnvRaven 1000 .THROTTLE_60)).state.mDevice = .RAVEN ∧
    (sampleFreshController.RunMainLoopIteration
        (sampleEnvRaven 1000 .THROTTLE_60)).state.historicalModelInputs.map
        (fun modelInput => (modelInput.device, modelInput.previousThrottleDecision)) =
      [(none, .NO_THROTTLE)] ∧
    (sampleFreshController.run
        [.loopPass (sampleEnvRaven 1000 .THROTTLE_60),
         .reportWorkDurations [⟨0, 16666666⟩] 16666666,
         .loopPass (sampleEnvRaven 2000 .THROTTLE_70)]).1.historicalModelInputs.map
        (fun modelInput => (modelInput.device, modelInput.previousThrottleDecision)) =
      [(none, .NO_THROTTLE), (none, .THROTTLE_60)] := by
  decide

/-- The `ModelInput` a pass forms has no assigned `device`, and carries the
previous decision of the loop and a non-zero count of durations. -/
theorem readModelInput_fields (s s1 : AdaptiveCpu) (env : LoopEnv) (modelInput : ModelInput)
    (h : s.readModelInput env = .ok (s1, modelInput)) :
    modelInput.device = none ∧
    modelInput.previousThrottleDecision = s.previousThrottleDecision ∧
    modelInput.workDurationFeatures.numDurations ≠ 0 ∧
    s1.historicalModelInputs = s.historicalModelInputs ∧
    s1.mAdaptiveCpuStats = s.mAdaptiveCpuStats := by
  unfold AdaptiveCpu.readModelInput at h
  dsimp only at h
  split_ifs at h with hzero
  split at h
  · cases h
  · injection h with h
    injection h with h1 h2
    subst h1 h2
    exact ⟨rfl, rfl, hzero, rfl, rfl⟩

/-- `keepsOutputs` is transitive. -/
theorem keepsOutputs_trans (s t u : AdaptiveCpu) (h1 : keepsOutputs s t)
    (h2 : keepsOutputs t u) : keepsOutputs s u :=
  ⟨h2.1.trans h1.1, h2.2.1.trans h1.2.1, h2.2.2.trans h1.2.2⟩

/-- The configuration reload, passed or failed, keeps the outputs; when it
fails the enable flag is cleared. -/
theorem reloadConfig_keeps (s : AdaptiveCpu) (env : LoopEnv) :
    (∀ t, s.reloadConfig env = .ok t → keepsOutputs s t) ∧
    (∀ stop, s.reloadConfig env = .error stop →
      keepsOutputs s stop.1 ∧ stop.1.mIsEnabled = false ∧ stop.2 = .configReadFailed) := by
  unfold AdaptiveCpu.reloadConfig
  dsimp only
  split_ifs
  · refine ⟨?_, ?_⟩
    · intro t h
      cases h
    · intro stop h
      injection h with h
      subst h
      exact ⟨⟨rfl, rfl, rfl⟩, rfl, rfl⟩
  · refine ⟨?_, ?_⟩
    · intro t h
      injection h with h
      subst h
      exact ⟨rfl, rfl, rfl⟩
    · intro stop h
      cases h
  · refine ⟨?_, ?_⟩
    · intro t h
      injection h with h
      subst h
      exact ⟨rfl, rfl, rfl⟩
    · intro stop h
      cases h

/-- The start of the run, passed or failed, keeps the outputs; when the
reader initialisation fails the enable flag is cleared. -/
theorem startRun_keeps (s : AdaptiveCpu) (env : LoopEnv) :
    (∀ t, s.startRun env = .ok t → keepsOutputs s t) ∧
    (∀ stop, s.startRun env = .error stop →
      keepsOutputs s stop.1 ∧ stop.1.mIsEnabled = false ∧ stop.2 = .readerInitFailed) := by
  have hstart : (s.mAdaptiveCpuStats.RegisterStartRun env.runStartTime).mNumSuccessfulRuns =
      s.mAdaptiveCpuStats.mNumSuccessfulRuns :=
    (registerStartRun_fields _ _).2.2.1
  unfold AdaptiveCpu.startRun
  dsimp only
  split_ifs
  · refine ⟨?_, ?_⟩
    · intro t h
      cases h
    · intro stop h
      injection h with h
      subst h
      exact ⟨⟨rfl, rfl, hstart⟩, rfl, rfl⟩
  · refine ⟨?_, ?_⟩
    · intro t h
      injection h with h
      subst h
      exact ⟨rfl, rfl, hstart⟩
    · intro stop h
      cases h
  · refine ⟨?_, ?_⟩
    · intro t h
      injection h with h
      subst h
      exact ⟨rfl, rfl, hstart⟩
    · intro stop h
      cases h

/-- Filling the model input, when it stops, keeps the outputs; it stops for
want of durations, or for want of CPU features with the enable flag cleared. -/
theorem readModelInput_keeps (s : AdaptiveCpu) (env : LoopEnv)
    (stop : AdaptiveCpu × LoopOutcome) (h : s.readModelInput env = .error stop) :
    keepsOutputs s stop.1 ∧
    (stop.2 = .noDurations ∨ (stop.2 = .cpuFeaturesFailed ∧ stop.1.mIsEnabled = false)) := by
  unfold AdaptiveCpu.readModelInput at h
  dsimp only at h
  split_ifs at h
  · injection h with h
    subst h
    exact ⟨⟨rfl, rfl, rfl⟩, Or.inl rfl⟩
  · split at h
    · injection h with h
      subst h
      exact ⟨⟨rfl, rfl, rfl⟩, Or.inr ⟨rfl, rfl⟩⟩
    · cases h

/-- A pass that stops at a `continue` keeps the outputs, and unless it stops
for want of durations it has cleared the enable flag. -/
theorem computeDecision_error_keeps (s : AdaptiveCpu) (env : LoopEnv)
    (stop : AdaptiveCpu × LoopOutcome) (h : s.computeDecision env = .error stop) :
    keepsOutputs s stop.1 ∧ (stop.2 = .noDurations ∨ stop.1.mIsEnabled = false) := by
  unfold AdaptiveCpu.computeDecision at h
  split at h
  · rename_i e hs
    injection h with h
    subst h
    rw [checkEnabledHint_error _ _ _ hs]
    exact ⟨⟨rfl, rfl, rfl⟩, Or.inr rfl⟩
  · rename_i a ha
    have e1 := checkEnabledHint_ok _ _ _ ha
    subst e1
    split at h
    · rename_i e hs
      injection h with h
      subst h
      obtain ⟨k, hoff, -⟩ := (reloadConfig_keeps _ env).2 _ hs
      exact ⟨k, Or.inr hoff⟩
    · rename_i b hb
      have k2 := (reloadConfig_keeps _ env).1 _ hb
      split at h
      · rename_i e hs
        injection h with h
        subst h
        obtain ⟨k, hoff, -⟩ := (startRun_keeps _ env).2 _ hs
        exact ⟨keepsOutputs_trans _ _ _ k2 k, Or.inr hoff⟩
      · rename_i c hc
        have k3 := (startRun_keeps _ env).1 _ hc
        split at h
        · rename_i e hs
          injection h with h
          subst h
          obtain ⟨k, hwhy⟩ := readModelInput_keeps _ env _ hs
          refine ⟨keepsOutputs_trans _ _ _ (keepsOutputs_trans _ _ _ k2 k3) k, ?_⟩
          rcases hwhy with hwhy | ⟨-, hoff⟩
          · exact Or.inl hwhy
          · exact Or.inr hoff
        · cases h

/-- A pass that stops at a `continue` makes no hint-manager call and ends in
the state and with the reason of the stop. -/
theorem iteration_of_error (s : AdaptiveCpu) (env : LoopEnv)
    (stop : AdaptiveCpu × LoopOutcome) (h : s.computeDecision env = .error stop) :
    s.RunMainLoopIteration env = { state := stop.1, hintCalls := [], outcome := stop.2 } := by
  unfold AdaptiveCpu.RunMainLoopIteration
  rw [h]

/-- A pass that reaches the model has appended to the history a `ModelInput`
whose count of durations is not zero. -/
theorem computeDecision_ok_history (s s1 : AdaptiveCpu) (env : LoopEnv)
    (features : WorkDurationFeatures) (decision : ThrottleDecision)
    (h : s.computeDecision env = .ok (s1, features, decision)) :
    ∃ modelInput : ModelInput, modelInput.workDurationFeatures.numDurations ≠ 0 ∧
      s1.historicalModelInputs = pushModelInput s.historicalModelInputs modelInput := by
  unfold AdaptiveCpu.computeDecision at h
  split at h
  · cases h
  · rename_i a ha
    have e1 := checkEnabledHint_ok _ _ _ ha
    subst e1
    split at h
    · cases h
    · rename_i b hb
      have k2 := (reloadConfig_keeps _ env).1 _ hb
      split at h
      · cases h
      · rename_i c hc
        have k3 := (startRun_keeps _ env).1 _ hc
        split at h
        · cases h
        · rename_i d modelInput hd
          obtain ⟨-, -, hcount, hhist, -⟩ := readModelInput_fields _ _ env _ hd
          injection h with h
          injection h with h1 h2
          subst h1
          refine ⟨modelInput, hcount, ?_⟩
          unfold AdaptiveCpu.runModel
          dsimp only
          rw [hhist, k3.2.1, k2.2.1]

/-- The members of the history after a push are the pushed input and members
of the history before. -/
theorem mem_pushModelInput (history : List ModelInput) (modelInput m : ModelInput)
    (h : m ∈ pushModelInput history modelInput) : m ∈ history ∨ m = modelInput := by
  unfold pushModelInput at h
  dsimp only at h
  split_ifs at h
  · have h1 := List.mem_of_mem_tail h
    rcases List.mem_append.1 h1 with h2 | h2
    · exact Or.inl h2
    · exact Or.inr (List.mem_singleton.1 h2)
  · rcases List.mem_append.1 h with h2 | h2
    · exact Or.inl h2
    · exact Or.inr (List.mem_singleton.1 h2)

/-- The `sendHints` block leaves the history as it is. -/
theorem sendHints_history (s : AdaptiveCpu) (now : Int) (decision : ThrottleDecision) :
    (s.sendHints now decision).1.historicalModelInputs = s.historicalModelInputs := by
  unfold AdaptiveCpu.sendHints
  dsimp only
  split_ifs <;> rfl

/-- A loop pass keeps the history free of inputs with a zero count. -/
theorem iteration_history_counts (s : AdaptiveCpu) (env : LoopEnv)
    (h : ∀ m ∈ s.historicalModelInputs, 0 < m.workDurationFeatures.numDurations) :
    ∀ m ∈ (s.RunMainLoopIteration env).state.historicalModelInputs,
      0 < m.workDurationFeatures.numDurations := by
  cases hc : s.computeDecision env with
  | error stop =>
    rw [iteration_of_error s env stop hc]
    dsimp only
    rw [(computeDecision_error_keeps s env stop hc).1.2.1]
    exact h
  | ok reached =>
    obtain ⟨s1, features, decision⟩ := reached
    obtain ⟨modelInput, hcount, hhist⟩ := computeDecision_ok_history s s1 env features decision hc
    have hstate : (s.RunMainLoopIteration env).state.historicalModelInputs =
        s1.historicalModelInputs := by
      unfold AdaptiveCpu.RunMainLoopIteration
      rw [hc]
      exact sendHints_history s1 env.now decision
    rw [hstate, hhist]
    intro m hm
    rcases mem_pushModelInput _ _ _ hm with hm | hm
    · exact h m hm
    · rw [hm]
      exact Nat.pos_of_ne_zero hcount

/-- An event keeps the history free of inputs with a zero count. -/
theorem handle_history_counts (s : AdaptiveCpu) (event : ControllerEvent)
    (h : ∀ m ∈ s.historicalModelInputs, 0 < m.workDurationFeatures.numDurations) :
    ∀ m ∈ (s.handle event).1.historicalModelInputs,
      0 < m.workDurationFeatures.numDurations := by
  cases event with
  | hintReceived enable now =>
    unfold AdaptiveCpu.handle AdaptiveCpu.HintReceived AdaptiveCpu.StartThread
      AdaptiveCpu.SuspendThread
    dsimp only
    split_ifs
    · intro m hm
      cases hm
    · exact h
    · exact h
  | reportWorkDurations workDurations targetDuration =>
    unfold AdaptiveCpu.handle AdaptiveCpu.ReportWorkDurations
    dsimp only
    split_ifs <;> exact h
  | loopPass env =>
    unfold AdaptiveCpu.handle
    dsimp only
    split_ifs
    · exact iteration_history_counts s env h
    · exact h

/-- A sequence of events keeps the history free of inputs with a zero
count. -/
theorem run_history_counts (events : List ControllerEvent) :
    ∀ s : AdaptiveCpu,
      (∀ m ∈ s.historicalModelInputs, 0 < m.workDurationFeatures.numDurations) →
      ∀ m ∈ (s.run events).1.historicalModelInputs,
        0 < m.workDurationFeatures.numDurations := by
  induction events with
  | nil => intro s h; exact h
  | cons event rest ih =>
    intro s h
    unfold AdaptiveCpu.run
    exact ih _ (handle_history_counts s event h)

/-- A configuration reload that passes, and a start of the run that passes,
leave the queue of work durations as it was; the reload also leaves the flag
`mIsInitialized` as it was. -/
theorem stages_keep_processor (s : AdaptiveCpu) (env : LoopEnv) :
    (∀ t, s.reloadConfig env = .ok t →
      t.mWorkDurationProcessor = s.mWorkDurationProcessor ∧
      t.mIsInitialized = s.mIsInitialized) ∧
    (∀ t, s.startRun env = .ok t → t.mWorkDurationProcessor = s.mWorkDurationProcessor) := by
  refine ⟨?_, ?_⟩
  · intro t h
    unfold AdaptiveCpu.reloadConfig at h
    dsimp only at h
    split_ifs at h <;> (injection h with h; subst h; exact ⟨rfl, rfl⟩)
  · intro t h
    unfold AdaptiveCpu.startRun at h
    dsimp only at h
    split_ifs at h <;> (injection h with h; subst h; rfl)

/-- A pass that stops at a `continue` for another reason than the want of
durations has cleared the enable flag, has made no hint-manager call and has
kept the previous decision, the history of model inputs and the count of
successful runs. -/
theorem iteration_of_failure (s : AdaptiveCpu) (env : LoopEnv)
    (stop : AdaptiveCpu × LoopOutcome) (h : s.computeDecision env = .error stop)
    (hwhy : stop.2 ≠ .noDurations) :
    (s.RunMainLoopIteration env).outcome = stop.2 ∧
    (s.RunMainLoopIteration env).state.mIsEnabled = false ∧
    (s.RunMainLoopIteration env).hintCalls = [] ∧
    keepsOutputs s (s.RunMainLoopIteration env).state := by
  obtain ⟨hkeep, hflag⟩ := computeDecision_error_keeps s env stop h
  rw [iteration_of_error s env stop h]
  refine ⟨rfl, ?_, rfl, hkeep⟩
  rcases hflag with hflag | hflag
  · exact absurd hflag hwhy
  · exact hflag

/-- The failing steps of a loop pass, in terms of what the pass reads.  Let
the enable hint not have timed out.  If the configuration is to be reloaded and
`ReadFromSystemProperties` returns false, the pass ends as `configReadFailed`.
If the reload is not due or passes, the reader is not initialised and
`mKernelCpuFeatureReader.Init()` returns false, the pass ends as
`readerInitFailed`.  If the reload and the initialisation are not due or pass,
the drained work durations contain an accepted one and `GetRecentCpuFeatures`
returns false, the pass ends as `cpuFeaturesFailed`.  In the three cases the
enable flag is cleared, no hint-manager call is made, and the previous
decision, the history of model inputs and the count of successful runs are
unchanged. -/
theorem failing_step_law (s : AdaptiveCpu) (env : LoopEnv)
    (hfresh : ¬ s.mLastEnabledHintTime + msToNs s.mConfig.enabledHintTimeout <
      env.timeAtLoopEntry) :
    (s.mShouldReloadConfig = true → (env.readFromSystemProperties s.mConfig).1 = false →
      (s.RunMainLoopIteration env).outcome = .configReadFailed ∧
      (s.RunMainLoopIteration env).state.mIsEnabled = false ∧
      (s.RunMainLoopIteration env).hintCalls = [] ∧
      keepsOutputs s (s.RunMainLoopIteration env).state) ∧
    ((s.mShouldReloadConfig = false ∨ (env.readFromSystemProperties s.mConfig).1 = true) →
      s.mIsInitialized = false → env.readerInit = false →
      (s.RunMainLoopIteration env).outcome = .readerInitFailed ∧
      (s.RunMainLoopIteration env).state.mIsEnabled = false ∧
      (s.RunMainLoopIteration env).hintCalls = [] ∧
      keepsOutputs s (s.RunMainLoopIteration env).state) ∧
    ((s.mShouldReloadConfig = false ∨ (env.readFromSystemProperties s.mConfig).1 = true) →
      (s.mIsInitialized = true ∨ env.readerInit = true) →
      s.mWorkDurationProcessor.averageDivisor ≠ 0 → env.recentCpuFeatures = none →
      (s.RunMainLoopIteration env).outcome = .cpuFeaturesFailed ∧
      (s.RunMainLoopIteration env).state.mIsEnabled = false ∧
      (s.RunMainLoopIteration env).hintCalls = [] ∧
      keepsOutputs s (s.RunMainLoopIteration env).state) := by
  have hcheck : s.checkEnabledHint env = .ok s := by
    unfold AdaptiveCpu.checkEnabledHint
    rw [if_neg hfresh]
  have hreloadOk : (s.mShouldReloadConfig = false ∨
      (env.readFromSystemProperties s.mConfig).1 = true) →
      ∃ s2, s.reloadConfig env = .ok s2 := by
    intro h
    unfold AdaptiveCpu.reloadConfig
    dsimp only
    by_cases hdue : s.mShouldReloadConfig = true
    · rcases h with h | h
      · rw [h] at hdue
        cases hdue
      · rw [if_pos hdue, if_neg (by simp [h])]
        exact ⟨_, rfl⟩
    · rw [if_neg hdue]
      exact ⟨_, rfl⟩
  refine ⟨?_, ?_, ?_⟩
  · intro hdue hfail
    have hreload : s.reloadConfig env =
        .error ({ s with mConfig := (env.readFromSystemProperties s.mConfig).2,
                         mIsEnabled := false }, .configReadFailed) := by
      unfold AdaptiveCpu.reloadConfig
      dsimp only
      rw [if_pos hdue, if_pos (by simp [hfail])]
    have hstop : s.computeDecision env =
        .error ({ s with mConfig := (env.readFromSystemProperties s.mConfig).2,
                         mIsEnabled := false }, .configReadFailed) := by
      unfold AdaptiveCpu.computeDecision
      rw [hcheck]
      dsimp only
      rw [hreload]
    exact iteration_of_failure s env _ hstop (by simp)
  · intro hreload hinit hfail
    obtain ⟨s2, hs2⟩ := hreloadOk hreload
    have hkept := ((stages_keep_processor s env).1 s2 hs2).2
    have hstart : s2.startRun env =
        .error ({ s2 with
          mAdaptiveCpuStats := s2.mAdaptiveCpuStats.RegisterStartRun env.runStartTime,
          mIsEnabled := false }, .readerInitFailed) := by
      unfold AdaptiveCpu.startRun
      dsimp only
      rw [if_pos (by simp [hkept, hinit]), if_pos (by simp [hfail])]
    have hstop : s.computeDecision env =
        .error ({ s2 with
          mAdaptiveCpuStats := s2.mAdaptiveCpuStats.RegisterStartRun env.runStartTime,
          mIsEnabled := false }, .readerInitFailed) := by
      unfold AdaptiveCpu.computeDecision
      rw [hcheck]
      dsimp only
      rw [hs2]
      dsimp only
      rw [hstart]
    exact iteration_of_failure s env _ hstop (by simp)
  · intro hreload hinit hcount hfail
    obtain ⟨s2, hs2⟩ := hreloadOk hreload
    obtain ⟨hproc2, hinit2⟩ := (stages_keep_processor s env).1 s2 hs2
    have hstartOk : ∃ s3, s2.startRun env = .ok s3 := by
      unfold AdaptiveCpu.startRun
      dsimp only
      by_cases hdone : s2.mIsInitialized = true
      · rw [if_neg (by simp [hdone])]
        exact ⟨_, rfl⟩
      · rcases hinit with hinit | hinit
        · rw [hinit2, hinit] at hdone
          exact absurd rfl hdone
        · rw [if_pos (by simpa using hdone), if_neg (by simp [hinit])]
          exact ⟨_, rfl⟩
    obtain ⟨s3, hs3⟩ := hstartOk
    have hproc3 := (stages_keep_processor s2 env).2 s3 hs3
    have hdivisor : s3.mWorkDurationProcessor.GetFeatures.1.numDurations ≠ 0 := by
      rw [hproc3, hproc2]
      exact hcount
    have hread : s3.readModelInput env =
        .error ({ s3 with mWorkDurationProcessor := s3.mWorkDurationProcessor.GetFeatures.2,
                          mIsEnabled := false }, .cpuFeaturesFailed) := by
      unfold AdaptiveCpu.readModelInput
      dsimp only
      rw [if_neg hdivisor, hfail]
    have hstop : s.computeDecision env =
        .error ({ s3 with mWorkDurationProcessor := s3.mWorkDurationProcessor.GetFeatures.2,
                          mIsEnabled := false }, .cpuFeaturesFailed) := by
      unfold AdaptiveCpu.computeDecision
      rw [hcheck]
      dsimp only
      rw [hs2]
      dsimp only
      rw [hs3]
      dsimp only
      rw [hread]
    exact iteration_of_failure s env _ hstop (by simp)

/-- The failing steps at three passes of `sampleController .THROTTLE_60 0`, in
which the model would have returned THROTTLE_70: one in which
`GetRecentCpuFeatures` fails, one in which the configuration is to be reloaded
and the reload fails, and one of a controller not yet initialised in which the
initialisation of the reader fails. -/
theorem failing_step_sample :
    ((sampleController .THROTTLE_60 0).RunMainLoopIteration
        (sampleEnvNoCpuFeatures 1000 .THROTTLE_70)).outcome = .cpuFeaturesFailed ∧
    ((sampleController .THROTTLE_60 0).RunMainLoopIteration
        (sampleEnvNoCpuFeatures 1000 .THROTTLE_70)).state.mIsEnabled = false ∧
    ((sampleController .THROTTLE_60 0).RunMainLoopIteration
        (sampleEnvNoCpuFeatures 1000 .THROTTLE_70)).hintCalls = [] ∧
    (AdaptiveCpu.RunMainLoopIteration
        { sampleController .THROTTLE_60 0 with mShouldReloadConfig := true }
        { sampleEnv 1000 .THROTTLE_70 with
          readFromSystemProperties := fun config => (false, config) }).outcome =
      .configReadFailed ∧
    (AdaptiveCpu.RunMainLoopIteration
        { sampleController .THROTTLE_60 0 with mIsInitialized := false }
        { sampleEnv 1000 .THROTTLE_70 with readerInit := false }).outcome =
      .readerInitFailed ∧
    ∀ m ∈ ((sampleController .NO_THROTTLE 0).run sampleChangingPasses).1.historicalModelInputs,
      0 < m.workDurationFeatures.numDurations :=
  ⟨((failing_step_law (sampleController .THROTTLE_60 0)
      (sampleEnvNoCpuFeatures 1000 .THROTTLE_70) (by decide)).2.2 (Or.inl rfl) (Or.inl rfl)
      (by decide) rfl).1,
   ((failing_step_law (sampleController .THROTTLE_60 0)
      (sampleEnvNoCpuFeatures 1000 .THROTTLE_70) (by decide)).2.2 (Or.inl rfl) (Or.inl rfl)
      (by decide) rfl).2.1,
   ((failing_step_law (sampleController .THROTTLE_60 0)
      (sampleEnvNoCpuFeatures 1000 .THROTTLE_70) (by decide)).2.2 (Or.inl rfl) (Or.inl rfl)
      (by decide) rfl).2.2.1,
   ((failing_step_law { sampleController .THROTTLE_60 0 with mShouldReloadConfig := true }
      { sampleEnv 1000 .THROTTLE_70 with
        readFromSystemProperties := fun config => (false, config) } (by decide)).1 rfl rfl).1,
   ((failing_step_law { sampleController .THROTTLE_60 0 with mIsInitialized := false }
      { sampleEnv 1000 .THROTTLE_70 with readerInit := false } (by decide)).2.1 (Or.inl rfl)
      rfl rfl).1,
   run_history_counts sampleChangingPasses (sampleController .NO_THROTTLE 0) (by decide)⟩

/-- C35 fails.  Let the controller be enabled and hold one batch whose only
duration, -5 ns, is rejected by `GetFeatures`.  The wait predicate holds, so a
loop pass takes place; the enabled-hint test, the configuration reload and the
start of the run pass and leave the queue as it is; and in the `GetFeatures`
that follows no duration is accepted, so that the divisor `numDurations` of
`durationsSum / numDurations` is 0: the pass divides by zero before it reaches
the test `numDurations == 0` and its `continue`, where the claim has a pass
with the count 0 end without a hint and without a change of the history.  This
is so for every controller none of whose queued durations is accepted. -/
theorem zero_count_pass_divides_by_zero :
    sampleControllerNoAccepted.WaitForEnabledAndWorkDurations = true ∧
    acceptedDurations
      sampleControllerNoAccepted.mWorkDurationProcessor.mWorkDurationBatches = [] ∧
    sampleControllerNoAccepted.checkEnabledHint (sampleEnv 1000 .THROTTLE_70) =
      .ok sampleControllerNoAccepted ∧
    sampleControllerNoAccepted.reloadConfig (sampleEnv 1000 .THROTTLE_70) =
      .ok sampleControllerNoAccepted ∧
    sampleControllerNoAccepted.startRun (sampleEnv 1000 .THROTTLE_70) =
      .ok { sampleControllerNoAccepted with
        mAdaptiveCpuStats :=
          sampleControllerNoAccepted.mAdaptiveCpuStats.RegisterStartRun 1000 } ∧
    sampleControllerNoAccepted.mWorkDurationProcessor.averageDivisor = 0 ∧
    (∀ (s t u : AdaptiveCpu) (env : LoopEnv),
      acceptedDurations s.mWorkDurationProcessor.mWorkDurationBatches = [] →
      s.reloadConfig env = .ok t → t.startRun env = .ok u →
      u.mWorkDurationProcessor.averageDivisor = 0) := by
  refine ⟨by decide, by decide, rfl, rfl, rfl, by decide, ?_⟩
  intro s t u env hnone ht hu
  rw [(stages_keep_processor t env).2 u hu, ((stages_keep_processor s env).1 t ht).1]
  exact (getFeatures_zero_record s.mWorkDurationProcessor hnone).2

/-! ## Properties of the round trip of the option list -/

/-- C36 (round trip).  For every non-empty list of decisions,
`ParseThrottleDecisions` applied to what `FormatThrottleDecisions` returns for
it, with an empty output vector, returns true and yields the list itself.  So
a load in which `GetProperty` returns the formatted default list for the
absent option property, the percent being at most 100, returns true with the
default list as its options. -/
theorem option_list_round_trip (decisions : List ThrottleDecision) (hne : decisions ≠ [])
    (props : SystemProperties) (output : AdaptiveCpuConfig)
    (hpercent : props.GetUintProperty kRandomThrottleDecisionPercentProperty 0 ≤ 100)
    (habsent : ∀ defaultValue,
      props.GetProperty kRandomThrottleOptionsProperty defaultValue = defaultValue) :
    ParseThrottleDecisions (FormatThrottleDecisions decisions) [] = (true, decisions) ∧
    (AdaptiveCpuConfig.ReadFromSystemProperties props output).1 = true ∧
    (AdaptiveCpuConfig.ReadFromSystemProperties props output).2.randomThrottleOptions =
      AdaptiveCpuConfig.DEFAULT.randomThrottleOptions := by
  have hparse : ParseThrottleDecisions
      (props.GetProperty kRandomThrottleOptionsProperty
        (FormatThrottleDecisions AdaptiveCpuConfig.DEFAULT.randomThrottleOptions)) [] =
      (true, AdaptiveCpuConfig.DEFAULT.randomThrottleOptions) := by
    rw [habsent, parse_format _ (by decide) []]
    rfl
  refine ⟨?_, ?_, ?_⟩
  · rw [parse_format decisions hne []]
    rfl
  · rw [readFromSystemProperties_ok props output _ hpercent hparse]
  · rw [readFromSystemProperties_ok props output _ hpercent hparse]

/-- The round trip of C36 at the list THROTTLE_90, NO_THROTTLE, THROTTLE_70,
THROTTLE_70, which is formatted as "5,0,3,3", and the load over a property
store in which every property is empty. -/
theorem option_list_round_trip_witness :
    FormatThrottleDecisions [.THROTTLE_90, .NO_THROTTLE, .THROTTLE_70, .THROTTLE_70] =
      "5,0,3,3" ∧
    ParseThrottleDecisions "5,0,3,3" [] =
      (true, [.THROTTLE_90, .NO_THROTTLE, .THROTTLE_70, .THROTTLE_70]) ∧
    (AdaptiveCpuConfig.ReadFromSystemProperties (androidProperties (fun _ => ""))
        AdaptiveCpuConfig.DEFAULT).2.randomThrottleOptions =
      [.NO_THROTTLE, .THROTTLE_50, .THROTTLE_60, .THROTTLE_70, .THROTTLE_80, .THROTTLE_90] :=
  ⟨by decide,
   (option_list_round_trip [.THROTTLE_90, .NO_THROTTLE, .THROTTLE_70, .THROTTLE_70]
      (by decide) (androidProperties (fun _ => "")) AdaptiveCpuConfig.DEFAULT (by decide)
      (fun _ => rfl)).1,
   (option_list_round_trip [.THROTTLE_90, .NO_THROTTLE, .THROTTLE_70, .THROTTLE_70]
      (by decide) (androidProperties (fun _ => "")) AdaptiveCpuConfig.DEFAULT (by decide)
      (fun _ => rfl)).2.2⟩

/-! ## Properties of the features as a function of the durations -/

/-- The lines of the first sample content and what `ReadCpuTimes` makes of
them with 100 clock ticks per second. -/
theorem sampleProcStat_read :
    getlines sampleProcStatBefore.toList =
      ["bad line".toList, "cpu1 100 0 0 50 0 0 0 0 0 0".toList,
       "cpu2 200 0 0 50 0 0 0 0 0 0".toList] ∧
    sscanfCpuLine "bad line".toList = none ∧
    sscanfCpuLine "cpu1 100 0 0 50 0 0 0 0 0 0".toList =
      some (1, [100, 0, 0, 50, 0, 0, 0, 0, 0, 0]) ∧
    CpuLoadReaderProcStat.ReadCpuTimes (some sampleProcStatBefore) 100 [] =
      (true, [(1, ⟨500, 1500⟩), (2, ⟨500, 2500⟩)]) ∧
    CpuLoadReaderProcStat.ReadCpuTimes (some sampleProcStatAfter) 100 [] =
      (true, [(1, ⟨1500, 3500⟩), (2, ⟨1500, 6500⟩)]) := by
  decide

/-- The keys after `map[key] = value` are `key` and the keys before. -/
theorem mem_natMapInsert {α : Type} (key : Nat) (value : α) (m : List (Nat × α))
    (entry : Nat × α) (h : entry ∈ natMapInsert key value m) :
    entry.1 = key ∨ ∃ old ∈ m, old.1 = entry.1 := by
  induction m with
  | nil =>
    unfold natMapInsert at h
    rw [List.mem_singleton] at h
    subst h
    exact Or.inl rfl
  | cons head rest ih =>
    obtain ⟨k, v⟩ := head
    unfold natMapInsert at h
    split_ifs at h with hk hlt
    · rcases List.mem_cons.1 h with rfl | h
      · exact Or.inl hk.symm
      · exact Or.inr ⟨entry, List.mem_cons_of_mem _ h, rfl⟩
    · rcases List.mem_cons.1 h with rfl | h
      · exact Or.inl rfl
      · exact Or.inr ⟨entry, h, rfl⟩
    · rcases List.mem_cons.1 h with rfl | h
      · exact Or.inr ⟨(k, v), List.mem_cons_self _ _, rfl⟩
      · rcases ih h with hkey | ⟨old, hold, hsame⟩
        · exact Or.inl hkey
        · exact Or.inr ⟨old, List.mem_cons_of_mem _ hold, hsame⟩

/-- The statement `map[key] = value` keeps the keys in increasing order. -/
theorem natMapSorted_insert {α : Type} (key : Nat) (value : α) (m : List (Nat × α))
    (hm : natMapSorted m) : natMapSorted (natMapInsert key value m) := by
  induction m with
  | nil =>
    unfold natMapInsert natMapSorted
    simp
  | cons head rest ih =>
    obtain ⟨k, v⟩ := head
    have hm0 := hm
    unfold natMapSorted at hm
    rw [List.map_cons, List.pairwise_cons] at hm
    unfold natMapInsert
    split_ifs with hk hlt
    · unfold natMapSorted
      rw [List.map_cons, List.pairwise_cons]
      exact hm
    · unfold natMapSorted
      rw [List.map_cons, List.pairwise_cons]
      refine ⟨?_, hm0⟩
      intro b hb
      obtain ⟨entry, hmem, rfl⟩ := List.mem_map.1 hb
      rcases List.mem_cons.1 hmem with rfl | hmem
      · exact hlt
      · exact lt_trans hlt (hm.1 _ (List.mem_map.2 ⟨entry, hmem, rfl⟩))
    · have hgt : k < key := by omega
      unfold natMapSorted
      rw [List.map_cons, List.pairwise_cons]
      refine ⟨?_, ih hm.2⟩
      intro b hb
      obtain ⟨entry, hmem, rfl⟩ := List.mem_map.1 hb
      rcases mem_natMapInsert key value rest entry hmem with hkey | ⟨old, hold, hsame⟩
      · rw [hkey]
        exact hgt
      · rw [← hsame]
        exact hm.1 _ (List.mem_map.2 ⟨old, hold, rfl⟩)

/-- A key below all keys of a map is missing from it. -/
theorem natMapFind_of_lt {α : Type} (key : Nat) (m : List (Nat × α))
    (h : ∀ entry ∈ m, key < entry.1) : natMapFind key m = none := by
  induction m with
  | nil => rfl
  | cons entry rest ih =>
    obtain ⟨k, v⟩ := entry
    have hk : key ≠ k := by
      have := h (k, v) (List.mem_cons_self _ _)
      exact Nat.ne_of_lt this
    unfold natMapFind
    rw [if_neg hk]
    exact ih (fun entry hmem => h entry (List.mem_cons_of_mem _ hmem))

/-- After `map[key] = value` the lookup of `key` finds `value`. -/
theorem natMapFind_insert_self {α : Type} (key : Nat) (value : α) (m : List (Nat × α)) :
    natMapFind key (natMapInsert key value m) = some value := by
  induction m with
  | nil =>
    unfold natMapInsert natMapFind
    rw [if_pos rfl]
  | cons entry rest ih =>
    obtain ⟨k, v⟩ := entry
    unfold natMapInsert
    split_ifs with hk hlt
    · rw [natMapFind, if_pos hk]
    · rw [natMapFind, if_pos rfl]
    · rw [natMapFind, if_neg hk, ih]

/-- The statement `map[key] = value` leaves the entries of the other keys as
they were. -/
theorem natMapFind_insert_ne {α : Type} (key other : Nat) (value : α) (m : List (Nat × α))
    (h : other ≠ key) : natMapFind other (natMapInsert key value m) = natMapFind other m := by
  induction m with
  | nil =>
    unfold natMapInsert natMapFind
    rw [if_neg h]
    rfl
  | cons entry rest ih =>
    obtain ⟨k, v⟩ := entry
    unfold natMapInsert
    split_ifs with hk hlt
    · subst hk
      rw [natMapFind, if_neg h, natMapFind, if_neg h]
    · rw [natMapFind, if_neg h]
    · rw [natMapFind, natMapFind, ih]

/-- An entry of an ordered map is what the lookup of its key finds. -/
theorem natMapFind_of_mem {α : Type} (m : List (Nat × α)) (hm : natMapSorted m)
    (entry : Nat × α) (h : entry ∈ m) : natMapFind entry.1 m = some entry.2 := by
  induction m with
  | nil => cases h
  | cons head rest ih =>
    obtain ⟨k, v⟩ := head
    unfold natMapSorted at hm
    rw [List.map_cons, List.pairwise_cons] at hm
    rcases List.mem_cons.1 h with rfl | hrest
    · rw [natMapFind, if_pos rfl]
    · have hne : entry.1 ≠ k := by
        have := hm.1 entry.1 (List.mem_map.2 ⟨entry, hrest, rfl⟩)
        omega
      rw [natMapFind, if_neg hne]
      exact ih hm.2 hrest

/-- A line keeps the map that `ReadCpuTimes` builds ordered. -/
theorem natMapSorted_readCpuTimesLine (clockTicks : Nat)
    (result : List (Nat × ProcStatCpuTime)) (line : List Char) (h : natMapSorted result) :
    natMapSorted (readCpuTimesLine clockTicks result line) := by
  unfold readCpuTimesLine
  split
  · exact h
  · split
    · exact h
    · exact natMapSorted_insert _ _ _ h

/-- The lines of a file keep the map that `ReadCpuTimes` builds ordered. -/
theorem natMapSorted_readCpuTimesLines (clockTicks : Nat) (lines : List (List Char)) :
    ∀ result : List (Nat × ProcStatCpuTime), natMapSorted result →
      natMapSorted (lines.foldl (readCpuTimesLine clockTicks) result) := by
  induction lines with
  | nil => intro result h; exact h
  | cons line rest ih =>
    intro result h
    rw [List.foldl_cons]
    exact ih _ (natMapSorted_readCpuTimesLine clockTicks result line h)

/-- The map `ReadCpuTimes` returns in an empty map is ordered. -/
theorem natMapSorted_readCpuTimes (file : Option String) (clockTicks : Nat) :
    natMapSorted (CpuLoadReaderProcStat.ReadCpuTimes file clockTicks []).2 := by
  have hnil : natMapSorted ([] : List (Nat × ProcStatCpuTime)) := by
    unfold natMapSorted
    simp
  unfold CpuLoadReaderProcStat.ReadCpuTimes
  split
  · exact hnil
  · exact natMapSorted_readCpuTimesLines _ _ _ hnil

/-- `recentLoadDefined` in words. -/
theorem recentLoadDefined_iff (previousCpuTimes : List (Nat × ProcStatCpuTime))
    (entry : Nat × ProcStatCpuTime) :
    recentLoadDefined previousCpuTimes entry = true ↔
      ∃ previousCpuTime, natMapFind entry.1 previousCpuTimes = some previousCpuTime ∧
        recentIdleTimeMs entry.2 previousCpuTime ≤ recentTotalTimeMs entry.2 previousCpuTime := by
  unfold recentLoadDefined
  cases hfind : natMapFind entry.1 previousCpuTimes with
  | none => simp
  | some previousCpuTime => simp

/-- The loop of `GetRecentCpuLoads` returns false when it meets a CPU without
a previous entry or with more recent idle time than total time, the CPU ids
being below `NUM_CPU_CORES`. -/
theorem recentCpuLoadsLoop_false (previousCpuTimes : List (Nat × ProcStatCpuTime))
    (cpuTimes : List (Nat × ProcStatCpuTime)) :
    ∀ output : List DoubleValue, (∀ entry ∈ cpuTimes, entry.1 < NUM_CPU_CORES) →
      (∃ entry ∈ cpuTimes, recentLoadDefined previousCpuTimes entry = false) →
      ∃ written, recentCpuLoadsLoop previousCpuTimes cpuTimes output = some (false, written) := by
  induction cpuTimes with
  | nil =>
    intro output _ hbad
    obtain ⟨entry, hmem, -⟩ := hbad
    cases hmem
  | cons head rest ih =>
    intro output hids hbad
    obtain ⟨cpuId, cpuTime⟩ := head
    have hid : cpuId < NUM_CPU_CORES := hids (cpuId, cpuTime) (List.mem_cons_self _ _)
    unfold recentCpuLoadsLoop
    cases hfind : natMapFind cpuId previousCpuTimes with
    | none => exact ⟨output, rfl⟩
    | some previousCpuTime =>
      dsimp only
      by_cases hgt : recentIdleTimeMs cpuTime previousCpuTime >
          recentTotalTimeMs cpuTime previousCpuTime
      · rw [if_pos hgt]
        exact ⟨output, rfl⟩
      · rw [if_neg hgt, if_pos hid]
        apply ih _ (fun entry hmem => hids entry (List.mem_cons_of_mem _ hmem))
        obtain ⟨entry, hmem, hentry⟩ := hbad
        rcases List.mem_cons.1 hmem with rfl | hmem
        · have hgood : recentLoadDefined previousCpuTimes (cpuId, cpuTime) = true :=
            (recentLoadDefined_iff _ _).2 ⟨previousCpuTime, hfind, not_lt.1 hgt⟩
          rw [hgood] at hentry
          cases hentry
        · exact ⟨entry, hmem, hentry⟩

/-- When every CPU has a previous entry and no more recent idle time than
total time, the loop of `GetRecentCpuLoads` runs to its end: it has stored the
quotient of the two recent times at the index of every CPU and has left the
other elements of the output array as they were. -/
theorem recentCpuLoadsLoop_true (previousCpuTimes : List (Nat × ProcStatCpuTime))
    (cpuTimes : List (Nat × ProcStatCpuTime)) :
    ∀ output : List DoubleValue, natMapSorted cpuTimes →
      (∀ entry ∈ cpuTimes, entry.1 < NUM_CPU_CORES) → output.length = NUM_CPU_CORES →
      (∀ entry ∈ cpuTimes, recentLoadDefined previousCpuTimes entry = true) →
      ∃ written, recentCpuLoadsLoop previousCpuTimes cpuTimes output = some (true, written) ∧
        written.length = NUM_CPU_CORES ∧
        (∀ entry ∈ cpuTimes, ∀ previousCpuTime,
          natMapFind entry.1 previousCpuTimes = some previousCpuTime →
          written[entry.1]? =
            some (uint64Quotient (recentIdleTimeMs entry.2 previousCpuTime)
              (recentTotalTimeMs entry.2 previousCpuTime))) ∧
        ∀ i : Nat, (∀ entry ∈ cpuTimes, entry.1 ≠ i) → written[i]? = output[i]? := by
  induction cpuTimes with
  | nil =>
    intro output _ _ hlen _
    refine ⟨output, rfl, hlen, ?_, fun i _ => rfl⟩
    intro entry hmem
    cases hmem
  | cons head rest ih =>
    intro output hsorted hids hlen hgood
    obtain ⟨cpuId, cpuTime⟩ := head
    have hid : cpuId < NUM_CPU_CORES := hids (cpuId, cpuTime) (List.mem_cons_self _ _)
    obtain ⟨previousCpuTime, hfind, hle⟩ :=
      (recentLoadDefined_iff _ _).1 (hgood (cpuId, cpuTime) (List.mem_cons_self _ _))
    dsimp only at hfind hle
    unfold natMapSorted at hsorted
    rw [List.map_cons, List.pairwise_cons] at hsorted
    obtain ⟨written, hrun, hwlen, hvalues, hothers⟩ :=
      ih (output.set cpuId
            (uint64Quotient (recentIdleTimeMs cpuTime previousCpuTime)
              (recentTotalTimeMs cpuTime previousCpuTime)))
        hsorted.2 (fun entry hmem => hids entry (List.mem_cons_of_mem _ hmem))
        (by rw [List.length_set]; exact hlen)
        (fun entry hmem => hgood entry (List.mem_cons_of_mem _ hmem))
    refine ⟨written, ?_, hwlen, ?_, ?_⟩
    · unfold recentCpuLoadsLoop
      rw [hfind]
      dsimp only
      rw [if_neg (not_lt.2 hle), if_pos hid]
      exact hrun
    · intro entry hmem previous hprevious
      rcases List.mem_cons.1 hmem with rfl | hmem
      · dsimp only at hprevious ⊢
        rw [hfind] at hprevious
        injection hprevious with hprevious
        subst hprevious
        rw [hothers cpuId (fun entry hmem => by
          have := hsorted.1 entry.1 (List.mem_map.2 ⟨entry, hmem, rfl⟩)
          omega)]
        rw [List.getElem?_set_self (by rw [hlen]; exact hid)]
      · exact hvalues entry hmem previous hprevious
    · intro i hi
      rw [hothers i (fun entry hmem => hi entry (List.mem_cons_of_mem _ hmem))]
      have hne : cpuId ≠ i := hi (cpuId, cpuTime) (List.mem_cons_self _ _)
      rw [List.getElem?_set_ne hne]

/-- A `uint64_t` difference of two counters of which the later is not below
the earlier is their difference. -/
theorem recentTimes_of_le (cpuTime previousCpuTime : ProcStatCpuTime)
    (hidle : previousCpuTime.idleTimeMs ≤ cpuTime.idleTimeMs)
    (htotal : previousCpuTime.totalTimeMs ≤ cpuTime.totalTimeMs)
    (hidleRange : cpuTime.idleTimeMs < 2 ^ 64) (htotalRange : cpuTime.totalTimeMs < 2 ^ 64) :
    recentIdleTimeMs cpuTime previousCpuTime =
      cpuTime.idleTimeMs - previousCpuTime.idleTimeMs ∧
    recentTotalTimeMs cpuTime previousCpuTime =
      cpuTime.totalTimeMs - previousCpuTime.totalTimeMs := by
  unfold recentIdleTimeMs recentTotalTimeMs
  omega

/-- What a line that parses contributes to the map of `ReadCpuTimes`: the idle
time is `idle + ioWait` and the total time the sum of the ten values, both in
`uint64_t` and converted to milliseconds. -/
theorem readCpuTimesLine_parsed (clockTicks : Nat) (result : List (Nat × ProcStatCpuTime))
    (line : List Char) (cpuId user nice system idle ioWait irq softIrq steal guest guestNice : Nat)
    (h : sscanfCpuLine line =
      some (cpuId, [user, nice, system, idle, ioWait, irq, softIrq, steal, guest, guestNice])) :
    natMapFind cpuId (readCpuTimesLine clockTicks result line) =
      some { idleTimeMs := JiffiesToMs clockTicks ((idle + ioWait) % 2 ^ 64)
             totalTimeMs := JiffiesToMs clockTicks
               ((user + nice + system + idle + ioWait + irq + softIrq + steal + guest +
                 guestNice) % 2 ^ 64) } := by
  unfold readCpuTimesLine
  rw [h]
  dsimp only [cpuTimeOfValues]
  rw [natMapFind_insert_self]
  congr 3
  omega

/-- The quotient of two `uint64_t` values of which the first does not exceed
the second: a number between 0 and 1 when the divisor is not zero, and NaN,
which is not at most 1, when it is zero. -/
theorem uint64Quotient_of_le (numerator denominator : Nat) (h : numerator ≤ denominator) :
    (0 < denominator →
      uint64Quotient numerator denominator =
        .finite ((numerator : Rat) / (denominator : Rat)) ∧
      (0 : Rat) ≤ (numerator : Rat) / (denominator : Rat) ∧
      (numerator : Rat) / (denominator : Rat) ≤ 1 ∧
      (uint64Quotient numerator denominator).atMost 1 = true) ∧
    (denominator = 0 →
      uint64Quotient numerator denominator = .nan ∧
      (uint64Quotient numerator denominator).atMost 1 = false) := by
  refine ⟨?_, ?_⟩
  · intro hpos
    have hq : uint64Quotient numerator denominator =
        .finite ((numerator : Rat) / (denominator : Rat)) := by
      unfold uint64Quotient
      rw [if_neg (by omega)]
    have hle : (numerator : Rat) / (denominator : Rat) ≤ 1 := by
      rw [div_le_one (by exact_mod_cast hpos)]
      exact_mod_cast h
    refine ⟨hq, div_nonneg (Nat.cast_nonneg _) (Nat.cast_nonneg _), hle, ?_⟩
    rw [hq]
    unfold DoubleValue.atMost
    exact decide_eq_true hle
  · intro hzero
    have hq : uint64Quotient numerator denominator = .nan := by
      unfold uint64Quotient
      rw [if_pos hzero, if_pos (by omega)]
    refine ⟨hq, ?_⟩
    rw [hq]
    rfl

/-- The `/proc/stat` reader where the total time of every CPU has advanced.  A
line `cpuN` with ten integers yields, for CPU N, the idle time `idle + iowait`
and the total time that is the sum of the ten fields, converted from jiffies to
milliseconds.  Let `cpuTimes` be what these lines yield for a snapshot, all CPU
ids being below `NUM_CPU_CORES`.  `GetRecentCpuLoads` returns false when no
line parses, when a CPU of `cpuTimes` is missing from the previous snapshot,
and when the recent idle time of a CPU exceeds its recent total time.
Otherwise it returns true, stores `cpuTimes` as the previous snapshot, has
written for every CPU the quotient of its recent idle time by its recent total
time, a number between 0 and 1 when the total time has advanced and NaN when
it has not, and has left the other elements of the output array untouched.
The recent times are the differences to the previous snapshot when the
counters have not gone down. -/
theorem procStat_recent_loads (r : CpuLoadReaderProcStat) (content : String)
    (clockTicks : Nat) (output : List Rat) (cpuTimes : List (Nat × ProcStatCpuTime))
    (hread : cpuTimes = (CpuLoadReaderProcStat.ReadCpuTimes (some content) clockTicks []).2)
    (houtput : output.length = NUM_CPU_CORES)
    (hids : ∀ entry ∈ cpuTimes, entry.1 < NUM_CPU_CORES) :
    (∀ (result : List (Nat × ProcStatCpuTime)) (line : List Char)
        (cpuId user nice system idle ioWait irq softIrq steal guest guestNice : Nat),
      sscanfCpuLine line =
          some (cpuId, [user, nice, system, idle, ioWait, irq, softIrq, steal, guest,
            guestNice]) →
        natMapFind cpuId (readCpuTimesLine clockTicks result line) =
          some { idleTimeMs := JiffiesToMs clockTicks ((idle + ioWait) % 2 ^ 64)
                 totalTimeMs := JiffiesToMs clockTicks
                   ((user + nice + system + idle + ioWait + irq + softIrq + steal + guest +
                     guestNice) % 2 ^ 64) }) ∧
    (cpuTimes = [] →
      r.GetRecentCpuLoads (some content) clockTicks output =
        some (false, output.map DoubleValue.finite, r)) ∧
    ((∃ entry ∈ cpuTimes, natMapFind entry.1 r.mPreviousCpuTimes = none) →
      ∃ written, r.GetRecentCpuLoads (some content) clockTicks output =
        some (false, written, r)) ∧
    ((∃ entry ∈ cpuTimes, ∃ previousCpuTime,
        natMapFind entry.1 r.mPreviousCpuTimes = some previousCpuTime ∧
        recentIdleTimeMs entry.2 previousCpuTime > recentTotalTimeMs entry.2 previousCpuTime) →
      ∃ written, r.GetRecentCpuLoads (some content) clockTicks output =
        some (false, written, r)) ∧
    (cpuTimes ≠ [] →
      (∀ entry ∈ cpuTimes, recentLoadDefined r.mPreviousCpuTimes entry = true) →
      ∃ written, r.GetRecentCpuLoads (some content) clockTicks output =
          some (true, written, { mPreviousCpuTimes := cpuTimes }) ∧
        written.length = NUM_CPU_CORES ∧
        (∀ entry ∈ cpuTimes, ∀ previousCpuTime,
          natMapFind entry.1 r.mPreviousCpuTimes = some previousCpuTime →
          (0 < recentTotalTimeMs entry.2 previousCpuTime →
            written[entry.1]? =
              some (.finite ((recentIdleTimeMs entry.2 previousCpuTime : Rat) /
                (recentTotalTimeMs entry.2 previousCpuTime : Rat))) ∧
            (0 : Rat) ≤ (recentIdleTimeMs entry.2 previousCpuTime : Rat) /
              (recentTotalTimeMs entry.2 previousCpuTime : Rat) ∧
            (recentIdleTimeMs entry.2 previousCpuTime : Rat) /
              (recentTotalTimeMs entry.2 previousCpuTime : Rat) ≤ 1) ∧
          (recentTotalTimeMs entry.2 previousCpuTime = 0 →
            written[entry.1]? = some .nan)) ∧
        ∀ i : Nat, (∀ entry ∈ cpuTimes, entry.1 ≠ i) →
          written[i]? = (output.map DoubleValue.finite)[i]?) ∧
    (∀ cpuTime previousCpuTime : ProcStatCpuTime,
      previousCpuTime.idleTimeMs ≤ cpuTime.idleTimeMs →
      previousCpuTime.totalTimeMs ≤ cpuTime.totalTimeMs →
      cpuTime.idleTimeMs < 2 ^ 64 → cpuTime.totalTimeMs < 2 ^ 64 →
      recentIdleTimeMs cpuTime previousCpuTime =
        cpuTime.idleTimeMs - previousCpuTime.idleTimeMs ∧
      recentTotalTimeMs cpuTime previousCpuTime =
        cpuTime.totalTimeMs - previousCpuTime.totalTimeMs) := by
  have hsorted : natMapSorted cpuTimes := by
    rw [hread]
    exact natMapSorted_readCpuTimes _ _
  have hflag : (CpuLoadReaderProcStat.ReadCpuTimes (some content) clockTicks []).1 = true := rfl
  have hfalse : (∃ entry ∈ cpuTimes, recentLoadDefined r.mPreviousCpuTimes entry = false) →
      ∃ written, r.GetRecentCpuLoads (some content) clockTicks output =
        some (false, written, r) := by
    intro hbad
    have hne : cpuTimes ≠ [] := by
      obtain ⟨entry, hmem, -⟩ := hbad
      exact List.ne_nil_of_mem hmem
    obtain ⟨written, hloop⟩ :=
      recentCpuLoadsLoop_false r.mPreviousCpuTimes cpuTimes (output.map DoubleValue.finite)
        hids hbad
    refine ⟨written, ?_⟩
    unfold CpuLoadReaderProcStat.GetRecentCpuLoads
    dsimp only
    rw [hflag, ← hread]
    rw [if_neg (by simp), if_neg (by simpa using hne), hloop]
  refine ⟨fun result line cpuId user nice system idle ioWait irq softIrq steal guest guestNice h =>
      readCpuTimesLine_parsed clockTicks result line cpuId user nice system idle ioWait irq
        softIrq steal guest guestNice h, ?_, ?_, ?_, ?_,
    fun cpuTime previousCpuTime h1 h2 h3 h4 => recentTimes_of_le cpuTime previousCpuTime h1 h2 h3 h4⟩
  · intro hempty
    unfold CpuLoadReaderProcStat.GetRecentCpuLoads
    dsimp only
    rw [hflag, ← hread, hempty]
    rfl
  · rintro ⟨entry, hmem, hnone⟩
    apply hfalse
    refine ⟨entry, hmem, ?_⟩
    unfold recentLoadDefined
    rw [hnone]
  · rintro ⟨entry, hmem, previousCpuTime, hsome, hgt⟩
    apply hfalse
    refine ⟨entry, hmem, ?_⟩
    unfold recentLoadDefined
    rw [hsome]
    simpa using hgt
  · intro hne hgood
    obtain ⟨written, hloop, hlen, hvalues, hothers⟩ :=
      recentCpuLoadsLoop_true r.mPreviousCpuTimes cpuTimes (output.map DoubleValue.finite)
        hsorted hids (by rw [List.length_map]; exact houtput) hgood
    refine ⟨written, ?_, hlen, ?_, hothers⟩
    · unfold CpuLoadReaderProcStat.GetRecentCpuLoads
      dsimp only
      rw [hflag, ← hread]
      rw [if_neg (by simp), if_neg (by simpa using hne), hloop]
    · intro entry hmem previousCpuTime hprevious
      obtain ⟨previous, hfind, hle⟩ := (recentLoadDefined_iff _ _).1 (hgood entry hmem)
      rw [hprevious] at hfind
      injection hfind with hfind
      subst hfind
      have hq := uint64Quotient_of_le _ _ hle
      refine ⟨?_, ?_⟩
      · intro hpos
        obtain ⟨h1, h2, h3, -⟩ := hq.1 hpos
        rw [hvalues entry hmem _ hprevious, h1]
        exact ⟨rfl, h2, h3⟩
      · intro hzero
        rw [hvalues entry hmem _ hprevious, (hq.2 hzero).1]

/-- The repository test `GetRecentCpuLoads`: after the first content, the
second content yields the idle fraction 0.5 for CPU 1 and 0.25 for CPU 2, and
leaves the element of CPU 0 as it was. -/
theorem procStat_recent_loads_sample :
    (CpuLoadReaderProcStat.Init { mPreviousCpuTimes := [] } (some sampleProcStatBefore) 100) =
      (true, sampleProcStatReader) ∧
    ∃ written,
      sampleProcStatReader.GetRecentCpuLoads (some sampleProcStatAfter) 100 zeroLoads =
        some (true, written, sampleProcStatReaderAfter) ∧
      written[1]? = some (.finite (1 / 2)) ∧ written[2]? = some (.finite (1 / 4)) ∧
      written[0]? = some (.finite 0) := by
  refine ⟨by decide, ?_⟩
  obtain ⟨written, hrun, -, hvalues, hothers⟩ :=
    (procStat_recent_loads sampleProcStatReader sampleProcStatAfter 100 zeroLoads
      [(1, ⟨1500, 3500⟩), (2, ⟨1500, 6500⟩)] (by decide) rfl (by decide)).2.2.2.2.1
      (by decide) (by decide)
  refine ⟨written, hrun, ?_, ?_, ?_⟩
  · rw [((hvalues (1, ⟨1500, 3500⟩) (by decide) ⟨500, 1500⟩ rfl).1 (by decide)).1]
    norm_num [recentIdleTimeMs, recentTotalTimeMs]
  · rw [((hvalues (2, ⟨1500, 6500⟩) (by decide) ⟨500, 2500⟩ rfl).1 (by decide)).1]
    norm_num [recentIdleTimeMs, recentTotalTimeMs]
  · rw [hothers 0 (by decide)]
    rfl

/-- C31 fails.  Let `GetRecentCpuLoads` read a `/proc/stat` content equal to
the one read before it, here the second content of the repository test
`GetRecentCpuLoads` after an `Init` that read the same content.  For CPU 1 and
CPU 2 the recent idle time and the recent total time are both 0, the test
`recentIdleTimeMs > recentTotalTimeMs` does not hold, and the call returns true
having stored `0.0 / 0`, which is NaN, in the elements 1 and 2 of the output
array: a value reported on success that is not at most 1.  When the total time
of a CPU has advanced, as between the two contents of the test, the value
stored is a number that is at most 1. -/
theorem procStat_unchanged_snapshot_reports_nan :
    CpuLoadReaderProcStat.Init { mPreviousCpuTimes := [] } (some sampleProcStatAfter) 100 =
      (true, sampleProcStatReaderAfter) ∧
    recentIdleTimeMs ⟨1500, 3500⟩ ⟨1500, 3500⟩ = 0 ∧
    recentTotalTimeMs ⟨1500, 3500⟩ ⟨1500, 3500⟩ = 0 ∧
    uint64Quotient 0 0 = .nan ∧
    sampleProcStatReaderAfter.GetRecentCpuLoads (some sampleProcStatAfter) 100 zeroLoads =
      some (true,
        [.finite 0, .nan, .nan, .finite 0, .finite 0, .finite 0, .finite 0, .finite 0],
        sampleProcStatReaderAfter) ∧
    DoubleValue.nan.atMost 1 = false ∧
    (∀ numerator denominator : Nat, numerator ≤ denominator → 0 < denominator →
      (uint64Quotient numerator denominator).atMost 1 = true) := by
  refine ⟨by decide, by decide, by decide, by decide, by decide, by decide, ?_⟩
  intro numerator denominator hle hpos
  exact ((uint64Quotient_of_le numerator denominator hle).1 hpos).2.2.2

/-- C38 fails.  With a line for CPU 8 in two successive `/proc/stat` contents,
`sscanf` stores the CPU id 8, `Init` and `ReadCpuTimes` keep an entry for it,
and the loop of `GetRecentCpuLoads` writes the element 8 of the output array,
which has the elements 0..7.  A line `cpu-1` is parsed as well, with the CPU
id 4294967295. -/
theorem procStat_writes_out_of_range :
    sscanfCpuLine "cpu8 200 0 0 150 0 0 0 0 0 0".toList =
      some (8, [200, 0, 0, 150, 0, 0, 0, 0, 0, 0]) ∧
    CpuLoadReaderProcStat.Init { mPreviousCpuTimes := [] } (some sampleProcStatNineBefore) 100 =
      (true, { mPreviousCpuTimes := [(0, ⟨500, 1500⟩), (8, ⟨500, 1500⟩)] }) ∧
    CpuLoadReaderProcStat.ReadCpuTimes (some sampleProcStatNineAfter) 100 [] =
      (true, [(0, ⟨1500, 3500⟩), (8, ⟨1500, 3500⟩)]) ∧
    zeroLoads.length = NUM_CPU_CORES ∧
    CpuLoadReaderProcStat.GetRecentCpuLoads
        { mPreviousCpuTimes := [(0, ⟨500, 1500⟩), (8, ⟨500, 1500⟩)] }
        (some sampleProcStatNineAfter) 100 zeroLoads = none ∧
    sscanfCpuLine "cpu-1 200 0 0 150 0 0 0 0 0 0".toList =
      some (4294967295, [200, 0, 0, 150, 0, 0, 0, 0, 0, 0]) := by
  decide

/-! ## Properties of the cpuidle reader -/

/-- The repository test `CpuLoadReaderSysDevicesTest.GetRecentCpuLoads`, up to
the idle and total times read: `Init` at 1 ms finds the idle states `foo` and
`bar` and the idle times 600 and 1050 microseconds, and the read at 2 ms finds
900 and 1080. -/
theorem sampleSysFs_read :
    CpuLoadReaderSysDevices.Init sampleSysReader (sampleSysFs "100" "500" "1000" "50") 1000000 =
      (true,
        { mIdleStateNames := ["foo", "bar"]
          mPreviousCpuTimes :=
            [⟨600, 1000⟩, ⟨1050, 1000⟩, ⟨0, 1000⟩, ⟨0, 1000⟩, ⟨0, 1000⟩, ⟨0, 1000⟩, ⟨0, 1000⟩,
             ⟨0, 1000⟩] }) ∧
    CpuLoadReaderSysDevices.ReadCpuTimes
        { mIdleStateNames := ["foo", "bar"], mPreviousCpuTimes := [] }
        (sampleSysFs "200" "700" "1010" "70") 2000000
        (List.replicate 8 { idleTime := 0, totalTime := 0 }) =
      (true,
        [⟨900, 2000⟩, ⟨1080, 2000⟩, ⟨0, 2000⟩, ⟨0, 2000⟩, ⟨0, 2000⟩, ⟨0, 2000⟩, ⟨0, 2000⟩,
         ⟨0, 2000⟩]) := by
  decide

/-- A loop that stores `f i` at every index `i` below `n` of an array. -/
theorem foldl_set_range (f : Nat → Rat) (n : Nat) :
    ∀ output : List Rat, n ≤ output.length →
      ((List.range n).foldl (fun written i => written.set i (f i)) output).length =
        output.length ∧
      (∀ i : Nat, i < n →
        ((List.range n).foldl (fun written i => written.set i (f i)) output)[i]? =
          some (f i)) ∧
      ∀ i : Nat, n ≤ i →
        ((List.range n).foldl (fun written i => written.set i (f i)) output)[i]? =
          output[i]? := by
  induction n with
  | zero =>
    intro output _
    refine ⟨rfl, ?_, fun i _ => rfl⟩
    intro i hi
    omega
  | succ n ih =>
    intro output hn
    obtain ⟨hlen, hbelow, habove⟩ := ih output (by omega)
    rw [List.range_succ, List.foldl_append]
    simp only [List.foldl_cons, List.foldl_nil]
    refine ⟨by rw [List.length_set, hlen], ?_, ?_⟩
    · intro i hi
      by_cases hin : i = n
      · subst hin
        rw [List.getElem?_set_self (by rw [hlen]; omega)]
      · rw [List.getElem?_set_ne (Ne.symm hin)]
        exact hbelow i (by omega)
    · intro i hi
      rw [List.getElem?_set_ne (by omega)]
      exact habove i (by omega)

/-- What a successful `GetRecentCpuLoads` of the cpuidle reader returns: the
value of `recentSysLoad` for every CPU, and the times read as the previous
times. -/
theorem sysDevices_recent_loads (r : CpuLoadReaderSysDevices) (fs : Filesystem) (now : Int)
    (output : List Rat) (cpuTimes : List SysDevicesCpuTime)
    (hread : r.ReadCpuTimes fs now (List.replicate NUM_CPU_CORES { idleTime := 0, totalTime := 0 }) =
      (true, cpuTimes))
    (houtput : output.length = NUM_CPU_CORES) :
    (r.GetRecentCpuLoads fs now output).1 = true ∧
    (r.GetRecentCpuLoads fs now output).2.2 = { r with mPreviousCpuTimes := cpuTimes } ∧
    ∀ cpuId : Nat, cpuId < NUM_CPU_CORES →
      (r.GetRecentCpuLoads fs now output).2.1[cpuId]? =
        some (recentSysLoad (sysCpuTimeAt cpuTimes cpuId)
          (sysCpuTimeAt r.mPreviousCpuTimes cpuId)) := by
  unfold CpuLoadReaderSysDevices.GetRecentCpuLoads
  dsimp only
  rw [hread]
  refine ⟨rfl, rfl, ?_⟩
  intro cpuId hcpu
  exact (foldl_set_range
    (fun cpuId => recentSysLoad (sysCpuTimeAt cpuTimes cpuId)
      (sysCpuTimeAt r.mPreviousCpuTimes cpuId))
    NUM_CPU_CORES output (by rw [houtput])).2.1 cpuId hcpu

/-- The value stored for a CPU when the total time has advanced: the smaller
of the recent idle time and the recent total time, divided by the recent total
time; it is at most 1, and it is 1 when the recent idle time exceeds the
recent total time. -/
theorem recentSysLoad_bounds (cpuTime previousCpuTime : SysDevicesCpuTime)
    (hadvanced : previousCpuTime.totalTime < cpuTime.totalTime) :
    recentSysLoad cpuTime previousCpuTime =
      ((min (cpuTime.idleTime - previousCpuTime.idleTime)
          (cpuTime.totalTime - previousCpuTime.totalTime) : Int) : Rat) /
        ((cpuTime.totalTime - previousCpuTime.totalTime : Int) : Rat) ∧
    recentSysLoad cpuTime previousCpuTime ≤ 1 ∧
    (cpuTime.idleTime - previousCpuTime.idleTime >
        cpuTime.totalTime - previousCpuTime.totalTime →
      recentSysLoad cpuTime previousCpuTime = 1) := by
  have hpos : (0 : Int) < cpuTime.totalTime - previousCpuTime.totalTime := sub_pos.2 hadvanced
  have hposq : (0 : Rat) < ((cpuTime.totalTime - previousCpuTime.totalTime : Int) : Rat) := by
    exact_mod_cast hpos
  have hmin : (if cpuTime.idleTime - previousCpuTime.idleTime >
        cpuTime.totalTime - previousCpuTime.totalTime
      then cpuTime.totalTime - previousCpuTime.totalTime
      else cpuTime.idleTime - previousCpuTime.idleTime) =
      min (cpuTime.idleTime - previousCpuTime.idleTime)
        (cpuTime.totalTime - previousCpuTime.totalTime) := by
    split_ifs with h
    · exact (min_eq_right (le_of_lt h)).symm
    · exact (min_eq_left (not_lt.1 h)).symm
  have hvalue : recentSysLoad cpuTime previousCpuTime =
      ((min (cpuTime.idleTime - previousCpuTime.idleTime)
          (cpuTime.totalTime - previousCpuTime.totalTime) : Int) : Rat) /
        ((cpuTime.totalTime - previousCpuTime.totalTime : Int) : Rat) := by
    unfold recentSysLoad
    dsimp only
    rw [hmin]
  refine ⟨hvalue, ?_, ?_⟩
  · rw [hvalue, div_le_one hposq]
    exact_mod_cast min_le_right _ _
  · intro hgt
    rw [hvalue, min_eq_right (le_of_lt hgt)]
    exact div_self (ne_of_gt hposq)

/-- C32 fails.  Let the `time` file of the idle state `foo` of CPU 0 hold
2147483647 at `Init` (clock at 1 ms) and 2147483648 at the next read (clock at
2 ms), all other `time` files holding 0.  `atoi` converts the second content to
-2147483648, so the idle time of CPU 0 is read as -2147483648 microseconds
instead of the sum 2147483648 of its `time` files, and `GetRecentCpuLoads`
reports for CPU 0 the value -4294967295 / 1000 instead of
`min(1, 1000) / 1000`.  With the contents of the repository test the values
0.3 and 0.03 are reported. -/
theorem sysDevices_idle_time_truncated :
    atoi "2147483647".toList = 2147483647 ∧
    atoi "2147483648".toList = -2147483648 ∧
    (CpuLoadReaderSysDevices.Init sampleSysReader (sampleSysFs "2147483647" "0" "0" "0")
        1000000).2.mPreviousCpuTimes[0]? = some ⟨2147483647, 1000⟩ ∧
    ((CpuLoadReaderSysDevices.Init sampleSysReader (sampleSysFs "2147483647" "0" "0" "0")
        1000000).2.GetRecentCpuLoads (sampleSysFs "2147483648" "0" "0" "0") 2000000
        zeroLoads).2.2.mPreviousCpuTimes[0]? = some ⟨-2147483648, 2000⟩ ∧
    ((CpuLoadReaderSysDevices.Init sampleSysReader (sampleSysFs "2147483647" "0" "0" "0")
        1000000).2.GetRecentCpuLoads (sampleSysFs "2147483648" "0" "0" "0") 2000000
        zeroLoads).2.1[0]? = some (-4294967295 / 1000 : Rat) ∧
    ((CpuLoadReaderSysDevices.Init sampleSysReader (sampleSysFs "100" "500" "1000" "50")
        1000000).2.GetRecentCpuLoads (sampleSysFs "200" "700" "1010" "70") 2000000
        zeroLoads).2.1 = [3 / 10, 3 / 100, 0, 0, 0, 0, 0, 0] := by
  have hinit : (CpuLoadReaderSysDevices.Init sampleSysReader
      (sampleSysFs "2147483647" "0" "0" "0") 1000000).2 =
      { mIdleStateNames := ["foo", "bar"]
        mPreviousCpuTimes :=
          [⟨2147483647, 1000⟩, ⟨0, 1000⟩, ⟨0, 1000⟩, ⟨0, 1000⟩, ⟨0, 1000⟩, ⟨0, 1000⟩, ⟨0, 1000⟩,
           ⟨0, 1000⟩] } := by
    decide
  have hread : CpuLoadReaderSysDevices.ReadCpuTimes
      { mIdleStateNames := ["foo", "bar"]
        mPreviousCpuTimes :=
          [⟨2147483647, 1000⟩, ⟨0, 1000⟩, ⟨0, 1000⟩, ⟨0, 1000⟩, ⟨0, 1000⟩, ⟨0, 1000⟩, ⟨0, 1000⟩,
           ⟨0, 1000⟩] }
      (sampleSysFs "2147483648" "0" "0" "0") 2000000
      (List.replicate NUM_CPU_CORES { idleTime := 0, totalTime := 0 }) =
      (true,
        [⟨-2147483648, 2000⟩, ⟨0, 2000⟩, ⟨0, 2000⟩, ⟨0, 2000⟩, ⟨0, 2000⟩, ⟨0, 2000⟩, ⟨0, 2000⟩,
         ⟨0, 2000⟩]) := by
    decide
  have hinit2 : (CpuLoadReaderSysDevices.Init sampleSysReader
      (sampleSysFs "100" "500" "1000" "50") 1000000).2 =
      { mIdleStateNames := ["foo", "bar"]
        mPreviousCpuTimes :=
          [⟨600, 1000⟩, ⟨1050, 1000⟩, ⟨0, 1000⟩, ⟨0, 1000⟩, ⟨0, 1000⟩, ⟨0, 1000⟩, ⟨0, 1000⟩,
           ⟨0, 1000⟩] } := by
    decide
  have hread2 : CpuLoadReaderSysDevices.ReadCpuTimes
      { mIdleStateNames := ["foo", "bar"]
        mPreviousCpuTimes :=
          [⟨600, 1000⟩, ⟨1050, 1000⟩, ⟨0, 1000⟩, ⟨0, 1000⟩, ⟨0, 1000⟩, ⟨0, 1000⟩, ⟨0, 1000⟩,
           ⟨0, 1000⟩] }
      (sampleSysFs "200" "700" "1010" "70") 2000000
      (List.replicate NUM_CPU_CORES { idleTime := 0, totalTime := 0 }) =
      (true,
        [⟨900, 2000⟩, ⟨1080, 2000⟩, ⟨0, 2000⟩, ⟨0, 2000⟩, ⟨0, 2000⟩, ⟨0, 2000⟩, ⟨0, 2000⟩,
         ⟨0, 2000⟩]) := by
    decide
  refine ⟨by decide, by decide, by rw [hinit]; rfl, ?_, ?_, ?_⟩
  · rw [hinit, (sysDevices_recent_loads _ _ _ zeroLoads _ hread rfl).2.1]
    rfl
  · rw [hinit, (sysDevices_recent_loads _ _ _ zeroLoads _ hread rfl).2.2 0 (by decide)]
    norm_num [recentSysLoad, sysCpuTimeAt]
  · rw [hinit2]
    unfold CpuLoadReaderSysDevices.GetRecentCpuLoads
    dsimp only
    rw [hread2]
    norm_num [recentSysLoad, sysCpuTimeAt, zeroLoads, NUM_CPU_CORES, List.range,
      List.range.loop]

/-! ## Properties of the frequency reader -/

/-- The repository test `getRecentCpuPolicyFrequencies`: the first contents
are read as the previous times of `sampleFreqReader`, and after the second
contents the averages 1750 and 1500 are returned; the tests
`getRecentCpuPolicyFrequencies_frequenciesChange` and `_badFormat` return
false. -/
theorem sampleFreqFs_read :
    CpuFrequencyReader.ReadCpuPolicyFrequencies sampleFreqReader
        (sampleFreqFs "1000 5\n2000 4" "1500 1\n2500 23") [] =
      (true, sampleFreqReader.mPreviousCpuPolicyFrequencies) ∧
    sampleFreqReader.GetRecentCpuPolicyFrequencies
        (sampleFreqFs "1000 7\n2000 10" "1500 5\n2500 23") [] =
      (true, [⟨1, 1750⟩, ⟨2, 1500⟩],
        { sampleFreqReader with
          mPreviousCpuPolicyFrequencies :=
            [(1, [(1000, 70), (2000, 100)]), (2, [(1500, 50), (2500, 230)])] }) ∧
    (sampleFreqReader.GetRecentCpuPolicyFrequencies
        (sampleFreqFs "1000 6\n2001 4" "1500 5\n2500 23") []).1 = false ∧
    (sampleFreqReader.GetRecentCpuPolicyFrequencies
        (sampleFreqFs "1000 2\nfoo" "1500 5\n2500 23") []).1 = false := by
  decide

end Pixel
